import Mathlib

/-!
# diff-pdf: a shallow embedding of `src/diff-pdf.cpp`

The development models the pixel differ (`diff_images`), the page comparator
(`page_compare`), the document comparator (`doc_compare`) and the command line
(`main`).

* A cairo image surface is a record of width, height, row stride and a byte
  list; pointer arithmetic becomes offsets into that list.  A read outside the
  list yields `0` and a write outside the list is dropped.
* C `int`/`long` values that may become negative are `Int`; counters are `Nat`.
* The three bytes the source calls `cr`, `cg`, `cb` are the bytes at offsets
  `0`, `1`, `2` of a four byte pixel; the embedding keeps the source's naming.
* Poppler and the PDF output surface are external: the rasterizer is a
  parameter, the output surface is the ordered list of pages shown so far.
* `to_grayscale` is floating point in the source; it is a parameter here.
* A second copy of the differ, with every buffer access checked, is compared
  with the first to show that no access leaves its buffer.
* Command-line arguments are C strings, lists of characters; the file system
  and the opening of documents are parameters of `main`.
-/

namespace DiffPdf

/-! ## Data model -/

/-- Image surface in format `CAIRO_FORMAT_RGB24`: four bytes per pixel, rows
`stride` bytes apart, `data` the backing store. -/
structure Surface where
  width : Nat
  height : Nat
  stride : Nat
  data : List Nat
deriving DecidableEq, Repr

/-- Byte `c` of the pixel at column `x`, row `y` (`data + y*stride + 4*x + c`);
`0` when the offset lies outside `data`. -/
def Surface.chan (s : Surface) (x y c : Nat) : Nat :=
  s.data.getD (y * s.stride + 4 * x + c) 0

/-- The process-wide settings (`g_verbose` ... `g_mark_tol`, source lines 37-43). -/
structure Config where
  g_verbose : Bool
  g_skip_identical : Bool
  g_mark_differences : Bool
  g_channel_tolerance : Int
  g_grayscale : Bool
  g_resolution : Int
  g_mark_tol : Int
deriving DecidableEq, Repr

/-- The local `struct Rect` of `diff_images`. -/
structure Rect where
  x : Int
  y : Int
  width : Int
  height : Int
deriving DecidableEq, Repr

/-- The three rectangles of `diff_images` after lines 96-110. -/
structure Aligned where
  r1 : Rect
  r2 : Rect
  rdiff : Rect
deriving DecidableEq, Repr

/-- Loop state of the differ: the bytes of `diff`, the flags `changes` and
`linediff`, and the marks plotted into the thumbnail (kept as unscaled canvas
coordinates, the scaling being floating point). -/
structure DiffState where
  datadiff : List Nat
  changes : Bool
  linediff : Bool
  thumb : List (Int × Int)
deriving DecidableEq, Repr

/-- What `diff_images` hands back: the returned surface (`none` for `NULL`)
and the thumbnail marks when a thumbnail was requested. -/
structure DiffResult where
  diff : Option Surface
  thumbnail : Option (List (Int × Int))
deriving DecidableEq, Repr

/-! ## Pixel differ -/

/-- Counting loop `for (i = 0; i < n; i++) s = body i s`. -/
def forLoop {σ : Type} (body : Nat → σ → σ) : Nat → σ → σ
  | 0, s => s
  | n + 1, s => body n (forLoop body n s)

/-- Library call `cairo_image_surface_create(CAIRO_FORMAT_RGB24, w, h)`: a
zero-filled surface whose stride is four bytes per pixel. -/
def cairo_image_surface_create (w h : Int) : Surface :=
  { width := w.toNat, height := h.toNat, stride := 4 * w.toNat,
    data := List.replicate (4 * w.toNat * h.toNat) 0 }

/-- Filling the whole surface with white (lines 138-142). -/
def fill_white (s : Surface) : Surface :=
  { s with data := List.replicate s.data.length 255 }

/-- Rectangle of an optional surface (lines 96-99). -/
def surface_rect (s : Option Surface) : Rect :=
  { x := 0, y := 0,
    width := match s with
      | some a => (a.width : Int)
      | none => 0,
    height := match s with
      | some a => (a.height : Int)
      | none => 0 }

/-- Union rectangle and re-based input rectangles (lines 101-110). -/
def align (r1 r2 : Rect) : Aligned :=
  let rdiff : Rect :=
    { x := min r1.x r2.x, y := min r1.y r2.y,
      width := max (r1.x + r1.width) (r2.x + r2.width),
      height := max (r1.y + r1.height) (r2.y + r2.height) }
  { r1 := { r1 with x := r1.x - rdiff.x, y := r1.y - rdiff.y },
    r2 := { r2 with x := r2.x - rdiff.x, y := r2.y - rdiff.y },
    rdiff := { rdiff with x := rdiff.x - rdiff.x, y := rdiff.y - rdiff.y } }

/-- The test of lines 134-135: the two rectangles do not coincide. -/
def rects_mismatch (r1 r2 : Rect) : Bool :=
  r1.x != r2.x || r1.y != r2.y || r1.width != r2.width || r1.height != r2.height

/-- The per-pixel test of lines 180-185. -/
def pixel_differs (tol : Int) (cr1 cg1 cb1 cr2 cg2 cb2 : Nat) : Bool :=
  decide ((cr1 : Int) > (cr2 : Int) + tol) ||
  decide ((cr1 : Int) < (cr2 : Int) - tol) ||
  decide ((cg1 : Int) > (cg2 : Int) + tol) ||
  decide ((cg1 : Int) < (cg2 : Int) - tol) ||
  decide ((cb1 : Int) > (cb2 : Int) + tol) ||
  decide ((cb1 : Int) < (cb2 : Int) - tol)

/-- Library call `memcpy(dst + d, src + s, n)`. -/
def memcpy (dst : List Nat) (d : Nat) (src : List Nat) (s : Nat) (n : Nat) : List Nat :=
  forLoop (fun i acc => acc.set (d + i) (src.getD (s + i) 0)) n dst

/-- First loop of `diff_images` (lines 157-162): copy `s1` row by row. -/
def copy_s1 (s1 : Option Surface) (r1 : Rect) (stridediff : Nat) (datadiff : List Nat) :
    List Nat :=
  match s1 with
  | none => datadiff
  | some a =>
    let out := (r1.y * stridediff + r1.x * 4).toNat
    forLoop (fun y dd =>
      memcpy dd (out + y * stridediff) a.data (y * a.stride) (r1.width * 4).toNat)
      r1.height.toNat datadiff

section Differ

variable (cfg : Config) (to_grayscale : Nat → Nat → Nat → Nat)

/-- Body of the inner loop (lines 172-215) for the pixel at byte offset
`x = 4 * px` of row `y`; `out` and `d2` are the row pointers into `diff` and
`s2`. -/
def pixel_step (data2 : List Nat) (thumb_on : Bool) (r2 : Rect) (out d2 y : Nat)
    (px : Nat) (st : DiffState) : DiffState :=
  let x := 4 * px
  let cr1 := st.datadiff.getD (out + x + 0) 0
  let cg1 := st.datadiff.getD (out + x + 1) 0
  let cb1 := st.datadiff.getD (out + x + 2) 0
  let cr2 := data2.getD (d2 + x + 0) 0
  let cg2 := data2.getD (d2 + x + 1) 0
  let cb2 := data2.getD (d2 + x + 2) 0
  let st1 : DiffState :=
    if pixel_differs cfg.g_channel_tolerance cr1 cg1 cb1 cr2 cg2 cb2 then
      { st with
        changes := true, linediff := true,
        thumb := if thumb_on then st.thumb ++ [(r2.x + (px : Int), r2.y + (y : Int))]
                 else st.thumb }
    else st
  if cfg.g_grayscale then
    let gray1 := to_grayscale cr1 cg1 cb1 % 256
    let gray2 := to_grayscale cr2 cg2 cb2 % 256
    { st1 with
      datadiff := ((st1.datadiff.set (out + x + 0) gray2).set (out + x + 1)
        ((gray1 + gray2) / 2)).set (out + x + 2) gray1 }
  else
    { st1 with datadiff := st1.datadiff.set (out + x + 2) cb2 }

/-- The marking loop (lines 219-223) on the row starting at `out`. -/
def mark_row (out : Nat) (width : Int) (datadiff : List Nat) : List Nat :=
  forLoop (fun px dd =>
    ((dd.set (out + 4 * px + 0) 0).set (out + 4 * px + 1) 0).set (out + 4 * px + 2) 255)
    (if 10 < width then 10 else width).toNat datadiff

/-- Body of the outer loop (lines 169-224) for row `y` of `s2`. -/
def row_step (data2 : List Nat) (stride2 : Nat) (thumb_on : Bool) (r2 : Rect)
    (stridediff out0 : Nat) (y : Nat) (st : DiffState) : DiffState :=
  let out := out0 + y * stridediff
  let st1 := forLoop (pixel_step cfg to_grayscale data2 thumb_on r2 out (y * stride2) y)
    r2.width.toNat { st with linediff := false }
  if cfg.g_mark_differences && st1.linediff then
    { st1 with datadiff := mark_row out r2.width st1.datadiff }
  else st1

/-- Second loop of `diff_images` (lines 166-226). -/
def blend_s2 (s2 : Option Surface) (thumb_on : Bool) (r2 : Rect) (stridediff : Nat)
    (st : DiffState) : DiffState :=
  match s2 with
  | none => st
  | some b =>
    let out0 := (r2.y * stridediff + r2.x * 4).toNat
    forLoop (row_step cfg to_grayscale b.data b.stride thumb_on r2 stridediff out0)
      r2.height.toNat st

/-- The rectangles `r1`, `r2`, `rdiff` as they stand after line 110. -/
def diff_rects (s1 s2 : Option Surface) : Aligned :=
  align (surface_rect s1) (surface_rect s2)

/-- The surface `diff` after lines 114-143: freshly created, and cleared to
white when the rectangles do not coincide. -/
def diff_canvas (s1 s2 : Option Surface) : Surface :=
  let al := diff_rects s1 s2
  let diff := cairo_image_surface_create al.rdiff.width al.rdiff.height
  if rects_mismatch al.r1 al.r2 then fill_white diff else diff

/-- The bytes of `diff` after `s1` has been copied over (line 162). -/
def diff_base (s1 s2 : Option Surface) : List Nat :=
  copy_s1 s1 (diff_rects s1 s2).r1 (diff_canvas s1 s2).stride (diff_canvas s1 s2).data

/-- The state in which `diff_images` reaches line 228. -/
def diff_final (s1 s2 : Option Surface) (thumbnail_width : Int) : DiffState :=
  let al := diff_rects s1 s2
  blend_s2 cfg to_grayscale s2 (decide (thumbnail_width > 0)) al.r2 (diff_canvas s1 s2).stride
    { datadiff := diff_base s1 s2, changes := rects_mismatch al.r1 al.r2,
      linediff := false, thumb := [] }

/-- The function `diff_images` (lines 87-238).  The outer `none` is the failed
`assert(s1 || s2)`.  The parameters `offset_x` and `offset_y` are accepted and,
as in the source, not used.  The out-parameter `thumbnail` is the field
`thumbnail` of the result, written only when `thumbnail_width > 0`. -/
def diff_images (s1 s2 : Option Surface) (offset_x offset_y : Int)
    (thumbnail_width : Int) : Option DiffResult :=
  if s1.isNone && s2.isNone then none
  else
    let st := diff_final cfg to_grayscale s1 s2 thumbnail_width
    let thumbnail := if thumbnail_width > 0 then some st.thumb else none
    if st.changes then
      some { diff := some { diff_canvas s1 s2 with data := st.datadiff },
             thumbnail := thumbnail }
    else
      some { diff := none, thumbnail := thumbnail }

end Differ

/-! ## Specification vocabulary for the differ -/

/-- The test of lines 180-185 on pixel `px` of the row of `dd` starting at
`out` against the row of `data2` starting at `d2`. -/
def px_differs (tol : Int) (dd data2 : List Nat) (out d2 px : Nat) : Bool :=
  pixel_differs tol
    (dd.getD (out + 4 * px + 0) 0) (dd.getD (out + 4 * px + 1) 0) (dd.getD (out + 4 * px + 2) 0)
    (data2.getD (d2 + 4 * px + 0) 0) (data2.getD (d2 + 4 * px + 1) 0)
    (data2.getD (d2 + 4 * px + 2) 0)

/-- The byte the compositing rule of lines 206-215 leaves at offset `c < 3` of
a pixel whose canvas bytes were `cr1 cg1 cb1` and whose `s2` bytes are
`cr2 cg2 cb2`. -/
def composite_byte (cfg : Config) (to_grayscale : Nat → Nat → Nat → Nat) (c : Nat)
    (cr1 cg1 cb1 cr2 cg2 cb2 : Nat) : Nat :=
  if cfg.g_grayscale then
    match c with
    | 0 => to_grayscale cr2 cg2 cb2 % 256
    | 1 => (to_grayscale cr1 cg1 cb1 % 256 + to_grayscale cr2 cg2 cb2 % 256) / 2
    | _ => to_grayscale cr1 cg1 cb1 % 256
  else
    match c with
    | 0 => cr1
    | 1 => cg1
    | _ => cb2

/-- Byte `c` of pixel `px` after compositing, read from the row of `dd` at
`out` and the row of `data2` at `d2`. -/
def px_composite (cfg : Config) (to_grayscale : Nat → Nat → Nat → Nat)
    (dd data2 : List Nat) (out d2 px c : Nat) : Nat :=
  composite_byte cfg to_grayscale c
    (dd.getD (out + 4 * px + 0) 0) (dd.getD (out + 4 * px + 1) 0) (dd.getD (out + 4 * px + 2) 0)
    (data2.getD (d2 + 4 * px + 0) 0) (data2.getD (d2 + 4 * px + 1) 0)
    (data2.getD (d2 + 4 * px + 2) 0)

/-- The byte the marking loop of lines 219-223 writes at offset `c < 3`. -/
def mark_byte (c : Nat) : Nat := if c = 2 then 255 else 0

/-- The value of `linediff` at line 218: some pixel among the first `w` of the
row of `dd` at `out` differs from the row of `data2` at `d2`. -/
def row_flagged (tol : Int) (dd data2 : List Nat) (w out d2 : Nat) : Bool :=
  (List.range w).any (px_differs tol dd data2 out d2)

/-- Byte `c < 3` of pixel `px` of a row once the outer loop body (lines
169-224) has run on it: the mark when the row is flagged and marking is on,
the composited byte otherwise. -/
def row_result (cfg : Config) (to_grayscale : Nat → Nat → Nat → Nat)
    (dd data2 : List Nat) (w out d2 px c : Nat) : Nat :=
  if cfg.g_mark_differences = true ∧
      row_flagged cfg.g_channel_tolerance dd data2 w out d2 = true ∧ px < min 10 w then
    mark_byte c
  else px_composite cfg to_grayscale dd data2 out d2 px c

/-- Width of an optional buffer, an absent one counting as 0x0. -/
def buf_width (s : Option Surface) : Nat :=
  match s with
  | some a => a.width
  | none => 0

/-- Height of an optional buffer, an absent one counting as 0x0. -/
def buf_height (s : Option Surface) : Nat :=
  match s with
  | some a => a.height
  | none => 0

/-- Byte `c` of pixel `(x, y)` of an optional buffer. -/
def buf_chan (s : Option Surface) (x y c : Nat) : Nat :=
  match s with
  | some a => a.chan x y c
  | none => 0

/-- The data of an optional buffer and its stride. -/
def buf_data (s : Option Surface) : List Nat :=
  match s with
  | some a => a.data
  | none => []

/-- Row stride of an optional buffer (line 145-146). -/
def buf_stride (s : Option Surface) : Nat :=
  match s with
  | some a => a.stride
  | none => 0

/-- Specification of "no difference": the two buffers have the same width and
height and every colour channel of every pixel agrees up to the tolerance. -/
def within_tolerance (tol : Int) (s1 s2 : Option Surface) : Prop :=
  buf_width s1 = buf_width s2 ∧ buf_height s1 = buf_height s2 ∧
  ∀ x y c, x < buf_width s1 → y < buf_height s1 → c < 3 →
    |(buf_chan s1 x y c : Int) - (buf_chan s2 x y c : Int)| ≤ tol

/-- The surface `diff` as it stands when the second loop starts (line 166):
the canvas with `s1` copied over. -/
def diff_base_surface (s1 s2 : Option Surface) : Surface :=
  { diff_canvas s1 s2 with data := diff_base s1 s2 }

/-- The test of lines 180-185 for pixel `(x, y)` of `s2` against the pixel of
`diff` it is laid over. -/
def differs_at (cfg : Config) (s1 s2 : Option Surface) (x y : Nat) : Bool :=
  pixel_differs cfg.g_channel_tolerance
    ((diff_base_surface s1 s2).chan x y 0) ((diff_base_surface s1 s2).chan x y 1)
    ((diff_base_surface s1 s2).chan x y 2)
    (buf_chan s2 x y 0) (buf_chan s2 x y 1) (buf_chan s2 x y 2)

/-- The call returned `NULL`: it returned, and without a composite. -/
def returns_null (res : Option DiffResult) : Prop :=
  ∃ r, res = some r ∧ r.diff = none

/-- The value of `linediff` at line 218 for row `y` of `s2`. -/
def line_flagged (cfg : Config) (s1 s2 : Option Surface) (y : Nat) : Bool :=
  (List.range (buf_width s2)).any (fun x => differs_at cfg s1 s2 x y)

/-- Byte `c < 3` that the compositing rule (lines 206-215) writes for pixel
`(x, y)` of `s2`, from the pixel of `diff` under it and the pixel of `s2`. -/
def composite_at (cfg : Config) (to_grayscale : Nat → Nat → Nat → Nat)
    (s1 s2 : Option Surface) (x y c : Nat) : Nat :=
  composite_byte cfg to_grayscale c
    ((diff_base_surface s1 s2).chan x y 0) ((diff_base_surface s1 s2).chan x y 1)
    ((diff_base_surface s1 s2).chan x y 2)
    (buf_chan s2 x y 0) (buf_chan s2 x y 1) (buf_chan s2 x y 2)

/-- The surface `diff` at line 228, whether or not it is then returned. -/
def diff_surface (cfg : Config) (to_grayscale : Nat → Nat → Nat → Nat)
    (s1 s2 : Option Surface) (thumbnail_width : Int) : Surface :=
  { diff_canvas s1 s2 with data := (diff_final cfg to_grayscale s1 s2 thumbnail_width).datadiff }

/-! ## Page and document comparison -/

/-- What the program asks of Poppler about a page of type `Page`: the raster
`render_page` produces at a resolution (lines 50-82; floating point and
library rendering), the page size in points, and the width reported by
`poppler_page_get_thumbnail_size` (whatever the variable holds when the call
leaves it unset). -/
structure Poppler (Page Sz : Type) where
  render_page : Int → Page → Surface
  page_get_size : Page → Sz
  thumbnail_width : Option Page → Int

/-- One drawing operation on the current output page: the diff bitmap painted
at scale `72 / resolution` (lines 259-265), or the vector content of `page1`
(line 272). -/
inductive Paint (Page : Type) where
  | image (diff : Surface) (resolution : Int)
  | page (page1 : Option Page)

/-- The PDF output surface with its drawing context: the size declared for the
current page (`none` while the variables `w`, `h` were never written), the
operations drawn on the current page, and the pages committed by
`cairo_show_page`, oldest first. -/
structure PdfOut (Page Sz : Type) where
  size : Option Sz
  pending : List (Paint Page)
  shown : List (Option Sz × List (Paint Page))

/-- Library call `cairo_show_page`: commit the current page. -/
def cairo_show_page {Page Sz : Type} (o : PdfOut Page Sz) : PdfOut Page Sz :=
  { o with pending := [], shown := o.shown ++ [(o.size, o.pending)] }

/-- Lines written to standard output when `g_verbose` is set. -/
inductive Msg where
  | pages_count_differs (pages1 pages2 : Nat)
  | page_differs (number : Nat)
  | summary (pages_differ pages_total : Nat)
deriving DecidableEq, Repr

/-- Loop state of `doc_compare`.  The field `compared` is a trace: the page
indices handed to `page_compare`, in call order. -/
structure DocState (Page Sz : Type) where
  pages_differ : Nat
  cr_out : Option (PdfOut Page Sz)
  differences : Option (List Bool)
  stdout : List Msg
  compared : List Nat

/-- What `doc_compare` leaves behind: the returned flag `same`, the counters,
the differences vector, the closed output, the printed lines and the trace. -/
structure DocResult (Page Sz : Type) where
  same : Bool
  pages_differ : Nat
  pages_total : Nat
  differences : Option (List Bool)
  output : Option (PdfOut Page Sz)
  stdout : List Msg
  compared : List Nat

section Compare

variable {Page Sz : Type} (cfg : Config) (to_grayscale : Nat → Nat → Nat → Nat)
  (P : Poppler Page Sz)

/-- The function `page_compare` (lines 244-288): the returned flag and the
output context afterwards.  `none` is the failed assertion of `diff_images`. -/
def page_compare (cr_out : Option (PdfOut Page Sz)) (page1 page2 : Option Page) :
    Option (Bool × Option (PdfOut Page Sz)) :=
  let img1 := page1.map (P.render_page cfg.g_resolution)
  let img2 := page2.map (P.render_page cfg.g_resolution)
  let width := P.thumbnail_width page1
  match diff_images cfg to_grayscale img1 img2 0 0 width with
  | none => none
  | some res =>
    let has_diff := res.diff.isSome
    let out :=
      match cr_out with
      | none => none
      | some o =>
        let o1 :=
          match res.diff with
          | some diff => { o with pending := o.pending ++ [Paint.image diff cfg.g_resolution] }
          | none =>
            if !cfg.g_skip_identical then { o with pending := o.pending ++ [Paint.page page1] }
            else o
        some (if has_diff || !cfg.g_skip_identical then cairo_show_page o1 else o1)
    some (!has_diff, out)

/-- The page loop of `doc_compare` (lines 318-348) with `n` iterations left,
the next index being `page`. -/
def doc_loop (doc1 doc2 : List Page) (pdf_output : Option String) :
    Nat → Nat → DocState Page Sz → Option (DocState Page Sz)
  | 0, _, st => some st
  | n + 1, page, st =>
    let pages1 := doc1.length
    let pages2 := doc2.length
    let sized := (if pages1 > pages2 then doc1 else doc2).get? page
    let cr_out :=
      if pdf_output.isSome && page != 0 then
        st.cr_out.map (fun o => { o with size := sized.map P.page_get_size })
      else st.cr_out
    let page1 := if page < pages1 then doc1.get? page else none
    let page2 := if page < pages2 then doc2.get? page else none
    match page_compare cfg to_grayscale P cr_out page1 page2 with
    | none => none
    | some (page_same, cr_out1) =>
      let st1 : DocState Page Sz :=
        { st with
          cr_out := cr_out1,
          differences := st.differences.map (fun d => d ++ [!page_same]),
          compared := st.compared ++ [page] }
      if !page_same then
        let st2 : DocState Page Sz :=
          { st1 with
            pages_differ := st1.pages_differ + 1,
            stdout := if cfg.g_verbose then st1.stdout ++ [Msg.page_differs (page + 1)]
                      else st1.stdout }
        if !cfg.g_verbose && !pdf_output.isSome && !st.differences.isSome then some st2
        else doc_loop doc1 doc2 pdf_output n (page + 1) st2
      else doc_loop doc1 doc2 pdf_output n (page + 1) st1

/-- The function `doc_compare` (lines 295-360).  A document is the list of its
pages; `differences` is the caller's vector when one is passed. -/
def doc_compare (doc1 doc2 : List Page) (pdf_output : Option String)
    (differences : Option (List Bool)) : Option (DocResult Page Sz) :=
  let cr_out : Option (PdfOut Page Sz) :=
    if pdf_output.isSome then
      some { size := (doc1.get? 0).map P.page_get_size, pending := [], shown := [] }
    else none
  let pages1 := doc1.length
  let pages2 := doc2.length
  let pages_total := if pages1 > pages2 then pages1 else pages2
  let stdout0 :=
    if pages1 != pages2 && cfg.g_verbose then [Msg.pages_count_differs pages1 pages2] else []
  match doc_loop cfg to_grayscale P doc1 doc2 pdf_output pages_total 0
      { pages_differ := 0, cr_out := cr_out, differences := differences,
        stdout := stdout0, compared := [] } with
  | none => none
  | some st =>
    some { same := st.pages_differ == 0 && pages1 == pages2,
           pages_differ := st.pages_differ,
           pages_total := pages_total,
           differences := st.differences,
           output := st.cr_out,
           stdout := if cfg.g_verbose then
                       st.stdout ++ [Msg.summary st.pages_differ pages_total]
                     else st.stdout,
           compared := st.compared }

end Compare

/-! ## Specification vocabulary for the document comparator -/

section CompareSpec

variable {Page Sz : Type} (cfg : Config) (to_grayscale : Nat → Nat → Nat → Nat)
  (P : Poppler Page Sz)

/-- What `page_compare` returns for the page pair at index `page`. -/
def page_verdict (doc1 doc2 : List Page) (page : Nat) : Option Bool :=
  (page_compare cfg to_grayscale P none (doc1.get? page) (doc2.get? page)).map Prod.fst

/-- The page pair at index `page` is reported as different. -/
def page_differs (doc1 doc2 : List Page) (page : Nat) : Bool :=
  page_verdict cfg to_grayscale P doc1 doc2 page == some false

end CompareSpec

/-- The condition of line 345 under which the loop stops at the first
differing page. -/
def early_exit (cfg : Config) (pdf_output : Option String)
    (differences : Option (List Bool)) : Bool :=
  !cfg.g_verbose && !pdf_output.isSome && !differences.isSome

/-- The page indices a scan of `n` pages starting at `page` visits when it
stops after the first differing page if `early` holds. -/
def visited (differs : Nat → Bool) (early : Bool) : Nat → Nat → List Nat
  | 0, _ => []
  | n + 1, page =>
    if differs page && early then [page]
    else page :: visited differs early n (page + 1)

/-! ## Concrete inputs used to instantiate the results -/

/-- Default settings: tolerance 0, no grayscale, no marking, 300 dpi. -/
def ex_cfg : Config :=
  { g_verbose := false, g_skip_identical := false, g_mark_differences := false,
    g_channel_tolerance := 0, g_grayscale := false, g_resolution := 300, g_mark_tol := 10 }

/-- The default settings with marking switched on. -/
def ex_cfg_mark : Config :=
  { g_verbose := false, g_skip_identical := false, g_mark_differences := true,
    g_channel_tolerance := 0, g_grayscale := false, g_resolution := 300, g_mark_tol := 10 }

/-- A stand-in luminance function for the examples. -/
def ex_gray : Nat → Nat → Nat → Nat := fun r g b => (r + g + b) / 3

/-- A 2x1 buffer. -/
def ex_a : Surface :=
  { width := 2, height := 1, stride := 8, data := [1, 2, 3, 0, 4, 5, 6, 0] }

/-- A 2x1 buffer that differs from `ex_a` in the last colour byte of its second pixel. -/
def ex_b : Surface :=
  { width := 2, height := 1, stride := 8, data := [1, 2, 3, 0, 4, 5, 9, 0] }

/-- The 0x0 buffer. -/
def ex_empty : Surface :=
  { width := 0, height := 0, stride := 0, data := [] }

/-- A stand-in for Poppler in which a page is the raster it renders to, its
size is its width in pixels and no thumbnail is on offer. -/
def ex_poppler : Poppler Surface Nat :=
  { render_page := fun _ s => s, page_get_size := fun s => s.width,
    thumbnail_width := fun _ => -1 }

/-- Byte `c` of the pixel that `diff` holds at `(x, y)` before `s2` is laid
over it, in words: the pixel of `s1` where `s1` covers the position, the white
background elsewhere. -/
def under_at (s1 : Option Surface) (x y c : Nat) : Nat :=
  if x < buf_width s1 ∧ y < buf_height s1 then buf_chan s1 x y c else 255

/-- A 1x1 buffer. -/
def ex_c : Surface :=
  { width := 1, height := 1, stride := 4, data := [7, 8, 9, 0] }

/-- The default settings with grayscale switched on. -/
def ex_cfg_gray : Config :=
  { g_verbose := false, g_skip_identical := false, g_mark_differences := false,
    g_channel_tolerance := 0, g_grayscale := true, g_resolution := 300, g_mark_tol := 10 }

/-- The composite of `ex_c` and `ex_a` at tolerance 0. -/
def ex_d_align : Surface :=
  { width := 2, height := 1, stride := 8, data := [7, 8, 3, 0, 255, 255, 6, 255] }

/-- The composite of `ex_a` and `ex_b` in grayscale mode. -/
def ex_d_gray : Surface :=
  { width := 2, height := 1, stride := 8, data := [2, 2, 2, 0, 6, 5, 5, 0] }

/-! ## Command line -/

/-- The C library test `isspace` in the C locale. -/
def is_space (c : Char) : Bool :=
  c.toNat == 32 || (9 ≤ c.toNat && c.toNat ≤ 13)

/-- Value of the leading decimal digits of `s`, continuing from `acc`. -/
def digits_value : List Char → Nat → Nat
  | [], acc => acc
  | c :: cs, acc =>
    if 48 ≤ c.toNat && c.toNat ≤ 57 then digits_value cs (acc * 10 + (c.toNat - 48))
    else acc

/-- Library call `atol`: optional white space, an optional sign, then as many
decimal digits as follow; `0` when there are none.  Values that do not fit a
64-bit `long` are clamped, as the C library does. -/
def atol (s : List Char) : Int :=
  let v : Int :=
    match s.dropWhile is_space with
    | '-' :: cs => -(digits_value cs 0 : Int)
    | '+' :: cs => (digits_value cs 0 : Int)
    | cs => (digits_value cs 0 : Int)
  max (-(2 : Int) ^ 63) (min v ((2 : Int) ^ 63 - 1))

/-- The initial values of the settings (lines 37-43). -/
def default_config : Config :=
  { g_verbose := false, g_skip_identical := false, g_mark_differences := false,
    g_channel_tolerance := 0, g_grayscale := false, g_resolution := 300, g_mark_tol := 10 }

/-- What `main` and `usage` print. -/
inductive MainMsg where
  | usage
  | invalid_channel_tolerance (value : Int)
  | invalid_dpi (value : Int)
  | error_opening (file : List Char)
  | compare (lines : List Msg)
deriving DecidableEq, Repr

/-- Outcome of the option loop of `main` (lines 386-416): it returned `code`,
or it ran to its end; either way with the settings as they stand. -/
inductive Parsed where
  | stop (code : Nat) (cfg : Config) (printed : List MainMsg)
  | go (cfg : Config) (pdf_file : List Char)
deriving DecidableEq, Repr

/-- The operating-system side of `main`: `std::filesystem::absolute` (`none`
when it throws) and `poppler_document_new_from_file` (`none` when the document
does not open). -/
structure Os (Page : Type) where
  absolute : List Char → Option (List Char)
  open_document : List Char → Option (List Page)

/-- What a run of `main` leaves behind: the exit code (`none` when the process
was aborted by an uncaught exception or a failed assertion), the files handed
to `poppler_document_new_from_file` in order, the settings at exit and what
was printed. -/
structure MainResult where
  exit_code : Option Nat
  opened : List (List Char)
  globals : Config
  printed : List MainMsg
deriving DecidableEq, Repr

/-- One pass of the body of the option loop (lines 387-415) on the argument
`arg`, a C string. -/
def parse_arg (os_absolute : List Char → Option (List Char)) (arg : List Char)
    (cfg : Config) (pdf_file : List Char) : Option Parsed :=
  if arg = "-h".data ∨ arg = "--help".data then
    some (Parsed.stop 0 cfg [MainMsg.usage])
  else if arg = "-v".data ∨ arg = "--verbose".data then
    some (Parsed.go { cfg with g_verbose := true } pdf_file)
  else if arg = "-s".data ∨ arg = "--skip-identical".data then
    some (Parsed.go { cfg with g_skip_identical := true } pdf_file)
  else if arg = "-m".data ∨ arg = "--mark-differences".data then
    some (Parsed.go { cfg with g_mark_differences := true } pdf_file)
  else if arg = "-g".data ∨ arg = "--grayscale".data then
    some (Parsed.go { cfg with g_grayscale := true } pdf_file)
  else if arg.length > 14 ∧ "--output-diff=".data <+: arg then
    (os_absolute (arg.drop 14)).map (fun p => Parsed.go cfg p)
  else if arg.length > 20 ∧ "--channel-tolerance=".data <+: arg then
    let cfg1 := { cfg with g_channel_tolerance := atol (arg.drop 20) }
    if cfg1.g_channel_tolerance < 0 ∨ cfg1.g_channel_tolerance > 255 then
      some (Parsed.stop 2 cfg1 [MainMsg.invalid_channel_tolerance cfg1.g_channel_tolerance])
    else some (Parsed.go cfg1 pdf_file)
  else if arg.length > 6 ∧ "--dpi=".data <+: arg then
    let cfg1 := { cfg with g_resolution := atol (arg.drop 6) }
    if cfg1.g_resolution < 1 ∨ cfg1.g_resolution > 2400 then
      some (Parsed.stop 2 cfg1 [MainMsg.invalid_dpi cfg1.g_resolution])
    else some (Parsed.go cfg1 pdf_file)
  else some (Parsed.go cfg pdf_file)

/-- The option loop of `main` over the arguments `argv[1] .. argv[argc - 3]`;
`none` when `std::filesystem::absolute` throws. -/
def parse_options (os_absolute : List Char → Option (List Char)) :
    List (List Char) → Config → List Char → Option Parsed
  | [], cfg, pdf_file => some (Parsed.go cfg pdf_file)
  | arg :: rest, cfg, pdf_file =>
    match parse_arg os_absolute arg cfg pdf_file with
    | none => none
    | some (Parsed.stop code cfg1 printed) => some (Parsed.stop code cfg1 printed)
    | some (Parsed.go cfg1 pdf_file1) => parse_options os_absolute rest cfg1 pdf_file1

section Main

variable {Page Sz : Type} (to_grayscale : Nat → Nat → Nat → Nat) (P : Poppler Page Sz)
  (os : Os Page)

/-- The function `main` (lines 378-449) on the argument vector `argv`,
program name included. -/
def main (argv : List (List Char)) : MainResult :=
  let argc := argv.length
  if argc < 3 then
    { exit_code := some 2, opened := [], globals := default_config,
      printed := [MainMsg.usage] }
  else
    let aborted : MainResult :=
      { exit_code := none, opened := [], globals := default_config, printed := [] }
    match os.absolute (argv.getD (argc - 2) []), os.absolute (argv.getD (argc - 1) []) with
    | some file1, some file2 =>
      match parse_options os.absolute ((argv.drop 1).take (argc - 3)) default_config [] with
      | none => aborted
      | some (Parsed.stop code cfg printed) =>
        { exit_code := some code, opened := [], globals := cfg, printed := printed }
      | some (Parsed.go cfg pdf_file) =>
        match os.open_document file1 with
        | none =>
          { exit_code := some 3, opened := [file1], globals := cfg,
            printed := [MainMsg.error_opening file1] }
        | some doc1 =>
          match os.open_document file2 with
          | none =>
            { exit_code := some 3, opened := [file1, file2], globals := cfg,
              printed := [MainMsg.error_opening file2] }
          | some doc2 =>
            let pdf_output := if pdf_file.isEmpty then none else some (String.mk pdf_file)
            match doc_compare cfg to_grayscale P doc1 doc2 pdf_output none with
            | none =>
              { exit_code := none, opened := [file1, file2], globals := cfg, printed := [] }
            | some r =>
              { exit_code := some (if r.same then 0 else 1), opened := [file1, file2],
                globals := cfg, printed := [MainMsg.compare r.stdout] }
    | _, _ => aborted

end Main

/-- An operating system in which every path is absolute and every file opens
as the one-page document `[ex_a]`. -/
def ex_os : Os Surface :=
  { absolute := fun p => some p, open_document := fun _ => some [ex_a] }

/-- An argument vector with a malformed tolerance. -/
def ex_argv_malformed : List (List Char) :=
  ["diff-pdf".data, "--channel-tolerance=abc".data, "a.pdf".data, "b.pdf".data]

/-- An argument vector with an out-of-range resolution. -/
def ex_argv_dpi : List (List Char) :=
  ["diff-pdf".data, "-v".data, "--dpi=0".data, "a.pdf".data, "b.pdf".data]

/-- An argument vector in which the help flag precedes an out-of-range option. -/
def ex_argv_help : List (List Char) :=
  ["diff-pdf".data, "-h".data, "--dpi=0".data, "a.pdf".data, "b.pdf".data]

/-- The default settings with verbose switched on. -/
def ex_cfg_verbose : Config :=
  { g_verbose := true, g_skip_identical := false, g_mark_differences := false,
    g_channel_tolerance := 0, g_grayscale := false, g_resolution := 300, g_mark_tol := 10 }

/-- The settings are within the ranges `main` enforces. -/
def config_in_range (cfg : Config) : Prop :=
  0 ≤ cfg.g_channel_tolerance ∧ cfg.g_channel_tolerance ≤ 255 ∧
  1 ≤ cfg.g_resolution ∧ cfg.g_resolution ≤ 2400

/-- The arguments the option loop of `main` visits: `argv[1] .. argv[argc - 3]`. -/
def option_args (argv : List (List Char)) : List (List Char) :=
  (argv.drop 1).take (argv.length - 3)

/-- The argument is an option with value `--dpi=<v>`, `v` not empty, whose
reading by `atol` lies outside 1..2400. -/
def bad_dpi (arg : List Char) : Prop :=
  arg.length > 6 ∧ "--dpi=".data <+: arg ∧
  (atol (arg.drop 6) < 1 ∨ atol (arg.drop 6) > 2400)

/-- The argument is an option `--channel-tolerance=<v>`, `v` not empty, whose
reading by `atol` lies outside 0..255. -/
def bad_tolerance (arg : List Char) : Prop :=
  arg.length > 20 ∧ "--channel-tolerance=".data <+: arg ∧
  (atol (arg.drop 20) < 0 ∨ atol (arg.drop 20) > 255)

/-- An argument vector with an in-range resolution. -/
def ex_argv_ok : List (List Char) :=
  ["diff-pdf".data, "--dpi=150".data, "a.pdf".data, "b.pdf".data]

/-! ## Specification vocabulary for the output document -/

section OutputSpec

variable {Page Sz : Type} (cfg : Config) (to_grayscale : Nat → Nat → Nat → Nat)
  (P : Poppler Page Sz)

/-- The size in force when output page `page` is drawn: set at line 304 for
page 0 and at lines 321-322 for every later page. -/
def declared_size (doc1 doc2 : List Page) (page : Nat) : Option Sz :=
  if page = 0 then (doc1.get? 0).map P.page_get_size
  else ((if doc1.length > doc2.length then doc1 else doc2).get? page).map P.page_get_size

/-- The composite `diff_images` builds for the page pair at index `page`. -/
def page_diff (doc1 doc2 : List Page) (page : Nat) : Surface :=
  diff_surface cfg to_grayscale ((doc1.get? page).map (P.render_page cfg.g_resolution))
    ((doc2.get? page).map (P.render_page cfg.g_resolution))
    (P.thumbnail_width (doc1.get? page))

/-- The output page that the page pair at index `page` gives rise to, if any:
its declared size and what is drawn on it. -/
def emitted_page (doc1 doc2 : List Page) (page : Nat) :
    Option (Option Sz × List (Paint Page)) :=
  if page_differs cfg to_grayscale P doc1 doc2 page then
    some (declared_size P doc1 doc2 page,
      [Paint.image (page_diff cfg to_grayscale P doc1 doc2 page) cfg.g_resolution])
  else if cfg.g_skip_identical then none
  else some (declared_size P doc1 doc2 page, [Paint.page (doc1.get? page)])

end OutputSpec

/-- A one-page document of width 1 against a two-page document of width 2. -/
def ex_doc_short : List Surface := [ex_c]

/-- The two-page document. -/
def ex_doc_long : List Surface := [ex_a, ex_a]

/-- A fresh output context with page size 2. -/
def ex_out : PdfOut Surface Nat :=
  { size := some 2, pending := [], shown := [] }

/-! ## The differ with checked indexing

The same loops as above, every read and write of a buffer going through an
index check; `none` is an access outside the buffer. -/

/-- Checked read of the byte at offset `i`. -/
def rd (l : List Nat) (i : Nat) : Option Nat :=
  if i < l.length then some (l.getD i 0) else none

/-- Checked write of `v` at offset `i`. -/
def wr (l : List Nat) (i v : Nat) : Option (List Nat) :=
  if i < l.length then some (l.set i v) else none

/-- Counting loop whose body may fail. -/
def forLoopM {σ : Type} (body : Nat → σ → Option σ) : Nat → σ → Option σ
  | 0, s => some s
  | n + 1, s => (forLoopM body n s).bind (body n)

/-- Checked `memcpy(dst + d, src + s, n)`. -/
def memcpy_checked (dst : List Nat) (d : Nat) (src : List Nat) (s : Nat) (n : Nat) :
    Option (List Nat) :=
  forLoopM (fun i acc => (rd src (s + i)).bind (fun v => wr acc (d + i) v)) n dst

/-- Checked version of `copy_s1` (lines 157-162). -/
def copy_s1_checked (s1 : Option Surface) (r1 : Rect) (stridediff : Nat)
    (datadiff : List Nat) : Option (List Nat) :=
  match s1 with
  | none => some datadiff
  | some a =>
    let out := (r1.y * stridediff + r1.x * 4).toNat
    forLoopM (fun y dd =>
      memcpy_checked dd (out + y * stridediff) a.data (y * a.stride) (r1.width * 4).toNat)
      r1.height.toNat datadiff

section DifferChecked

variable (cfg : Config) (to_grayscale : Nat → Nat → Nat → Nat)

/-- Checked version of `pixel_step` (lines 172-215). -/
def pixel_step_checked (data2 : List Nat) (thumb_on : Bool) (r2 : Rect) (out d2 y : Nat)
    (px : Nat) (st : DiffState) : Option DiffState :=
  let x := 4 * px
  (rd st.datadiff (out + x + 0)).bind (fun cr1 =>
  (rd st.datadiff (out + x + 1)).bind (fun cg1 =>
  (rd st.datadiff (out + x + 2)).bind (fun cb1 =>
  (rd data2 (d2 + x + 0)).bind (fun cr2 =>
  (rd data2 (d2 + x + 1)).bind (fun cg2 =>
  (rd data2 (d2 + x + 2)).bind (fun cb2 =>
    let st1 : DiffState :=
      if pixel_differs cfg.g_channel_tolerance cr1 cg1 cb1 cr2 cg2 cb2 then
        { st with
          changes := true, linediff := true,
          thumb := if thumb_on then st.thumb ++ [(r2.x + (px : Int), r2.y + (y : Int))]
                   else st.thumb }
      else st
    if cfg.g_grayscale then
      let gray1 := to_grayscale cr1 cg1 cb1 % 256
      let gray2 := to_grayscale cr2 cg2 cb2 % 256
      (wr st1.datadiff (out + x + 0) gray2).bind (fun w0 =>
      (wr w0 (out + x + 1) ((gray1 + gray2) / 2)).bind (fun w1 =>
      (wr w1 (out + x + 2) gray1).bind (fun w2 =>
        some { st1 with datadiff := w2 })))
    else
      (wr st1.datadiff (out + x + 2) cb2).bind (fun w2 =>
        some { st1 with datadiff := w2 })))))))

/-- Checked version of `mark_row` (lines 219-223). -/
def mark_row_checked (out : Nat) (width : Int) (datadiff : List Nat) : Option (List Nat) :=
  forLoopM (fun px dd =>
    (wr dd (out + 4 * px + 0) 0).bind (fun w0 =>
    (wr w0 (out + 4 * px + 1) 0).bind (fun w1 =>
      wr w1 (out + 4 * px + 2) 255)))
    (if 10 < width then 10 else width).toNat datadiff

/-- Checked version of `row_step` (lines 169-224). -/
def row_step_checked (data2 : List Nat) (stride2 : Nat) (thumb_on : Bool) (r2 : Rect)
    (stridediff out0 : Nat) (y : Nat) (st : DiffState) : Option DiffState :=
  let out := out0 + y * stridediff
  (forLoopM (pixel_step_checked cfg to_grayscale data2 thumb_on r2 out (y * stride2) y)
    r2.width.toNat { st with linediff := false }).bind (fun st1 =>
    if cfg.g_mark_differences && st1.linediff then
      (mark_row_checked out r2.width st1.datadiff).bind (fun dd =>
        some { st1 with datadiff := dd })
    else some st1)

/-- Checked version of `blend_s2` (lines 166-226). -/
def blend_s2_checked (s2 : Option Surface) (thumb_on : Bool) (r2 : Rect) (stridediff : Nat)
    (st : DiffState) : Option DiffState :=
  match s2 with
  | none => some st
  | some b =>
    let out0 := (r2.y * stridediff + r2.x * 4).toNat
    forLoopM (row_step_checked cfg to_grayscale b.data b.stride thumb_on r2 stridediff out0)
      r2.height.toNat st

/-- Checked version of `diff_final`: the state at line 228, or `none` when
some access fell outside its buffer. -/
def diff_final_checked (s1 s2 : Option Surface) (thumbnail_width : Int) :
    Option DiffState :=
  let al := diff_rects s1 s2
  (copy_s1_checked s1 al.r1 (diff_canvas s1 s2).stride (diff_canvas s1 s2).data).bind
    (fun base =>
      blend_s2_checked cfg to_grayscale s2 (decide (thumbnail_width > 0)) al.r2
        (diff_canvas s1 s2).stride
        { datadiff := base, changes := rects_mismatch al.r1 al.r2,
          linediff := false, thumb := [] })

/-- Checked version of `diff_images`: `none` is the failed assertion or an
access outside a buffer. -/
def diff_images_checked (s1 s2 : Option Surface) (offset_x offset_y : Int)
    (thumbnail_width : Int) : Option DiffResult :=
  if s1.isNone && s2.isNone then none
  else
    (diff_final_checked cfg to_grayscale s1 s2 thumbnail_width).bind (fun st =>
      let thumbnail := if thumbnail_width > 0 then some st.thumb else none
      if st.changes then
        some { diff := some { diff_canvas s1 s2 with data := st.datadiff },
               thumbnail := thumbnail }
      else
        some { diff := none, thumbnail := thumbnail })

end DifferChecked

/-- A buffer is well formed: rows are at least four bytes per pixel apart and
the data covers `stride * height` bytes. -/
def Surface.wf (s : Surface) : Prop :=
  4 * s.width ≤ s.stride ∧ s.stride * s.height ≤ s.data.length

/-- A 1x1 buffer whose data is one byte short. -/
def ex_short : Surface :=
  { width := 1, height := 1, stride := 4, data := [7, 8] }

/-! ## Lists and loops -/

theorem getD_set_eq (l : List Nat) (i j v : Nat) :
    (l.set i v).getD j 0 = if j = i ∧ i < l.length then v else l.getD j 0 := by
  simp only [List.getD_eq_getElem?_getD, List.getElem?_set]
  by_cases h : i = j
  · subst h
    by_cases h2 : i < l.length
    · simp [h2]
    · simp [h2]
      have : l.length ≤ i := by omega
      simp [List.getElem?_eq_none this]
  · have h' : ¬ j = i := fun e => h e.symm
    simp [h, h']

theorem forLoop_induct {σ : Type} (body : Nat → σ → σ) (P : Nat → σ → Prop) (s : σ)
    (n : Nat) (h0 : P 0 s) (hs : ∀ i t, i < n → P i t → P (i + 1) (body i t)) :
    P n (forLoop body n s) := by
  induction n with
  | zero => exact h0
  | succ k ih =>
    exact hs k _ (Nat.lt_succ_self k) (ih (fun i t hi hp => hs i t (Nat.lt_succ_of_lt hi) hp))

theorem memcpy_spec (dst : List Nat) (d : Nat) (src : List Nat) (s n : Nat) :
    (memcpy dst d src s n).length = dst.length ∧
    ∀ j, (memcpy dst d src s n).getD j 0 =
      if d ≤ j ∧ j < d + n ∧ j < dst.length then src.getD (s + (j - d)) 0
      else dst.getD j 0 := by
  unfold memcpy
  refine forLoop_induct _
    (fun i acc => acc.length = dst.length ∧ ∀ j, acc.getD j 0 =
      if d ≤ j ∧ j < d + i ∧ j < dst.length then src.getD (s + (j - d)) 0
      else dst.getD j 0) dst n ?_ ?_
  · refine ⟨rfl, fun j => ?_⟩
    have : ¬ (d ≤ j ∧ j < d + 0 ∧ j < dst.length) := by omega
    show dst.getD j 0 = _
    rw [if_neg this]
  · rintro i t _ ⟨hl, hg⟩
    refine ⟨by simp [hl], fun j => ?_⟩
    rw [getD_set_eq, hg j, hl]
    by_cases hj : j = d + i
    · subst hj
      by_cases hlen : d + i < dst.length
      · have e : d + i - d = i := by omega
        rw [if_pos ⟨rfl, hlen⟩, if_pos ⟨by omega, by omega, hlen⟩, e]
      · rw [if_neg (fun h => hlen h.2), if_neg (fun h => hlen h.2.2), if_neg (fun h => hlen h.2.2)]
    · by_cases hc : d ≤ j ∧ j < d + i ∧ j < dst.length
      · have hc' : d ≤ j ∧ j < d + (i + 1) ∧ j < dst.length := by omega
        rw [if_neg (fun h => hj h.1), if_pos hc, if_pos hc']
      · have hc' : ¬ (d ≤ j ∧ j < d + (i + 1) ∧ j < dst.length) := by omega
        rw [if_neg (fun h => hj h.1), if_neg hc, if_neg hc']

section
variable (cfg : Config) (tg : Nat → Nat → Nat → Nat)

theorem pixel_step_changes (data2 : List Nat) (th : Bool) (r2 : Rect) (out d2 y px : Nat)
    (st : DiffState) :
    (pixel_step cfg tg data2 th r2 out d2 y px st).changes =
      (st.changes || px_differs cfg.g_channel_tolerance st.datadiff data2 out d2 px) := by
  simp only [pixel_step, px_differs]
  split_ifs <;> simp_all

theorem pixel_step_linediff (data2 : List Nat) (th : Bool) (r2 : Rect) (out d2 y px : Nat)
    (st : DiffState) :
    (pixel_step cfg tg data2 th r2 out d2 y px st).linediff =
      (st.linediff || px_differs cfg.g_channel_tolerance st.datadiff data2 out d2 px) := by
  simp only [pixel_step, px_differs]
  split_ifs <;> simp_all

theorem pixel_step_datadiff (data2 : List Nat) (th : Bool) (r2 : Rect) (out d2 y px : Nat)
    (st : DiffState) :
    (pixel_step cfg tg data2 th r2 out d2 y px st).datadiff =
      if cfg.g_grayscale = true then
        ((st.datadiff.set (out + 4 * px + 0)
            (px_composite cfg tg st.datadiff data2 out d2 px 0)).set (out + 4 * px + 1)
            (px_composite cfg tg st.datadiff data2 out d2 px 1)).set (out + 4 * px + 2)
            (px_composite cfg tg st.datadiff data2 out d2 px 2)
      else st.datadiff.set (out + 4 * px + 2)
            (px_composite cfg tg st.datadiff data2 out d2 px 2) := by
  simp only [pixel_step, px_composite, composite_byte]
  split_ifs <;> simp_all

end

section
variable (cfg : Config) (tg : Nat → Nat → Nat → Nat)

theorem px_differs_congr (tol : Int) (dd dd' data2 : List Nat) (out d2 px : Nat)
    (h : ∀ c, c < 3 → dd.getD (out + 4 * px + c) 0 = dd'.getD (out + 4 * px + c) 0) :
    px_differs tol dd data2 out d2 px = px_differs tol dd' data2 out d2 px := by
  unfold px_differs
  rw [h 0 (by omega), h 1 (by omega), h 2 (by omega)]

theorem px_composite_congr (dd dd' data2 : List Nat) (out d2 px c : Nat)
    (h : ∀ c, c < 3 → dd.getD (out + 4 * px + c) 0 = dd'.getD (out + 4 * px + c) 0) :
    px_composite cfg tg dd data2 out d2 px c = px_composite cfg tg dd' data2 out d2 px c := by
  unfold px_composite
  rw [h 0 (by omega), h 1 (by omega), h 2 (by omega)]

theorem pixel_step_length (data2 : List Nat) (th : Bool) (r2 : Rect) (out d2 y px : Nat)
    (st : DiffState) :
    (pixel_step cfg tg data2 th r2 out d2 y px st).datadiff.length = st.datadiff.length := by
  rw [pixel_step_datadiff]
  split_ifs <;> simp

theorem pixel_step_getD (data2 : List Nat) (th : Bool) (r2 : Rect) (out d2 y px : Nat)
    (st : DiffState) (hlen : out + 4 * px + 3 ≤ st.datadiff.length) (j : Nat) :
    (pixel_step cfg tg data2 th r2 out d2 y px st).datadiff.getD j 0 =
      if out + 4 * px ≤ j ∧ j < out + 4 * px + 3 then
        px_composite cfg tg st.datadiff data2 out d2 px (j - (out + 4 * px))
      else st.datadiff.getD j 0 := by
  rw [pixel_step_datadiff]
  by_cases hg : cfg.g_grayscale = true
  · rw [if_pos hg, getD_set_eq, getD_set_eq, getD_set_eq]
    simp only [List.length_set]
    by_cases h2 : j = out + 4 * px + 2
    · subst h2
      rw [if_pos ⟨rfl, by omega⟩, if_pos (by omega)]
      have e : out + 4 * px + 2 - (out + 4 * px) = 2 := by omega
      rw [e]
    · rw [if_neg (fun h => h2 h.1)]
      by_cases h1 : j = out + 4 * px + 1
      · subst h1
        rw [if_pos ⟨rfl, by omega⟩, if_pos (by omega)]
        have e : out + 4 * px + 1 - (out + 4 * px) = 1 := by omega
        rw [e]
      · rw [if_neg (fun h => h1 h.1)]
        by_cases h0 : j = out + 4 * px + 0
        · subst h0
          rw [if_pos ⟨rfl, by omega⟩, if_pos (by omega)]
          have e : out + 4 * px + 0 - (out + 4 * px) = 0 := by omega
          rw [e]
        · rw [if_neg (fun h => h0 h.1), if_neg (by omega)]
  · rw [if_neg hg, getD_set_eq]
    by_cases h2 : j = out + 4 * px + 2
    · subst h2
      rw [if_pos ⟨rfl, by omega⟩, if_pos (by omega)]
      have e : out + 4 * px + 2 - (out + 4 * px) = 2 := by omega
      rw [e]
    · rw [if_neg (fun h => h2 h.1)]
      by_cases h1 : j = out + 4 * px + 1
      · subst h1
        rw [if_pos (by omega)]
        have e : out + 4 * px + 1 - (out + 4 * px) = 1 := by omega
        rw [e]
        simp [px_composite, composite_byte, hg]
      · by_cases h0 : j = out + 4 * px + 0
        · subst h0
          rw [if_pos (by omega)]
          have e : out + 4 * px + 0 - (out + 4 * px) = 0 := by omega
          rw [e]
          simp [px_composite, composite_byte, hg]
        · rw [if_neg (by omega)]

theorem pixel_loop_spec (data2 : List Nat) (th : Bool) (r2 : Rect) (out d2 y : Nat)
    (st0 : DiffState) (n : Nat) (hlen : out + 4 * n ≤ st0.datadiff.length) :
    (forLoop (pixel_step cfg tg data2 th r2 out d2 y) n st0).datadiff.length
        = st0.datadiff.length ∧
    (∀ j, (∀ px c, px < n → c < 3 → j ≠ out + 4 * px + c) →
      (forLoop (pixel_step cfg tg data2 th r2 out d2 y) n st0).datadiff.getD j 0
        = st0.datadiff.getD j 0) ∧
    (∀ px c, px < n → c < 3 →
      (forLoop (pixel_step cfg tg data2 th r2 out d2 y) n st0).datadiff.getD (out + 4 * px + c) 0
        = px_composite cfg tg st0.datadiff data2 out d2 px c) ∧
    (forLoop (pixel_step cfg tg data2 th r2 out d2 y) n st0).linediff
        = (st0.linediff ||
            (List.range n).any (px_differs cfg.g_channel_tolerance st0.datadiff data2 out d2)) ∧
    (forLoop (pixel_step cfg tg data2 th r2 out d2 y) n st0).changes
        = (st0.changes ||
            (List.range n).any (px_differs cfg.g_channel_tolerance st0.datadiff data2 out d2)) := by
  refine forLoop_induct _
    (fun i st =>
      st.datadiff.length = st0.datadiff.length ∧
      (∀ j, (∀ px c, px < i → c < 3 → j ≠ out + 4 * px + c) →
        st.datadiff.getD j 0 = st0.datadiff.getD j 0) ∧
      (∀ px c, px < i → c < 3 →
        st.datadiff.getD (out + 4 * px + c) 0
          = px_composite cfg tg st0.datadiff data2 out d2 px c) ∧
      st.linediff = (st0.linediff ||
        (List.range i).any (px_differs cfg.g_channel_tolerance st0.datadiff data2 out d2)) ∧
      st.changes = (st0.changes ||
        (List.range i).any (px_differs cfg.g_channel_tolerance st0.datadiff data2 out d2)))
    st0 n ?_ ?_
  · refine ⟨rfl, fun _ _ => rfl, ?_, by simp, by simp⟩
    intro px c hpx
    omega
  · rintro i t hi ⟨hl, hfr, hcomp, hld, hch⟩
    have hrd : ∀ c, c < 3 →
        t.datadiff.getD (out + 4 * i + c) 0 = st0.datadiff.getD (out + 4 * i + c) 0 := by
      intro c hc
      apply hfr
      intro px c' hpx hc'
      omega
    have hin : out + 4 * i + 3 ≤ t.datadiff.length := by omega
    refine ⟨by rw [pixel_step_length, hl], ?_, ?_, ?_, ?_⟩
    · intro j hj
      rw [pixel_step_getD cfg tg data2 th r2 out d2 y i t hin j]
      have h0 := hj i 0 (by omega) (by omega)
      have h1 := hj i 1 (by omega) (by omega)
      have h2 := hj i 2 (by omega) (by omega)
      rw [if_neg (by omega)]
      exact hfr j (fun px c hpx hc => hj px c (by omega) hc)
    · intro px c hpx hc
      rw [pixel_step_getD cfg tg data2 th r2 out d2 y i t hin]
      by_cases he : px = i
      · subst he
        rw [if_pos (by omega)]
        have e : out + 4 * px + c - (out + 4 * px) = c := by omega
        rw [e]
        exact px_composite_congr cfg tg _ _ _ _ _ _ _ hrd
      · rw [if_neg (by omega)]
        exact hcomp px c (by omega) hc
    · rw [pixel_step_linediff, hld, List.range_succ, List.any_append,
        px_differs_congr _ _ _ _ _ _ _ hrd]
      simp [Bool.or_assoc]
    · rw [pixel_step_changes, hch, List.range_succ, List.any_append,
        px_differs_congr _ _ _ _ _ _ _ hrd]
      simp [Bool.or_assoc]

end

theorem any_range_congr (f g : Nat → Bool) (n : Nat) (h : ∀ i, i < n → f i = g i) :
    (List.range n).any f = (List.range n).any g := by
  induction n with
  | zero => rfl
  | succ k ih =>
    rw [List.range_succ, List.any_append, List.any_append,
      ih (fun i hi => h i (Nat.lt_succ_of_lt hi))]
    simp [h k (Nat.lt_succ_self k)]

theorem any_range_eq_true (f : Nat → Bool) (n : Nat) :
    (List.range n).any f = true ↔ ∃ i, i < n ∧ f i = true := by
  simp [List.any_eq_true]

theorem any_range_eq_false (f : Nat → Bool) (n : Nat) :
    (List.range n).any f = false ↔ ∀ i, i < n → f i = false := by
  simp [List.any_eq_false]

theorem row_sep (y i sd : Nat) (h : y < i) : y * sd + sd ≤ i * sd := by
  have := Nat.mul_le_mul_right sd (Nat.succ_le_of_lt h)
  rwa [Nat.succ_mul] at this

theorem mark_count_eq (width : Int) :
    (if 10 < width then 10 else width).toNat = min 10 width.toNat := by
  split_ifs with h
  · have : (10 : Int).toNat = 10 := rfl
    rw [this]
    omega
  · omega

theorem mark_row_spec (out : Nat) (width : Int) (dd : List Nat)
    (hlen : out + 4 * width.toNat ≤ dd.length) :
    (mark_row out width dd).length = dd.length ∧
    (∀ j, (∀ px c, px < min 10 width.toNat → c < 3 → j ≠ out + 4 * px + c) →
      (mark_row out width dd).getD j 0 = dd.getD j 0) ∧
    (∀ px c, px < min 10 width.toNat → c < 3 →
      (mark_row out width dd).getD (out + 4 * px + c) 0 = mark_byte c) := by
  unfold mark_row
  rw [mark_count_eq]
  have hm : min 10 width.toNat ≤ width.toNat := Nat.min_le_right _ _
  refine forLoop_induct _
    (fun i acc =>
      acc.length = dd.length ∧
      (∀ j, (∀ px c, px < i → c < 3 → j ≠ out + 4 * px + c) → acc.getD j 0 = dd.getD j 0) ∧
      (∀ px c, px < i → c < 3 → acc.getD (out + 4 * px + c) 0 = mark_byte c))
    dd _ ?_ ?_
  · refine ⟨rfl, fun _ _ => rfl, ?_⟩
    intro px c hpx
    omega
  · rintro i t hi ⟨hl, hfr, hmk⟩
    refine ⟨by simp [hl], ?_, ?_⟩
    · intro j hj
      have h0 := hj i 0 (by omega) (by omega)
      have h1 := hj i 1 (by omega) (by omega)
      have h2 := hj i 2 (by omega) (by omega)
      rw [getD_set_eq, getD_set_eq, getD_set_eq, if_neg (fun h => h2 h.1),
        if_neg (fun h => h1 h.1), if_neg (fun h => h0 h.1)]
      exact hfr j (fun px c hpx hc => hj px c (by omega) hc)
    · intro px c hpx hc
      rw [getD_set_eq, getD_set_eq, getD_set_eq]
      simp only [List.length_set]
      by_cases he : px = i
      · subst he
        have hc3 : c = 0 ∨ c = 1 ∨ c = 2 := by omega
        rcases hc3 with rfl | rfl | rfl
        · rw [if_neg (by omega), if_neg (by omega), if_pos ⟨rfl, by omega⟩]
          rfl
        · rw [if_neg (by omega), if_pos ⟨rfl, by omega⟩]
          rfl
        · rw [if_pos ⟨rfl, by omega⟩]
          rfl
      · rw [if_neg (by omega), if_neg (by omega), if_neg (by omega)]
        exact hmk px c (by omega) hc

section
variable (cfg : Config) (tg : Nat → Nat → Nat → Nat)

theorem row_step_spec (data2 : List Nat) (stride2 : Nat) (th : Bool) (r2 : Rect)
    (sd out0 y : Nat) (st : DiffState)
    (hlen : out0 + y * sd + 4 * r2.width.toNat ≤ st.datadiff.length) :
    (row_step cfg tg data2 stride2 th r2 sd out0 y st).datadiff.length
        = st.datadiff.length ∧
    (∀ j, (∀ px c, px < r2.width.toNat → c < 3 → j ≠ out0 + y * sd + 4 * px + c) →
      (row_step cfg tg data2 stride2 th r2 sd out0 y st).datadiff.getD j 0
        = st.datadiff.getD j 0) ∧
    (∀ px c, px < r2.width.toNat → c < 3 →
      (row_step cfg tg data2 stride2 th r2 sd out0 y st).datadiff.getD
          (out0 + y * sd + 4 * px + c) 0
        = row_result cfg tg st.datadiff data2 r2.width.toNat (out0 + y * sd) (y * stride2)
            px c) ∧
    (row_step cfg tg data2 stride2 th r2 sd out0 y st).changes
        = (st.changes ||
            row_flagged cfg.g_channel_tolerance st.datadiff data2 r2.width.toNat
              (out0 + y * sd) (y * stride2)) := by
  obtain ⟨hl, hfr, hcomp, hld, hch⟩ :=
    pixel_loop_spec cfg tg data2 th r2 (out0 + y * sd) (y * stride2) y
      { st with linediff := false } r2.width.toNat hlen
  simp only [Bool.false_or] at hld
  unfold row_step
  simp only []
  by_cases hm : (cfg.g_mark_differences &&
      (forLoop (pixel_step cfg tg data2 th r2 (out0 + y * sd) (y * stride2) y)
        r2.width.toNat { st with linediff := false }).linediff) = true
  · rw [if_pos hm]
    simp only [Bool.and_eq_true] at hm
    obtain ⟨hmk, hfl⟩ := hm
    rw [hld] at hfl
    obtain ⟨ml, mfr, mmk⟩ := mark_row_spec (out0 + y * sd) r2.width
      (forLoop (pixel_step cfg tg data2 th r2 (out0 + y * sd) (y * stride2) y)
        r2.width.toNat { st with linediff := false }).datadiff (by rw [hl]; exact hlen)
    refine ⟨by rw [ml, hl], ?_, ?_, hch⟩
    · intro j hj
      rw [mfr j (fun px c hpx hc => hj px c (by omega) hc)]
      exact hfr j hj
    · intro px c hpx hc
      unfold row_result row_flagged
      by_cases hp : px < min 10 r2.width.toNat
      · rw [if_pos ⟨hmk, hfl, hp⟩]
        exact mmk px c hp hc
      · rw [if_neg (fun h => hp h.2.2)]
        rw [mfr _ (fun px' c' hpx' hc' => by omega)]
        exact hcomp px c hpx hc
  · rw [if_neg hm]
    refine ⟨hl, hfr, ?_, hch⟩
    intro px c hpx hc
    unfold row_result row_flagged
    rw [if_neg]
    · exact hcomp px c hpx hc
    · rintro ⟨hmk, hfl, _⟩
      apply hm
      rw [hld, hmk, hfl]
      rfl

end

section
variable (cfg : Config) (tg : Nat → Nat → Nat → Nat)

theorem row_flagged_congr (tol : Int) (dd dd' data2 : List Nat) (w out d2 : Nat)
    (h : ∀ px c, px < w → c < 3 →
      dd.getD (out + 4 * px + c) 0 = dd'.getD (out + 4 * px + c) 0) :
    row_flagged tol dd data2 w out d2 = row_flagged tol dd' data2 w out d2 := by
  unfold row_flagged
  exact any_range_congr _ _ _ (fun px hpx => px_differs_congr _ _ _ _ _ _ _ (h px · hpx))

theorem row_result_congr (dd dd' data2 : List Nat) (w out d2 px c : Nat) (hpx : px < w)
    (h : ∀ px c, px < w → c < 3 →
      dd.getD (out + 4 * px + c) 0 = dd'.getD (out + 4 * px + c) 0) :
    row_result cfg tg dd data2 w out d2 px c = row_result cfg tg dd' data2 w out d2 px c := by
  unfold row_result
  rw [row_flagged_congr _ _ _ _ _ _ _ h, px_composite_congr cfg tg _ _ _ _ _ _ _ (h px · hpx)]

theorem blend_rows_spec (data2 : List Nat) (stride2 : Nat) (th : Bool) (r2 : Rect)
    (sd out0 : Nat) (st0 : DiffState) (n : Nat)
    (hsep : 4 * r2.width.toNat ≤ sd) (hlen : out0 + n * sd ≤ st0.datadiff.length) :
    (forLoop (row_step cfg tg data2 stride2 th r2 sd out0) n st0).datadiff.length
        = st0.datadiff.length ∧
    (∀ j, (∀ y px c, y < n → px < r2.width.toNat → c < 3 → j ≠ out0 + y * sd + 4 * px + c) →
      (forLoop (row_step cfg tg data2 stride2 th r2 sd out0) n st0).datadiff.getD j 0
        = st0.datadiff.getD j 0) ∧
    (∀ y px c, y < n → px < r2.width.toNat → c < 3 →
      (forLoop (row_step cfg tg data2 stride2 th r2 sd out0) n st0).datadiff.getD
          (out0 + y * sd + 4 * px + c) 0
        = row_result cfg tg st0.datadiff data2 r2.width.toNat (out0 + y * sd) (y * stride2)
            px c) ∧
    (forLoop (row_step cfg tg data2 stride2 th r2 sd out0) n st0).changes
        = (st0.changes || (List.range n).any (fun y =>
            row_flagged cfg.g_channel_tolerance st0.datadiff data2 r2.width.toNat
              (out0 + y * sd) (y * stride2))) := by
  refine forLoop_induct _
    (fun i st =>
      st.datadiff.length = st0.datadiff.length ∧
      (∀ j, (∀ y px c, y < i → px < r2.width.toNat → c < 3 →
          j ≠ out0 + y * sd + 4 * px + c) →
        st.datadiff.getD j 0 = st0.datadiff.getD j 0) ∧
      (∀ y px c, y < i → px < r2.width.toNat → c < 3 →
        st.datadiff.getD (out0 + y * sd + 4 * px + c) 0
          = row_result cfg tg st0.datadiff data2 r2.width.toNat (out0 + y * sd)
              (y * stride2) px c) ∧
      st.changes = (st0.changes || (List.range i).any (fun y =>
        row_flagged cfg.g_channel_tolerance st0.datadiff data2 r2.width.toNat
          (out0 + y * sd) (y * stride2))))
    st0 n ?_ ?_
  · refine ⟨rfl, fun _ _ => rfl, ?_, by simp⟩
    intro y px c hy
    omega
  · rintro i t hi ⟨hl, hfr, hres, hch⟩
    have hsi := row_sep i n sd hi
    have hrow : out0 + i * sd + 4 * r2.width.toNat ≤ t.datadiff.length := by omega
    have hrd : ∀ px c, px < r2.width.toNat → c < 3 →
        t.datadiff.getD (out0 + i * sd + 4 * px + c) 0
          = st0.datadiff.getD (out0 + i * sd + 4 * px + c) 0 := by
      intro px c hpx hc
      apply hfr
      intro y px' c' hy hpx' hc'
      have := row_sep y i sd hy
      omega
    obtain ⟨sl, sfr, sres, sch⟩ :=
      row_step_spec cfg tg data2 stride2 th r2 sd out0 i t hrow
    refine ⟨by rw [sl, hl], ?_, ?_, ?_⟩
    · intro j hj
      rw [sfr j (fun px c hpx hc => hj i px c (by omega) hpx hc)]
      exact hfr j (fun y px c hy hpx hc => hj y px c (by omega) hpx hc)
    · intro y px c hy hpx hc
      by_cases he : y = i
      · subst he
        rw [sres px c hpx hc]
        exact row_result_congr cfg tg _ _ _ _ _ _ _ _ hpx hrd
      · have hyi : y < i := by omega
        have := row_sep y i sd hyi
        rw [sfr _ (fun px' c' hpx' hc' => by omega)]
        exact hres y px c hyi hpx hc
    · rw [sch, hch, List.range_succ, List.any_append,
        row_flagged_congr _ _ _ _ _ _ _ hrd]
      simp [Bool.or_assoc]

end

theorem toNat_max_cast (a b : Nat) : (max (a : Int) (b : Int)).toNat = max a b := by
  omega

theorem copy_rows_spec (src : List Nat) (stride1 sd out w : Nat) (dd0 : List Nat) (n : Nat)
    (hsep : w ≤ sd) (hlen : out + n * sd ≤ dd0.length) :
    (forLoop (fun y dd => memcpy dd (out + y * sd) src (y * stride1) w) n dd0).length
        = dd0.length ∧
    (∀ j, (∀ y i, y < n → i < w → j ≠ out + y * sd + i) →
      (forLoop (fun y dd => memcpy dd (out + y * sd) src (y * stride1) w) n dd0).getD j 0
        = dd0.getD j 0) ∧
    (∀ y i, y < n → i < w →
      (forLoop (fun y dd => memcpy dd (out + y * sd) src (y * stride1) w) n dd0).getD
          (out + y * sd + i) 0 = src.getD (y * stride1 + i) 0) := by
  refine forLoop_induct _
    (fun k acc =>
      acc.length = dd0.length ∧
      (∀ j, (∀ y i, y < k → i < w → j ≠ out + y * sd + i) → acc.getD j 0 = dd0.getD j 0) ∧
      (∀ y i, y < k → i < w → acc.getD (out + y * sd + i) 0 = src.getD (y * stride1 + i) 0))
    dd0 n ?_ ?_
  · refine ⟨rfl, fun _ _ => rfl, ?_⟩
    intro y i hy
    omega
  · rintro k t hk ⟨hl, hfr, hcp⟩
    have hsk := row_sep k n sd hk
    obtain ⟨ml, mg⟩ := memcpy_spec t (out + k * sd) src (k * stride1) w
    refine ⟨by rw [ml, hl], ?_, ?_⟩
    · intro j hj
      rw [mg j]
      by_cases hin : out + k * sd ≤ j ∧ j < out + k * sd + w ∧ j < t.length
      · exfalso
        exact hj k (j - (out + k * sd)) (by omega) (by omega) (by omega)
      · rw [if_neg hin]
        exact hfr j (fun y i hy hi => hj y i (by omega) hi)
    · intro y i hy hi
      rw [mg]
      by_cases he : y = k
      · subst he
        rw [if_pos ⟨by omega, by omega, by omega⟩]
        have e : out + y * sd + i - (out + y * sd) = i := by omega
        rw [e]
      · have hyk : y < k := by omega
        have := row_sep y k sd hyk
        rw [if_neg (by omega)]
        exact hcp y i hyk hi

theorem diff_rects_r1 (s1 s2 : Option Surface) :
    (diff_rects s1 s2).r1 = ⟨0, 0, (buf_width s1 : Int), (buf_height s1 : Int)⟩ := by
  cases s1 <;> cases s2 <;> simp [diff_rects, align, surface_rect, buf_width, buf_height]

theorem diff_rects_r2 (s1 s2 : Option Surface) :
    (diff_rects s1 s2).r2 = ⟨0, 0, (buf_width s2 : Int), (buf_height s2 : Int)⟩ := by
  cases s1 <;> cases s2 <;> simp [diff_rects, align, surface_rect, buf_width, buf_height]

theorem diff_rects_rdiff (s1 s2 : Option Surface) :
    (diff_rects s1 s2).rdiff =
      ⟨0, 0, max (buf_width s1 : Int) (buf_width s2 : Int),
        max (buf_height s1 : Int) (buf_height s2 : Int)⟩ := by
  cases s1 <;> cases s2 <;> simp [diff_rects, align, surface_rect, buf_width, buf_height]

theorem diff_mismatch_iff (s1 s2 : Option Surface) :
    rects_mismatch (diff_rects s1 s2).r1 (diff_rects s1 s2).r2 = true ↔
      (buf_width s1 ≠ buf_width s2 ∨ buf_height s1 ≠ buf_height s2) := by
  rw [diff_rects_r1, diff_rects_r2]
  simp [rects_mismatch]

theorem diff_canvas_width (s1 s2 : Option Surface) :
    (diff_canvas s1 s2).width = max (buf_width s1) (buf_width s2) := by
  unfold diff_canvas
  simp only [diff_rects_rdiff, cairo_image_surface_create, fill_white, toNat_max_cast]
  split_ifs <;> rfl

theorem diff_canvas_height (s1 s2 : Option Surface) :
    (diff_canvas s1 s2).height = max (buf_height s1) (buf_height s2) := by
  unfold diff_canvas
  simp only [diff_rects_rdiff, cairo_image_surface_create, fill_white, toNat_max_cast]
  split_ifs <;> rfl

theorem diff_canvas_stride (s1 s2 : Option Surface) :
    (diff_canvas s1 s2).stride = 4 * max (buf_width s1) (buf_width s2) := by
  unfold diff_canvas
  simp only [diff_rects_rdiff, cairo_image_surface_create, fill_white, toNat_max_cast]
  split_ifs <;> rfl

theorem diff_canvas_data (s1 s2 : Option Surface) :
    (diff_canvas s1 s2).data =
      List.replicate
        (4 * max (buf_width s1) (buf_width s2) * max (buf_height s1) (buf_height s2))
        (if rects_mismatch (diff_rects s1 s2).r1 (diff_rects s1 s2).r2 = true then 255 else 0) := by
  unfold diff_canvas
  simp only [diff_rects_rdiff, cairo_image_surface_create, fill_white, toNat_max_cast]
  split_ifs <;> simp

theorem getD_replicate_lt (n v j : Nat) (h : j < n) : (List.replicate n v).getD j 0 = v := by
  simp [List.getD_eq_getElem?_getD, List.getElem?_replicate, h]

theorem canvas_offset_lt (W H x y c : Nat) (hx : x < W) (hy : y < H) (hc : c < 4) :
    y * (4 * W) + 4 * x + c < 4 * W * H := by
  have h1 := row_sep y H (4 * W) hy
  have h2 : 4 * W * H = H * (4 * W) := Nat.mul_comm _ _
  omega

theorem copy_s1_some_eq (a : Surface) (s2 : Option Surface) (sd : Nat) (dd : List Nat) :
    copy_s1 (some a) (diff_rects (some a) s2).r1 sd dd =
      forLoop (fun y acc => memcpy acc (0 + y * sd) a.data (y * a.stride) (4 * a.width))
        a.height dd := by
  rw [diff_rects_r1]
  simp only [copy_s1, buf_width, buf_height]
  have e1 : ((0 : Int) * (sd : Int) + 0 * 4).toNat = 0 := by simp
  have e2 : ((a.width : Int) * 4).toNat = 4 * a.width := by omega
  have e3 : ((a.height : Int)).toNat = a.height := by omega
  rw [e1, e2, e3]

theorem diff_base_length (s1 s2 : Option Surface) :
    (diff_base s1 s2).length =
      4 * max (buf_width s1) (buf_width s2) * max (buf_height s1) (buf_height s2) := by
  unfold diff_base
  cases s1 with
  | none => simp [copy_s1, diff_canvas_data]
  | some a =>
    rw [copy_s1_some_eq, diff_canvas_stride]
    have hW : a.width ≤ max (buf_width (some a)) (buf_width s2) := Nat.le_max_left _ _
    have hH : a.height ≤ max (buf_height (some a)) (buf_height s2) := Nat.le_max_left _ _
    have hlen : (diff_canvas (some a) s2).data.length =
        max (buf_height (some a)) (buf_height s2) * (4 * max (buf_width (some a)) (buf_width s2)) := by
      rw [diff_canvas_data, List.length_replicate, Nat.mul_comm]
    have hmul := Nat.mul_le_mul_right (4 * max (buf_width (some a)) (buf_width s2)) hH
    rw [(copy_rows_spec a.data a.stride _ 0 (4 * a.width) _ a.height (by omega) (by omega)).1,
      hlen, Nat.mul_comm]

theorem diff_base_getD (s1 s2 : Option Surface) (x y c : Nat)
    (hx : x < max (buf_width s1) (buf_width s2))
    (hy : y < max (buf_height s1) (buf_height s2)) (hc : c < 4) :
    (diff_base s1 s2).getD (y * (4 * max (buf_width s1) (buf_width s2)) + 4 * x + c) 0 =
      if x < buf_width s1 ∧ y < buf_height s1 then buf_chan s1 x y c
      else if rects_mismatch (diff_rects s1 s2).r1 (diff_rects s1 s2).r2 = true then 255
      else 0 := by
  have hoff := canvas_offset_lt _ _ x y c hx hy hc
  unfold diff_base
  cases s1 with
  | none =>
    have hn : ¬ (x < buf_width none ∧ y < buf_height none) := by simp [buf_width]
    rw [if_neg hn]
    simp only [copy_s1]
    rw [diff_canvas_data, getD_replicate_lt _ _ _ hoff]
  | some a =>
    rw [copy_s1_some_eq, diff_canvas_stride]
    have hW : a.width ≤ max (buf_width (some a)) (buf_width s2) := Nat.le_max_left _ _
    have hH : a.height ≤ max (buf_height (some a)) (buf_height s2) := Nat.le_max_left _ _
    have hlen : (diff_canvas (some a) s2).data.length =
        max (buf_height (some a)) (buf_height s2) * (4 * max (buf_width (some a)) (buf_width s2)) := by
      rw [diff_canvas_data, List.length_replicate, Nat.mul_comm]
    have hmul := Nat.mul_le_mul_right (4 * max (buf_width (some a)) (buf_width s2)) hH
    obtain ⟨_, cfr, ccp⟩ := copy_rows_spec a.data a.stride
      (4 * max (buf_width (some a)) (buf_width s2)) 0 (4 * a.width)
      (diff_canvas (some a) s2).data a.height (by omega) (by omega)
    by_cases hin : x < buf_width (some a) ∧ y < buf_height (some a)
    · rw [if_pos hin]
      have hx1 : x < a.width := hin.1
      have hy1 : y < a.height := hin.2
      have := ccp y (4 * x + c) hy1 (by omega)
      have e : 0 + y * (4 * max (buf_width (some a)) (buf_width s2)) + (4 * x + c)
          = y * (4 * max (buf_width (some a)) (buf_width s2)) + 4 * x + c := by omega
      rw [e] at this
      rw [this]
      simp only [buf_chan, Surface.chan]
      congr 1
      omega
    · rw [if_neg hin]
      have hin' : ¬ (x < a.width ∧ y < a.height) := hin
      rw [cfr, diff_canvas_data, getD_replicate_lt _ _ _ hoff]
      intro y' i hy' hi
      rcases Nat.lt_trichotomy y' y with h | h | h
      · have := row_sep y' y (4 * max (buf_width (some a)) (buf_width s2)) h
        omega
      · subst h
        omega
      · have := row_sep y y' (4 * max (buf_width (some a)) (buf_width s2)) h
        omega

theorem buf_data_getD (s : Option Surface) (x y c : Nat) :
    (buf_data s).getD (y * buf_stride s + 4 * x + c) 0 = buf_chan s x y c := by
  cases s with
  | none => simp [buf_data, buf_chan]
  | some a => rfl

theorem pixel_differs_eq_false (tol : Int) (a0 a1 a2 b0 b1 b2 : Nat) :
    pixel_differs tol a0 a1 a2 b0 b1 b2 = false ↔
      |(a0 : Int) - (b0 : Int)| ≤ tol ∧ |(a1 : Int) - (b1 : Int)| ≤ tol ∧
      |(a2 : Int) - (b2 : Int)| ≤ tol := by
  simp only [pixel_differs, Bool.or_eq_false_iff, decide_eq_false_iff_not, abs_le]
  constructor
  · rintro ⟨⟨⟨⟨⟨h1, h2⟩, h3⟩, h4⟩, h5⟩, h6⟩
    refine ⟨⟨?_, ?_⟩, ⟨?_, ?_⟩, ⟨?_, ?_⟩⟩ <;> omega
  · rintro ⟨⟨h1, h2⟩, ⟨h3, h4⟩, ⟨h5, h6⟩⟩
    refine ⟨⟨⟨⟨⟨?_, ?_⟩, ?_⟩, ?_⟩, ?_⟩, ?_⟩ <;> omega

section
variable (cfg : Config) (tg : Nat → Nat → Nat → Nat)

theorem blend_s2_eq (s1 s2 : Option Surface) (th : Bool) (sd : Nat) (st : DiffState) :
    blend_s2 cfg tg s2 th (diff_rects s1 s2).r2 sd st =
      forLoop (row_step cfg tg (buf_data s2) (buf_stride s2) th
          ⟨0, 0, (buf_width s2 : Int), (buf_height s2 : Int)⟩ sd 0)
        (buf_height s2) st := by
  rw [diff_rects_r2]
  cases s2 with
  | none => rfl
  | some b =>
    simp only [blend_s2, buf_width, buf_height, buf_data, buf_stride]
    have e1 : ((0 : Int) * (sd : Int) + 0 * 4).toNat = 0 := by simp
    have e3 : ((b.height : Int)).toNat = b.height := by omega
    rw [e1, e3]

theorem px_differs_base (s1 s2 : Option Surface) (x y : Nat) :
    px_differs cfg.g_channel_tolerance (diff_base s1 s2) (buf_data s2)
        (0 + y * (diff_canvas s1 s2).stride) (y * buf_stride s2) x
      = differs_at cfg s1 s2 x y := by
  simp only [px_differs, differs_at, diff_base_surface, Surface.chan, buf_data_getD,
    Nat.zero_add]

/-- Everything the later results need about the state at line 228. -/
theorem diff_final_spec (s1 s2 : Option Surface) (tw : Int) :
    (diff_final cfg tg s1 s2 tw).datadiff.length
        = 4 * max (buf_width s1) (buf_width s2) * max (buf_height s1) (buf_height s2) ∧
    (∀ j, (∀ y x c, y < buf_height s2 → x < buf_width s2 → c < 3 →
          j ≠ y * (diff_canvas s1 s2).stride + 4 * x + c) →
      (diff_final cfg tg s1 s2 tw).datadiff.getD j 0 = (diff_base s1 s2).getD j 0) ∧
    (∀ y x c, y < buf_height s2 → x < buf_width s2 → c < 3 →
      (diff_final cfg tg s1 s2 tw).datadiff.getD
          (y * (diff_canvas s1 s2).stride + 4 * x + c) 0
        = row_result cfg tg (diff_base s1 s2) (buf_data s2) (buf_width s2)
            (y * (diff_canvas s1 s2).stride) (y * buf_stride s2) x c) ∧
    (diff_final cfg tg s1 s2 tw).changes
        = (rects_mismatch (diff_rects s1 s2).r1 (diff_rects s1 s2).r2 ||
            (List.range (buf_height s2)).any (fun y =>
              (List.range (buf_width s2)).any (fun x => differs_at cfg s1 s2 x y))) := by
  have hW : buf_width s2 ≤ max (buf_width s1) (buf_width s2) := Nat.le_max_right _ _
  have hH : buf_height s2 ≤ max (buf_height s1) (buf_height s2) := Nat.le_max_right _ _
  have hmul := Nat.mul_le_mul_right (4 * max (buf_width s1) (buf_width s2)) hH
  have hlen := diff_base_length s1 s2
  have hcomm : 4 * max (buf_width s1) (buf_width s2) * max (buf_height s1) (buf_height s2)
      = max (buf_height s1) (buf_height s2) * (4 * max (buf_width s1) (buf_width s2)) :=
    Nat.mul_comm _ _
  have hw2 : ((buf_width s2 : Int)).toNat = buf_width s2 := by omega
  obtain ⟨bl, bfr, bres, bch⟩ := blend_rows_spec cfg tg (buf_data s2) (buf_stride s2)
    (decide (tw > 0)) ⟨0, 0, (buf_width s2 : Int), (buf_height s2 : Int)⟩
    (diff_canvas s1 s2).stride 0
    { datadiff := diff_base s1 s2,
      changes := rects_mismatch (diff_rects s1 s2).r1 (diff_rects s1 s2).r2,
      linediff := false, thumb := [] }
    (buf_height s2)
    (by rw [diff_canvas_stride]; simp only [hw2]; omega)
    (by rw [diff_canvas_stride]; simp only []; omega)
  simp only [hw2, Nat.zero_add] at bl bfr bres bch
  unfold diff_final
  simp only []
  rw [blend_s2_eq]
  refine ⟨by rw [bl, hlen], bfr, bres, ?_⟩
  rw [bch]
  congr 1
  apply any_range_congr
  intro y _
  unfold row_flagged
  apply any_range_congr
  intro x _
  have := px_differs_base cfg s1 s2 x y
  rw [Nat.zero_add] at this
  exact this

end

/-! ## The verdict of the differ -/

theorem base_chan_eq (s1 s2 : Option Surface) (x y c : Nat)
    (hx : x < max (buf_width s1) (buf_width s2))
    (hy : y < max (buf_height s1) (buf_height s2)) (hc : c < 4) :
    (diff_base_surface s1 s2).chan x y c =
      if x < buf_width s1 ∧ y < buf_height s1 then buf_chan s1 x y c
      else if rects_mismatch (diff_rects s1 s2).r1 (diff_rects s1 s2).r2 = true then 255
      else 0 := by
  have := diff_base_getD s1 s2 x y c hx hy hc
  rw [← diff_canvas_stride] at this
  exact this

theorem differs_at_inside (cfg : Config) (s1 s2 : Option Surface) (x y : Nat)
    (hx : x < buf_width s1) (hy : y < buf_height s1) :
    differs_at cfg s1 s2 x y =
      pixel_differs cfg.g_channel_tolerance (buf_chan s1 x y 0) (buf_chan s1 x y 1)
        (buf_chan s1 x y 2) (buf_chan s2 x y 0) (buf_chan s2 x y 1) (buf_chan s2 x y 2) := by
  have hW : buf_width s1 ≤ max (buf_width s1) (buf_width s2) := Nat.le_max_left _ _
  have hH : buf_height s1 ≤ max (buf_height s1) (buf_height s2) := Nat.le_max_left _ _
  unfold differs_at
  rw [base_chan_eq s1 s2 x y 0 (by omega) (by omega) (by omega),
    base_chan_eq s1 s2 x y 1 (by omega) (by omega) (by omega),
    base_chan_eq s1 s2 x y 2 (by omega) (by omega) (by omega)]
  simp only [if_pos (And.intro hx hy)]

theorem pixel_within_iff (tol : Int) (s1 s2 : Option Surface) (x y : Nat) :
    pixel_differs tol (buf_chan s1 x y 0) (buf_chan s1 x y 1) (buf_chan s1 x y 2)
        (buf_chan s2 x y 0) (buf_chan s2 x y 1) (buf_chan s2 x y 2) = false ↔
      ∀ c, c < 3 → |(buf_chan s1 x y c : Int) - (buf_chan s2 x y c : Int)| ≤ tol := by
  rw [pixel_differs_eq_false]
  constructor
  · rintro ⟨h0, h1, h2⟩ c hc
    have hc3 : c = 0 ∨ c = 1 ∨ c = 2 := by omega
    rcases hc3 with rfl | rfl | rfl
    · exact h0
    · exact h1
    · exact h2
  · intro h
    exact ⟨h 0 (by omega), h 1 (by omega), h 2 (by omega)⟩

theorem changes_false_iff (cfg : Config) (tg : Nat → Nat → Nat → Nat)
    (s1 s2 : Option Surface) (tw : Int) :
    (diff_final cfg tg s1 s2 tw).changes = false ↔
      within_tolerance cfg.g_channel_tolerance s1 s2 := by
  rw [(diff_final_spec cfg tg s1 s2 tw).2.2.2, Bool.or_eq_false_iff, any_range_eq_false]
  unfold within_tolerance
  constructor
  · rintro ⟨hmis, hall⟩
    have hsz : ¬ (buf_width s1 ≠ buf_width s2 ∨ buf_height s1 ≠ buf_height s2) := by
      intro h
      rw [(diff_mismatch_iff s1 s2).2 h] at hmis
      exact Bool.noConfusion hmis
    have hw : buf_width s1 = buf_width s2 := by omega
    have hh : buf_height s1 = buf_height s2 := by omega
    refine ⟨hw, hh, ?_⟩
    intro x y c hx hy hc
    have h1 := hall y (by omega)
    rw [any_range_eq_false] at h1
    have h2 := h1 x (by omega)
    rw [differs_at_inside cfg s1 s2 x y hx hy, pixel_within_iff] at h2
    exact h2 c hc
  · rintro ⟨hw, hh, hall⟩
    constructor
    · cases hm : rects_mismatch (diff_rects s1 s2).r1 (diff_rects s1 s2).r2 with
      | false => rfl
      | true =>
        have := (diff_mismatch_iff s1 s2).1 hm
        omega
    · intro y hy
      rw [any_range_eq_false]
      intro x hx
      rw [differs_at_inside cfg s1 s2 x y (by omega) (by omega), pixel_within_iff]
      intro c hc
      exact hall x y c (by omega) (by omega) hc

theorem diff_images_some (cfg : Config) (tg : Nat → Nat → Nat → Nat)
    (s1 s2 : Option Surface) (ox oy tw : Int) (hs : s1 ≠ none ∨ s2 ≠ none) :
    diff_images cfg tg s1 s2 ox oy tw =
      some { diff := if (diff_final cfg tg s1 s2 tw).changes = true then
                       some { diff_canvas s1 s2 with
                              data := (diff_final cfg tg s1 s2 tw).datadiff }
                     else none,
             thumbnail := if tw > 0 then some (diff_final cfg tg s1 s2 tw).thumb else none } := by
  unfold diff_images
  have hn : (s1.isNone && s2.isNone) = false := by
    cases s1 <;> cases s2 <;> simp at hs ⊢
  rw [hn]
  simp only [Bool.false_eq_true, if_false]
  split_ifs <;> rfl

theorem returns_null_iff (cfg : Config) (tg : Nat → Nat → Nat → Nat)
    (s1 s2 : Option Surface) (ox oy tw : Int) (hs : s1 ≠ none ∨ s2 ≠ none) :
    returns_null (diff_images cfg tg s1 s2 ox oy tw) ↔
      within_tolerance cfg.g_channel_tolerance s1 s2 := by
  rw [← changes_false_iff cfg tg s1 s2 tw, diff_images_some cfg tg s1 s2 ox oy tw hs]
  unfold returns_null
  constructor
  · rintro ⟨r, hr, hd⟩
    cases hc : (diff_final cfg tg s1 s2 tw).changes with
    | false => rfl
    | true =>
      rw [hc] at hr
      simp only [if_true, Option.some.injEq] at hr
      rw [← hr] at hd
      exact Option.noConfusion hd
  · intro hc
    rw [hc]
    exact ⟨_, rfl, rfl⟩

/-- C1: whenever at least one buffer is present, `diff_images` returns, and it
returns `NULL` exactly when the two buffers (an absent one counting as 0x0)
have the same width and height and every colour channel of every pixel agrees
up to the tolerance; this for every tolerance and every setting of grayscale,
mark-differences and thumbnail width.  In particular a width or height
mismatch always yields a composite. -/
theorem diff_images_null_iff (cfg : Config) (tg : Nat → Nat → Nat → Nat)
    (s1 s2 : Option Surface) (offset_x offset_y thumbnail_width : Int)
    (hs : s1 ≠ none ∨ s2 ≠ none) :
    ∃ r, diff_images cfg tg s1 s2 offset_x offset_y thumbnail_width = some r ∧
      (r.diff = none ↔ within_tolerance cfg.g_channel_tolerance s1 s2) ∧
      ((buf_width s1 ≠ buf_width s2 ∨ buf_height s1 ≠ buf_height s2) → r.diff ≠ none) := by
  have hiff := returns_null_iff cfg tg s1 s2 offset_x offset_y thumbnail_width hs
  rw [diff_images_some cfg tg s1 s2 offset_x offset_y thumbnail_width hs] at hiff ⊢
  refine ⟨_, rfl, ?_, ?_⟩
  · rw [← hiff]
    constructor
    · intro h
      exact ⟨_, rfl, h⟩
    · rintro ⟨r, hr, hd⟩
      rw [← Option.some.inj hr] at hd
      exact hd
  · intro hne hnone
    have hw : within_tolerance cfg.g_channel_tolerance s1 s2 := hiff.1 ⟨_, rfl, hnone⟩
    rcases hne with h | h
    · exact h hw.1
    · exact h hw.2.1

/-! ## The contents of the composite -/

section
variable (cfg : Config) (tg : Nat → Nat → Nat → Nat)

theorem diff_surface_width (s1 s2 : Option Surface) (tw : Int) :
    (diff_surface cfg tg s1 s2 tw).width = max (buf_width s1) (buf_width s2) :=
  diff_canvas_width s1 s2

theorem diff_surface_height (s1 s2 : Option Surface) (tw : Int) :
    (diff_surface cfg tg s1 s2 tw).height = max (buf_height s1) (buf_height s2) :=
  diff_canvas_height s1 s2

theorem changes_eq (s1 s2 : Option Surface) (tw : Int) :
    (diff_final cfg tg s1 s2 tw).changes
      = (rects_mismatch (diff_rects s1 s2).r1 (diff_rects s1 s2).r2 ||
          (List.range (buf_height s2)).any (line_flagged cfg s1 s2)) :=
  (diff_final_spec cfg tg s1 s2 tw).2.2.2

theorem diff_images_eq (s1 s2 : Option Surface) (ox oy tw : Int)
    (hs : s1 ≠ none ∨ s2 ≠ none) :
    diff_images cfg tg s1 s2 ox oy tw =
      some { diff := if (diff_final cfg tg s1 s2 tw).changes = true then
                       some (diff_surface cfg tg s1 s2 tw)
                     else none,
             thumbnail := if tw > 0 then some (diff_final cfg tg s1 s2 tw).thumb else none } :=
  diff_images_some cfg tg s1 s2 ox oy tw hs

/-- Inside the rectangle of `s2` the three colour bytes of `diff` are the mark
on a flagged row (marking on, first ten pixels) and the composited byte
otherwise. -/
theorem diff_surface_chan_inside (s1 s2 : Option Surface) (tw : Int) (x y c : Nat)
    (hx : x < buf_width s2) (hy : y < buf_height s2) (hc : c < 3) :
    (diff_surface cfg tg s1 s2 tw).chan x y c =
      if cfg.g_mark_differences = true ∧ line_flagged cfg s1 s2 y = true ∧
          x < min 10 (buf_width s2) then mark_byte c
      else composite_at cfg tg s1 s2 x y c := by
  have h := (diff_final_spec cfg tg s1 s2 tw).2.2.1 y x c hy hx hc
  have hfl : row_flagged cfg.g_channel_tolerance (diff_base s1 s2) (buf_data s2)
      (buf_width s2) (y * (diff_canvas s1 s2).stride) (y * buf_stride s2)
        = line_flagged cfg s1 s2 y := by
    unfold row_flagged line_flagged
    apply any_range_congr
    intro x' _
    have := px_differs_base cfg s1 s2 x' y
    rw [Nat.zero_add] at this
    exact this
  have hco : px_composite cfg tg (diff_base s1 s2) (buf_data s2)
      (y * (diff_canvas s1 s2).stride) (y * buf_stride s2) x c
        = composite_at cfg tg s1 s2 x y c := by
    simp only [px_composite, composite_at, diff_base_surface, Surface.chan, buf_data_getD]
  unfold row_result at h
  rw [hfl, hco] at h
  exact h

/-- Every other byte of `diff` is as the copy of `s1` left it. -/
theorem diff_surface_chan_outside (s1 s2 : Option Surface) (tw : Int) (x y c : Nat)
    (hx : x < max (buf_width s1) (buf_width s2)) (hc : c < 4)
    (hout : ¬ (x < buf_width s2 ∧ y < buf_height s2 ∧ c < 3)) :
    (diff_surface cfg tg s1 s2 tw).chan x y c = (diff_base_surface s1 s2).chan x y c := by
  have hW : buf_width s2 ≤ max (buf_width s1) (buf_width s2) := Nat.le_max_right _ _
  have hst := diff_canvas_stride s1 s2
  apply (diff_final_spec cfg tg s1 s2 tw).2.1
  intro y' x' c' hy' hx' hc'
  show y * (diff_canvas s1 s2).stride + 4 * x + c ≠ _
  rcases Nat.lt_trichotomy y' y with h | h | h
  · have := row_sep y' y (diff_canvas s1 s2).stride h
    omega
  · subst h
    omega
  · have := row_sep y y' (diff_canvas s1 s2).stride h
    omega

theorem composite_at_plain (s1 s2 : Option Surface) (x y : Nat)
    (hg : cfg.g_grayscale = false) :
    composite_at cfg tg s1 s2 x y 0 = (diff_base_surface s1 s2).chan x y 0 ∧
    composite_at cfg tg s1 s2 x y 1 = (diff_base_surface s1 s2).chan x y 1 ∧
    composite_at cfg tg s1 s2 x y 2 = buf_chan s2 x y 2 := by
  simp [composite_at, composite_byte, hg]

end

/-! ## Claims about `diff_images` -/

/-- Instance of C1 on two 2x1 buffers. -/
theorem diff_images_null_iff_witness :
    ∃ r, diff_images ex_cfg ex_gray (some ex_a) (some ex_b) 0 0 (-1) = some r ∧
      (r.diff = none ↔ within_tolerance ex_cfg.g_channel_tolerance (some ex_a) (some ex_b)) ∧
      ((buf_width (some ex_a) ≠ buf_width (some ex_b) ∨
        buf_height (some ex_a) ≠ buf_height (some ex_b)) → r.diff ≠ none) :=
  diff_images_null_iff ex_cfg ex_gray (some ex_a) (some ex_b) 0 0 (-1) (by decide)

/-- C3: for a present buffer `a` and a tolerance that is not negative (so for
every tolerance in 0..255, and for 0), `diff_images(a, a)` returns `NULL`,
whatever the grayscale, marking and thumbnail settings. -/
theorem diff_images_self (cfg : Config) (tg : Nat → Nat → Nat → Nat) (a : Surface)
    (offset_x offset_y thumbnail_width : Int) (ht : 0 ≤ cfg.g_channel_tolerance) :
    returns_null (diff_images cfg tg (some a) (some a) offset_x offset_y thumbnail_width) := by
  rw [returns_null_iff cfg tg (some a) (some a) offset_x offset_y thumbnail_width
    (Or.inl (Option.some_ne_none a))]
  refine ⟨rfl, rfl, ?_⟩
  intro x y c _ _ _
  rw [sub_self, abs_zero]
  exact ht

/-- Instance of C3 at tolerance 0. -/
theorem diff_images_self_witness :
    returns_null (diff_images ex_cfg ex_gray (some ex_a) (some ex_a) 0 0 (-1)) :=
  diff_images_self ex_cfg ex_gray ex_a 0 0 (-1) (by decide)

/-- C4: monotonicity in the tolerance.  If `diff_images` returns `NULL` with
`g_channel_tolerance = tol1` and `tol1 ≤ tol2`, it returns `NULL` with
`g_channel_tolerance = tol2`, all other settings and the buffers being equal. -/
theorem diff_images_tolerance_mono (cfg : Config) (tg : Nat → Nat → Nat → Nat)
    (s1 s2 : Option Surface) (offset_x offset_y thumbnail_width : Int) (tol1 tol2 : Int)
    (hle : tol1 ≤ tol2)
    (h1 : returns_null (diff_images { cfg with g_channel_tolerance := tol1 } tg s1 s2
      offset_x offset_y thumbnail_width)) :
    returns_null (diff_images { cfg with g_channel_tolerance := tol2 } tg s1 s2
      offset_x offset_y thumbnail_width) := by
  have hs : s1 ≠ none ∨ s2 ≠ none := by
    by_contra hn
    have e1 : s1 = none := by
      by_contra h
      exact hn (Or.inl h)
    have e2 : s2 = none := by
      by_contra h
      exact hn (Or.inr h)
    subst e1 e2
    obtain ⟨r, hr, _⟩ := h1
    exact Option.noConfusion hr
  rw [returns_null_iff _ tg s1 s2 offset_x offset_y thumbnail_width hs] at h1 ⊢
  obtain ⟨hw, hh, hall⟩ := h1
  exact ⟨hw, hh, fun x y c hx hy hc => le_trans (hall x y c hx hy hc) hle⟩

/-- Instance of C4: two buffers three apart in one byte, tolerance 3 against 5. -/
theorem diff_images_tolerance_mono_witness :
    returns_null (diff_images { ex_cfg with g_channel_tolerance := 5 } ex_gray
      (some ex_a) (some ex_b) 0 0 (-1)) :=
  diff_images_tolerance_mono ex_cfg ex_gray (some ex_a) (some ex_b) 0 0 (-1) 3 5 (by decide)
    ⟨{ diff := none, thumbnail := none }, by decide, rfl⟩

/-- C5: for equal-size buffers `a`, `b` that differ beyond the tolerance in at
least one colour byte of one pixel, with grayscale and marking off,
`diff_images` returns a composite of the same size whose every pixel has bytes
0 and 1 (the source's `cr`, `cg`) from `a` and byte 2 (`cb`) from `b`; hence a
pixel on which `a` and `b` agree in byte 2 is `a`'s pixel, unused byte included. -/
theorem diff_images_composite (cfg : Config) (tg : Nat → Nat → Nat → Nat) (a b : Surface)
    (offset_x offset_y thumbnail_width : Int)
    (hw : a.width = b.width) (hh : a.height = b.height)
    (hg : cfg.g_grayscale = false) (hm : cfg.g_mark_differences = false)
    (hd : ∃ x y c, x < a.width ∧ y < a.height ∧ c < 3 ∧
      cfg.g_channel_tolerance < |(a.chan x y c : Int) - (b.chan x y c : Int)|) :
    ∃ r d, diff_images cfg tg (some a) (some b) offset_x offset_y thumbnail_width = some r ∧
      r.diff = some d ∧ d.width = a.width ∧ d.height = a.height ∧
      ∀ x y, x < a.width → y < a.height →
        d.chan x y 0 = a.chan x y 0 ∧ d.chan x y 1 = a.chan x y 1 ∧
        d.chan x y 2 = b.chan x y 2 ∧
        (a.chan x y 2 = b.chan x y 2 → ∀ c, c < 4 → d.chan x y c = a.chan x y c) := by
  have hs : (some a : Option Surface) ≠ none ∨ (some b : Option Surface) ≠ none :=
    Or.inl (Option.some_ne_none a)
  have hch : (diff_final cfg tg (some a) (some b) thumbnail_width).changes = true := by
    cases hc : (diff_final cfg tg (some a) (some b) thumbnail_width).changes with
    | true => rfl
    | false =>
      exfalso
      obtain ⟨x, y, c, hx, hy, hc3, hlt⟩ := hd
      have := ((changes_false_iff cfg tg (some a) (some b) thumbnail_width).1 hc).2.2
        x y c hx hy hc3
      exact absurd this (not_le.2 hlt)
  have hbw : buf_width (some b) = a.width := hw.symm
  have hbh : buf_height (some b) = a.height := hh.symm
  have haw : buf_width (some a) = a.width := rfl
  have hah : buf_height (some a) = a.height := rfl
  refine ⟨_, diff_surface cfg tg (some a) (some b) thumbnail_width,
    diff_images_eq cfg tg (some a) (some b) offset_x offset_y thumbnail_width hs, ?_, ?_, ?_, ?_⟩
  · simp only [hch, if_true]
  · rw [diff_surface_width, haw, hbw, Nat.max_self]
  · rw [diff_surface_height, hah, hbh, Nat.max_self]
  · intro x y hx hy
    have hin : ∀ c, c < 3 →
        (diff_surface cfg tg (some a) (some b) thumbnail_width).chan x y c
          = composite_at cfg tg (some a) (some b) x y c := by
      intro c hc
      rw [diff_surface_chan_inside cfg tg (some a) (some b) thumbnail_width x y c
        (by omega) (by omega) hc, if_neg]
      rintro ⟨h, _⟩
      rw [hm] at h
      exact Bool.noConfusion h
    have hbase : ∀ c, c < 4 → (diff_base_surface (some a) (some b)).chan x y c = a.chan x y c := by
      intro c hc
      rw [base_chan_eq (some a) (some b) x y c (by rw [haw, hbw, Nat.max_self]; exact hx)
        (by rw [hah, hbh, Nat.max_self]; exact hy) hc, if_pos ⟨hx, hy⟩]
      rfl
    obtain ⟨p0, p1, p2⟩ := composite_at_plain cfg tg (some a) (some b) x y hg
    have e0 : (diff_surface cfg tg (some a) (some b) thumbnail_width).chan x y 0 = a.chan x y 0 := by
      rw [hin 0 (by omega), p0, hbase 0 (by omega)]
    have e1 : (diff_surface cfg tg (some a) (some b) thumbnail_width).chan x y 1 = a.chan x y 1 := by
      rw [hin 1 (by omega), p1, hbase 1 (by omega)]
    have e2 : (diff_surface cfg tg (some a) (some b) thumbnail_width).chan x y 2 = b.chan x y 2 := by
      rw [hin 2 (by omega), p2]
      rfl
    refine ⟨e0, e1, e2, ?_⟩
    intro heq c hc
    have hc4 : c = 0 ∨ c = 1 ∨ c = 2 ∨ c = 3 := by omega
    rcases hc4 with rfl | rfl | rfl | rfl
    · exact e0
    · exact e1
    · rw [e2, heq]
    · rw [diff_surface_chan_outside cfg tg (some a) (some b) thumbnail_width x y 3
        (by rw [haw, hbw, Nat.max_self]; exact hx) (by omega) (by omega), hbase 3 (by omega)]

/-- Instance of C5: `ex_a` against `ex_b` at tolerance 0; pixel (1, 0) differs. -/
theorem diff_images_composite_witness :
    ∃ r d, diff_images ex_cfg ex_gray (some ex_a) (some ex_b) 0 0 (-1) = some r ∧
      r.diff = some d ∧ d.width = ex_a.width ∧ d.height = ex_a.height ∧
      ∀ x y, x < ex_a.width → y < ex_a.height →
        d.chan x y 0 = ex_a.chan x y 0 ∧ d.chan x y 1 = ex_a.chan x y 1 ∧
        d.chan x y 2 = ex_b.chan x y 2 ∧
        (ex_a.chan x y 2 = ex_b.chan x y 2 → ∀ c, c < 4 → d.chan x y c = ex_a.chan x y c) :=
  diff_images_composite ex_cfg ex_gray ex_a ex_b 0 0 (-1) rfl rfl rfl rfl
    ⟨1, 0, 2, by decide, by decide, by decide, by decide⟩

/-- C6, the claim as stated fails: with the first buffer absent and the second
a 0x0 buffer the two rectangles coincide, no pixel is visited, and
`diff_images` returns `NULL`, so no composite is returned. -/
theorem diff_images_absent_empty :
    diff_images ex_cfg ex_gray none (some ex_empty) 0 0 (-1)
        = some { diff := none, thumbnail := none } ∧
    ¬ ∃ r d, diff_images ex_cfg ex_gray none (some ex_empty) 0 0 (-1) = some r ∧
      r.diff = some d := by
  have h : diff_images ex_cfg ex_gray none (some ex_empty) 0 0 (-1)
      = some { diff := none, thumbnail := none } := by decide
  refine ⟨h, ?_⟩
  rintro ⟨r, d, hr, hd⟩
  rw [h] at hr
  rw [← Option.some.inj hr] at hd
  exact Option.noConfusion hd

/-- C6 as amended: for every buffer `b` that is not 0x0 and every tolerance,
`diff_images(NULL, b)` returns a composite of `b`'s width and height; with
grayscale and marking off each of its pixels has bytes 0 and 1 white (255) and
byte 2 taken from `b`'s pixel at the same position. -/
theorem diff_images_absent (cfg : Config) (tg : Nat → Nat → Nat → Nat) (b : Surface)
    (offset_x offset_y thumbnail_width : Int) (hb : b.width ≠ 0 ∨ b.height ≠ 0) :
    ∃ r d, diff_images cfg tg none (some b) offset_x offset_y thumbnail_width = some r ∧
      r.diff = some d ∧ d.width = b.width ∧ d.height = b.height ∧
      (cfg.g_grayscale = false → cfg.g_mark_differences = false →
        ∀ x y, x < b.width → y < b.height →
          d.chan x y 0 = 255 ∧ d.chan x y 1 = 255 ∧ d.chan x y 2 = b.chan x y 2) := by
  have hs : (none : Option Surface) ≠ none ∨ (some b : Option Surface) ≠ none :=
    Or.inr (Option.some_ne_none b)
  have hmis : rects_mismatch (diff_rects none (some b)).r1 (diff_rects none (some b)).r2
      = true := by
    rw [diff_mismatch_iff]
    show (0 ≠ b.width ∨ 0 ≠ b.height)
    omega
  have hch : (diff_final cfg tg none (some b) thumbnail_width).changes = true := by
    rw [changes_eq, hmis, Bool.true_or]
  have hnw : buf_width (none : Option Surface) = 0 := rfl
  have hnh : buf_height (none : Option Surface) = 0 := rfl
  have hbw : buf_width (some b) = b.width := rfl
  have hbh : buf_height (some b) = b.height := rfl
  refine ⟨_, diff_surface cfg tg none (some b) thumbnail_width,
    diff_images_eq cfg tg none (some b) offset_x offset_y thumbnail_width hs, ?_, ?_, ?_, ?_⟩
  · simp only [hch, if_true]
  · rw [diff_surface_width, hnw, hbw, Nat.zero_max]
  · rw [diff_surface_height, hnh, hbh, Nat.zero_max]
  · intro hg hm x y hx hy
    have hin : ∀ c, c < 3 →
        (diff_surface cfg tg none (some b) thumbnail_width).chan x y c
          = composite_at cfg tg none (some b) x y c := by
      intro c hc
      rw [diff_surface_chan_inside cfg tg none (some b) thumbnail_width x y c hx hy hc, if_neg]
      rintro ⟨h, _⟩
      rw [hm] at h
      exact Bool.noConfusion h
    have hbase : ∀ c, c < 4 → (diff_base_surface none (some b)).chan x y c = 255 := by
      intro c hc
      rw [base_chan_eq none (some b) x y c (by rw [hnw, hbw, Nat.zero_max]; exact hx)
        (by rw [hnh, hbh, Nat.zero_max]; exact hy) hc, if_neg (by rw [hnw]; omega),
        if_pos hmis]
    obtain ⟨p0, p1, p2⟩ := composite_at_plain cfg tg none (some b) x y hg
    refine ⟨?_, ?_, ?_⟩
    · rw [hin 0 (by omega), p0, hbase 0 (by omega)]
    · rw [hin 1 (by omega), p1, hbase 1 (by omega)]
    · rw [hin 2 (by omega), p2]
      rfl

/-- Instance of the amended C6 on the 2x1 buffer `ex_b`. -/
theorem diff_images_absent_witness :
    ∃ r d, diff_images ex_cfg ex_gray none (some ex_b) 0 0 (-1) = some r ∧
      r.diff = some d ∧ d.width = ex_b.width ∧ d.height = ex_b.height ∧
      (ex_cfg.g_grayscale = false → ex_cfg.g_mark_differences = false →
        ∀ x y, x < ex_b.width → y < ex_b.height →
          d.chan x y 0 = 255 ∧ d.chan x y 1 = 255 ∧ d.chan x y 2 = ex_b.chan x y 2) :=
  diff_images_absent ex_cfg ex_gray ex_b 0 0 (-1) (by decide)

/-- C7: with marking on, for all buffers `s1` (possibly absent) and `b`, every
tolerance and either grayscale setting: if row `y` of `b` holds a pixel that
differs beyond the tolerance from the pixel of `diff` under it, a composite is
returned and its pixels `(x, y)` with `x < min 10 b.width` are exactly
`(0, 0, 255)`. -/
theorem diff_images_marks (cfg : Config) (tg : Nat → Nat → Nat → Nat)
    (s1 : Option Surface) (b : Surface) (offset_x offset_y thumbnail_width : Int) (y : Nat)
    (hm : cfg.g_mark_differences = true) (hy : y < b.height)
    (hd : ∃ x, x < b.width ∧ differs_at cfg s1 (some b) x y = true) :
    ∃ r d, diff_images cfg tg s1 (some b) offset_x offset_y thumbnail_width = some r ∧
      r.diff = some d ∧
      ∀ x, x < min 10 b.width →
        d.chan x y 0 = 0 ∧ d.chan x y 1 = 0 ∧ d.chan x y 2 = 255 := by
  have hs : s1 ≠ none ∨ (some b : Option Surface) ≠ none := Or.inr (Option.some_ne_none b)
  have hbw : buf_width (some b) = b.width := rfl
  have hbh : buf_height (some b) = b.height := rfl
  have hfl : line_flagged cfg s1 (some b) y = true := by
    unfold line_flagged
    rw [any_range_eq_true]
    exact hd
  have hch : (diff_final cfg tg s1 (some b) thumbnail_width).changes = true := by
    rw [changes_eq, Bool.or_eq_true]
    right
    rw [any_range_eq_true]
    exact ⟨y, hy, hfl⟩
  refine ⟨_, diff_surface cfg tg s1 (some b) thumbnail_width,
    diff_images_eq cfg tg s1 (some b) offset_x offset_y thumbnail_width hs, ?_, ?_⟩
  · simp only [hch, if_true]
  · intro x hx
    have hxw : x < b.width := lt_of_lt_of_le hx (Nat.min_le_right _ _)
    have hin : ∀ c, c < 3 →
        (diff_surface cfg tg s1 (some b) thumbnail_width).chan x y c = mark_byte c := by
      intro c hc
      rw [diff_surface_chan_inside cfg tg s1 (some b) thumbnail_width x y c hxw hy hc,
        if_pos ⟨hm, hfl, hx⟩]
    exact ⟨hin 0 (by omega), hin 1 (by omega), hin 2 (by omega)⟩

/-- Instance of C7: `ex_a` against `ex_b`, whose row 0 differs at pixel 1. -/
theorem diff_images_marks_witness :
    ∃ r d, diff_images ex_cfg_mark ex_gray (some ex_a) (some ex_b) 0 0 (-1) = some r ∧
      r.diff = some d ∧
      ∀ x, x < min 10 ex_b.width →
        d.chan x 0 0 = 0 ∧ d.chan x 0 1 = 0 ∧ d.chan x 0 2 = 255 :=
  diff_images_marks ex_cfg_mark ex_gray (some ex_a) ex_b 0 0 (-1) 0 rfl (by decide)
    ⟨1, by decide, by decide⟩

/-! ## The page loop -/

section
variable {Page Sz : Type} (cfg : Config) (tg : Nat → Nat → Nat → Nat) (P : Poppler Page Sz)

theorem page_compare_fst (o : Option (PdfOut Page Sz)) (p1 p2 : Option Page) :
    (page_compare cfg tg P o p1 p2).map Prod.fst
      = (page_compare cfg tg P none p1 p2).map Prod.fst := by
  unfold page_compare
  simp only []
  cases diff_images cfg tg (p1.map (P.render_page cfg.g_resolution))
      (p2.map (P.render_page cfg.g_resolution)) 0 0 (P.thumbnail_width p1) with
  | none => rfl
  | some r => rfl

theorem page_compare_of_verdict (doc1 doc2 : List Page) (page : Nat) (b : Bool)
    (o : Option (PdfOut Page Sz))
    (h : page_verdict cfg tg P doc1 doc2 page = some b) :
    ∃ o1, page_compare cfg tg P o (doc1.get? page) (doc2.get? page) = some (b, o1) := by
  unfold page_verdict at h
  rw [← page_compare_fst cfg tg P o] at h
  cases hp : page_compare cfg tg P o (doc1.get? page) (doc2.get? page) with
  | none =>
    rw [hp] at h
    exact Option.noConfusion h
  | some r =>
    rw [hp] at h
    obtain ⟨b1, o1⟩ := r
    simp only [Option.map_some', Option.some.injEq] at h
    exact ⟨o1, by rw [← h]⟩

theorem get?_guard (doc : List Page) (page : Nat) :
    (if page < doc.length then doc.get? page else none) = doc.get? page := by
  split_ifs with h
  · rfl
  · exact (List.get?_eq_none.2 (by omega)).symm

theorem doc_loop_spec (doc1 doc2 : List Page) (pdf_output : Option String) (n : Nat) :
    ∀ (page : Nat) (st : DocState Page Sz),
      (∀ i, page ≤ i → i < page + n → ∃ b, page_verdict cfg tg P doc1 doc2 i = some b) →
      ∃ st1, doc_loop cfg tg P doc1 doc2 pdf_output n page st = some st1 ∧
        st1.pages_differ = st.pages_differ +
          ((visited (page_differs cfg tg P doc1 doc2)
              (early_exit cfg pdf_output st.differences) n page).filter
            (page_differs cfg tg P doc1 doc2)).length ∧
        st1.compared = st.compared ++
          visited (page_differs cfg tg P doc1 doc2)
            (early_exit cfg pdf_output st.differences) n page ∧
        st1.differences = st.differences.map (fun d => d ++
          (visited (page_differs cfg tg P doc1 doc2)
            (early_exit cfg pdf_output st.differences) n page).map
              (page_differs cfg tg P doc1 doc2)) := by
  induction n with
  | zero =>
    intro page st _
    refine ⟨st, rfl, ?_, ?_, ?_⟩
    · simp [visited]
    · simp [visited]
    · cases st.differences <;> simp [visited]
  | succ k ih =>
    intro page st hv
    obtain ⟨b, hb⟩ := hv page (Nat.le_refl _) (by omega)
    have hnext : ∀ i, page + 1 ≤ i → i < page + 1 + k →
        ∃ b, page_verdict cfg tg P doc1 doc2 i = some b :=
      fun i h1 h2 => hv i (by omega) (by omega)
    have hD : page_differs cfg tg P doc1 doc2 page = !b := by
      unfold page_differs
      rw [hb]
      cases b <;> rfl
    have hpc := fun o => page_compare_of_verdict cfg tg P doc1 doc2 page b o hb
    unfold doc_loop
    simp only [get?_guard]
    obtain ⟨o1, ho1⟩ := hpc (if (pdf_output.isSome && page != 0) = true then
      Option.map (fun o => { o with size := Option.map P.page_get_size ((if doc1.length > doc2.length then doc1 else doc2).get? page) }) st.cr_out
      else st.cr_out)
    rw [ho1]
    simp only []
    cases b with
    | true =>
      simp only [Bool.not_true, Bool.false_eq_true, if_false]
      obtain ⟨st1, h1, h2, h3, h4⟩ := ih (page + 1)
        { st with
          cr_out := o1,
          differences := st.differences.map (fun d => d ++ [false]),
          compared := st.compared ++ [page] } hnext
      have hE : early_exit cfg pdf_output (st.differences.map (fun d => d ++ [false]))
          = early_exit cfg pdf_output st.differences := by
        cases st.differences <;> rfl
      simp only [hE] at h2 h3 h4
      have hvis : visited (page_differs cfg tg P doc1 doc2)
          (early_exit cfg pdf_output st.differences) (k + 1) page
          = page :: visited (page_differs cfg tg P doc1 doc2)
              (early_exit cfg pdf_output st.differences) k (page + 1) := by
        simp [visited, hD]
      rw [hvis]
      refine ⟨st1, h1, ?_, ?_, ?_⟩
      · rw [h2]
        simp [hD]
      · rw [h3]
        simp
      · rw [h4, Option.map_map]
        congr 1
        funext d
        simp [hD]
    | false =>
      simp only [Bool.not_false, if_true]
      by_cases hE : early_exit cfg pdf_output st.differences = true
      · have hE1 : (!cfg.g_verbose && !pdf_output.isSome && !st.differences.isSome) = true := hE
        rw [if_pos hE1]
        have hvis : visited (page_differs cfg tg P doc1 doc2)
            (early_exit cfg pdf_output st.differences) (k + 1) page = [page] := by
          simp [visited, hD, hE]
        rw [hvis]
        refine ⟨_, rfl, ?_, ?_, ?_⟩
        · simp [hD]
        · simp
        · simp [hD]
      · have hE1 : ¬ (!cfg.g_verbose && !pdf_output.isSome && !st.differences.isSome) = true := hE
        rw [if_neg hE1]
        obtain ⟨st1, h1, h2, h3, h4⟩ := ih (page + 1)
          { st with
            cr_out := o1,
            differences := st.differences.map (fun d => d ++ [true]),
            compared := st.compared ++ [page],
            pages_differ := st.pages_differ + 1,
            stdout := if cfg.g_verbose = true then st.stdout ++ [Msg.page_differs (page + 1)]
                      else st.stdout } hnext
        have hE2 : early_exit cfg pdf_output (st.differences.map (fun d => d ++ [true]))
            = early_exit cfg pdf_output st.differences := by
          cases st.differences <;> rfl
        simp only [hE2] at h2 h3 h4
        have hvis : visited (page_differs cfg tg P doc1 doc2)
            (early_exit cfg pdf_output st.differences) (k + 1) page
            = page :: visited (page_differs cfg tg P doc1 doc2)
                (early_exit cfg pdf_output st.differences) k (page + 1) := by
          simp [visited, hD, hE]
        rw [hvis]
        refine ⟨st1, h1, ?_, ?_, ?_⟩
        · rw [h2]
          simp [hD]
          omega
        · rw [h3]
          simp
        · rw [h4, Option.map_map]
          congr 1
          funext d
          simp [hD]

end

/-! ## Which pages a scan visits -/

theorem visited_all (D : Nat → Bool) (E : Bool) (n : Nat) :
    ∀ page, (∀ i, page ≤ i → i < page + n → (D i && E) = false) →
      visited D E n page = List.range' page n := by
  induction n with
  | zero =>
    intro page _
    rfl
  | succ k ih =>
    intro page h
    have h0 := h page (Nat.le_refl _) (by omega)
    rw [visited, h0, List.range'_succ, ih (page + 1) (fun i h1 h2 => h i (by omega) (by omega))]
    rfl

theorem visited_first (D : Nat → Bool) (n : Nat) :
    ∀ page k, page ≤ k → k < page + n → D k = true →
      (∀ i, page ≤ i → i < k → D i = false) →
      visited D true n page = List.range' page (k + 1 - page) := by
  induction n with
  | zero =>
    intro page k h1 h2
    omega
  | succ j ih =>
    intro page k h1 h2 hk hlt
    by_cases he : page = k
    · subst he
      have e : page + 1 - page = 1 := by omega
      rw [visited, hk, e]
      rfl
    · have h0 := hlt page (Nat.le_refl _) (by omega)
      have e : k + 1 - page = (k + 1 - (page + 1)) + 1 := by omega
      rw [visited, h0, e, List.range'_succ,
        ih (page + 1) k (by omega) (by omega) hk (fun i h3 h4 => hlt i (by omega) h4)]
      rfl

theorem visited_count_zero (D : Nat → Bool) (E : Bool) (n : Nat) :
    ∀ page, ((visited D E n page).filter D).length = 0 ↔
      ∀ i, page ≤ i → i < page + n → D i = false := by
  induction n with
  | zero =>
    intro page
    constructor
    · intro _ i h1 h2
      omega
    · intro _
      rfl
  | succ k ih =>
    intro page
    cases hD : D page with
    | true =>
      constructor
      · intro h
        exfalso
        rw [visited, hD] at h
        cases E <;> simp [hD] at h
      · intro h
        have := h page (Nat.le_refl _) (by omega)
        rw [hD] at this
        exact Bool.noConfusion this
    | false =>
      have hv : visited D E (k + 1) page = page :: visited D E k (page + 1) := by
        rw [visited, hD]
        rfl
      rw [hv, List.filter_cons_of_neg (by rw [hD]; exact Bool.false_ne_true), ih (page + 1)]
      constructor
      · intro h i h1 h2
        by_cases he : i = page
        · rw [he]
          exact hD
        · exact h i (by omega) (by omega)
      · intro h i h1 h2
        exact h i (by omega) (by omega)

theorem filter_prefix_last (D : Nat → Bool) (m : Nat) (hm : D m = true)
    (hlt : ∀ i, i < m → D i = false) :
    (List.range (m + 1)).filter D = [m] ∧
    (List.range (m + 1)).map D = List.replicate m false ++ [true] := by
  have h1 : (List.range m).filter D = [] := by
    rw [List.filter_eq_nil_iff]
    intro i hi
    rw [hlt i (List.mem_range.1 hi)]
    exact Bool.false_ne_true
  have h2 : (List.range m).map D = List.replicate m false := by
    rw [List.eq_replicate_iff]
    refine ⟨by simp, ?_⟩
    intro b hb
    obtain ⟨i, hi, rfl⟩ := List.mem_map.1 hb
    exact hlt i (List.mem_range.1 hi)
  constructor
  · rw [List.range_succ, List.filter_append, h1]
    simp [hm]
  · rw [List.range_succ, List.map_append, h2]
    simp [hm]

/-! ## `page_compare` and `doc_compare` -/

section
variable {Page Sz : Type} (cfg : Config) (tg : Nat → Nat → Nat → Nat) (P : Poppler Page Sz)

theorem page_compare_none_eq (p1 p2 : Option Page) (hs : p1 ≠ none ∨ p2 ≠ none) :
    (page_compare cfg tg P none p1 p2).map Prod.fst =
      some (!(diff_final cfg tg (p1.map (P.render_page cfg.g_resolution))
        (p2.map (P.render_page cfg.g_resolution)) (P.thumbnail_width p1)).changes) := by
  have hs1 : p1.map (P.render_page cfg.g_resolution) ≠ none ∨
      p2.map (P.render_page cfg.g_resolution) ≠ none := by
    cases p1 <;> cases p2 <;> simp at hs ⊢
  unfold page_compare
  simp only []
  rw [diff_images_eq cfg tg _ _ 0 0 _ hs1]
  cases (diff_final cfg tg (p1.map (P.render_page cfg.g_resolution))
    (p2.map (P.render_page cfg.g_resolution)) (P.thumbnail_width p1)).changes <;> rfl

theorem get?_present (doc1 doc2 : List Page) (page : Nat)
    (h : page < max doc1.length doc2.length) :
    doc1.get? page ≠ none ∨ doc2.get? page ≠ none := by
  by_cases h1 : page < doc1.length
  · left
    rw [List.get?_eq_get h1]
    exact Option.some_ne_none _
  · right
    have h2 : page < doc2.length := by omega
    rw [List.get?_eq_get h2]
    exact Option.some_ne_none _

theorem page_verdict_eq (doc1 doc2 : List Page) (page : Nat)
    (h : page < max doc1.length doc2.length) :
    page_verdict cfg tg P doc1 doc2 page =
      some (!(diff_final cfg tg ((doc1.get? page).map (P.render_page cfg.g_resolution))
        ((doc2.get? page).map (P.render_page cfg.g_resolution))
        (P.thumbnail_width (doc1.get? page))).changes) :=
  page_compare_none_eq cfg tg P _ _ (get?_present doc1 doc2 page h)

theorem page_verdict_true_iff (doc1 doc2 : List Page) (page : Nat)
    (h : page < max doc1.length doc2.length) :
    page_verdict cfg tg P doc1 doc2 page = some true ↔
      within_tolerance cfg.g_channel_tolerance
        ((doc1.get? page).map (P.render_page cfg.g_resolution))
        ((doc2.get? page).map (P.render_page cfg.g_resolution)) := by
  rw [page_verdict_eq cfg tg P doc1 doc2 page h, ← changes_false_iff cfg tg _ _
    (P.thumbnail_width (doc1.get? page))]
  cases (diff_final cfg tg ((doc1.get? page).map (P.render_page cfg.g_resolution))
    ((doc2.get? page).map (P.render_page cfg.g_resolution))
    (P.thumbnail_width (doc1.get? page))).changes <;> simp

theorem page_differs_false_iff (doc1 doc2 : List Page) (page : Nat)
    (h : page < max doc1.length doc2.length) :
    page_differs cfg tg P doc1 doc2 page = false ↔
      page_verdict cfg tg P doc1 doc2 page = some true := by
  unfold page_differs
  rw [page_verdict_eq cfg tg P doc1 doc2 page h]
  cases (diff_final cfg tg ((doc1.get? page).map (P.render_page cfg.g_resolution))
    ((doc2.get? page).map (P.render_page cfg.g_resolution))
    (P.thumbnail_width (doc1.get? page))).changes <;> simp

theorem pages_total_eq (a b : Nat) : (if a > b then a else b) = max a b := by
  split_ifs <;> omega

/-- Everything the claims need about a run of `doc_compare`. -/
theorem doc_compare_spec (doc1 doc2 : List Page) (pdf_output : Option String)
    (differences : Option (List Bool)) :
    ∃ r, doc_compare cfg tg P doc1 doc2 pdf_output differences = some r ∧
      r.same = (r.pages_differ == 0 && doc1.length == doc2.length) ∧
      r.pages_total = max doc1.length doc2.length ∧
      r.pages_differ = ((visited (page_differs cfg tg P doc1 doc2)
          (early_exit cfg pdf_output differences) (max doc1.length doc2.length) 0).filter
            (page_differs cfg tg P doc1 doc2)).length ∧
      r.compared = visited (page_differs cfg tg P doc1 doc2)
          (early_exit cfg pdf_output differences) (max doc1.length doc2.length) 0 ∧
      r.differences = differences.map (fun d => d ++
          (visited (page_differs cfg tg P doc1 doc2)
            (early_exit cfg pdf_output differences) (max doc1.length doc2.length) 0).map
              (page_differs cfg tg P doc1 doc2)) := by
  have hv : ∀ i, 0 ≤ i → i < 0 + max doc1.length doc2.length →
      ∃ b, page_verdict cfg tg P doc1 doc2 i = some b :=
    fun i _ hi => ⟨_, page_verdict_eq cfg tg P doc1 doc2 i (by omega)⟩
  unfold doc_compare
  simp only [pages_total_eq]
  obtain ⟨st1, h1, h2, h3, h4⟩ := doc_loop_spec cfg tg P doc1 doc2 pdf_output
    (max doc1.length doc2.length) 0
    { pages_differ := 0,
      cr_out := if pdf_output.isSome = true then
          some { size := (doc1.get? 0).map P.page_get_size, pending := [], shown := [] }
        else none,
      differences := differences,
      stdout := if (doc1.length != doc2.length && cfg.g_verbose) = true then
          [Msg.pages_count_differs doc1.length doc2.length] else [],
      compared := [] } hv
  rw [h1]
  simp only [Nat.zero_add, List.nil_append] at h2 h3 h4
  exact ⟨_, rfl, rfl, rfl, h2, h3, h4⟩

end

/-! ## Claims about `doc_compare` -/

theorem count_true_map (D : Nat → Bool) (l : List Nat) :
    (l.map D).count true = (l.filter D).length := by
  induction l with
  | nil => rfl
  | cons a t ih =>
    cases h : D a <;> simp [List.filter_cons, h, ih]

section
variable {Page Sz : Type} (cfg : Config) (tg : Nat → Nat → Nat → Nat) (P : Poppler Page Sz)

/-- C2: in every configuration `doc_compare` returns, and it returns true
exactly when the two page counts are equal and `page_compare` reports "equal"
for every page index below `pages_total`; with different page counts it
returns false. -/
theorem doc_compare_same_iff (doc1 doc2 : List Page) (pdf_output : Option String)
    (differences : Option (List Bool)) :
    ∃ r, doc_compare cfg tg P doc1 doc2 pdf_output differences = some r ∧
      (r.same = true ↔
        doc1.length = doc2.length ∧
        ∀ i, i < max doc1.length doc2.length →
          page_verdict cfg tg P doc1 doc2 i = some true) ∧
      (doc1.length ≠ doc2.length → r.same = false) := by
  obtain ⟨r, hr, hsame, _, hcount, _, _⟩ :=
    doc_compare_spec cfg tg P doc1 doc2 pdf_output differences
  have hz := visited_count_zero (page_differs cfg tg P doc1 doc2)
    (early_exit cfg pdf_output differences) (max doc1.length doc2.length) 0
  rw [← hcount] at hz
  refine ⟨r, hr, ?_, ?_⟩
  · rw [hsame, Bool.and_eq_true, beq_iff_eq, beq_iff_eq, hz]
    constructor
    · rintro ⟨hall, hlen⟩
      refine ⟨hlen, fun i hi => ?_⟩
      exact (page_differs_false_iff cfg tg P doc1 doc2 i hi).1
        (hall i (Nat.zero_le _) (by omega))
    · rintro ⟨hlen, hall⟩
      refine ⟨fun i _ hi => ?_, hlen⟩
      exact (page_differs_false_iff cfg tg P doc1 doc2 i (by omega)).2 (hall i (by omega))
  · intro hne
    rw [hsame]
    have : (doc1.length == doc2.length) = false := beq_eq_false_iff_ne.2 hne
    rw [this, Bool.and_false]

/-- C9: early exit.  With verbose off, no output file and no differences
vector, if `k` is the first page index that `page_compare` reports as
different, then `doc_compare` calls `page_compare` on the indices `0..k`, in
order, and on no other. -/
theorem doc_compare_early_exit (doc1 doc2 : List Page) (k : Nat)
    (hverbose : cfg.g_verbose = false)
    (hk : k < max doc1.length doc2.length)
    (hd : page_verdict cfg tg P doc1 doc2 k = some false)
    (hfirst : ∀ i, i < k → page_verdict cfg tg P doc1 doc2 i = some true) :
    ∃ r, doc_compare cfg tg P doc1 doc2 none none = some r ∧
      r.compared = List.range (k + 1) := by
  obtain ⟨r, hr, _, _, _, hcmp, _⟩ := doc_compare_spec cfg tg P doc1 doc2 none none
  have hE : early_exit cfg none none = true := by
    simp [early_exit, hverbose]
  have hDk : page_differs cfg tg P doc1 doc2 k = true := by
    unfold page_differs
    rw [hd]
    rfl
  have hDi : ∀ i, 0 ≤ i → i < k → page_differs cfg tg P doc1 doc2 i = false :=
    fun i _ hi => (page_differs_false_iff cfg tg P doc1 doc2 i (by omega)).2 (hfirst i hi)
  refine ⟨r, hr, ?_⟩
  rw [hcmp, hE, visited_first _ _ 0 k (Nat.zero_le _) (by omega) hDk hDi, List.range_eq_range']
  rfl

/-- C10: given an empty differences vector, `doc_compare` returns with a
vector of exactly `pages_total = max pages1 pages2` entries, entry `i` being
true exactly when `page_compare` reported page `i` as different, and the
differing-page count is the number of true entries. -/
theorem doc_compare_differences (doc1 doc2 : List Page) (pdf_output : Option String) :
    ∃ r ds, doc_compare cfg tg P doc1 doc2 pdf_output (some []) = some r ∧
      r.differences = some ds ∧
      r.pages_total = max doc1.length doc2.length ∧
      ds.length = max doc1.length doc2.length ∧
      (∀ i, i < max doc1.length doc2.length →
        ∃ b, ds.get? i = some b ∧
          (b = true ↔ page_verdict cfg tg P doc1 doc2 i = some false)) ∧
      r.pages_differ = ds.count true := by
  obtain ⟨r, hr, _, htot, hcount, _, hdiff⟩ :=
    doc_compare_spec cfg tg P doc1 doc2 pdf_output (some [])
  have hE : early_exit cfg pdf_output (some ([] : List Bool)) = false := by
    simp [early_exit]
  have hvis : visited (page_differs cfg tg P doc1 doc2) false
      (max doc1.length doc2.length) 0 = List.range (max doc1.length doc2.length) := by
    rw [visited_all _ _ _ 0 (fun i _ _ => Bool.and_false _), List.range_eq_range']
  rw [hE, hvis] at hcount hdiff
  simp only [Option.map_some', List.nil_append] at hdiff
  refine ⟨r, _, hr, hdiff, htot, by simp, ?_, ?_⟩
  · intro i hi
    refine ⟨page_differs cfg tg P doc1 doc2 i, ?_, ?_⟩
    · rw [List.get?_eq_getElem?, List.getElem?_map, List.getElem?_range hi]
      rfl
    · unfold page_differs
      exact beq_iff_eq
  · rw [hcount, count_true_map]

end

section
variable {Page Sz : Type} (cfg : Config) (tg : Nat → Nat → Nat → Nat) (P : Poppler Page Sz)

theorem page_differs_of_absent (doc1 doc2 : List Page) (m : Nat)
    (hlen : (doc1.length = m + 1 ∧ doc2.length = m) ∨
      (doc1.length = m ∧ doc2.length = m + 1))
    (hextra : ∀ p, (doc1.get? m = some p ∨ doc2.get? m = some p) →
      (P.render_page cfg.g_resolution p).width ≠ 0 ∨
      (P.render_page cfg.g_resolution p).height ≠ 0) :
    page_differs cfg tg P doc1 doc2 m = true := by
  have hm : m < max doc1.length doc2.length := by omega
  unfold page_differs
  rw [page_verdict_eq cfg tg P doc1 doc2 m hm]
  cases hc : (diff_final cfg tg ((doc1.get? m).map (P.render_page cfg.g_resolution))
    ((doc2.get? m).map (P.render_page cfg.g_resolution))
    (P.thumbnail_width (doc1.get? m))).changes with
  | true => rfl
  | false =>
    exfalso
    obtain ⟨hw, hh, _⟩ := (changes_false_iff cfg tg _ _ _).1 hc
    rcases hlen with ⟨h1, h2⟩ | ⟨h1, h2⟩
    · have e2 : doc2.get? m = none := List.get?_eq_none.2 (by omega)
      have e1 : doc1.get? m = some (doc1.get ⟨m, by omega⟩) := List.get?_eq_get (by omega)
      have hx := hextra _ (Or.inl e1)
      rw [e1, e2] at hw hh
      simp only [Option.map_some', Option.map_none', buf_width, buf_height] at hw hh
      omega
    · have e1 : doc1.get? m = none := List.get?_eq_none.2 (by omega)
      have e2 : doc2.get? m = some (doc2.get ⟨m, by omega⟩) := List.get?_eq_get (by omega)
      have hx := hextra _ (Or.inr e2)
      rw [e1, e2] at hw hh
      simp only [Option.map_some', Option.map_none', buf_width, buf_height] at hw hh
      omega

/-- C8: page-count mismatch.  For documents of `m + 1` and `m` pages, in either
order, whose first `m` page pairs render to buffers that agree within the
tolerance and whose extra page renders to a buffer that is not 0x0,
`doc_compare` returns false in every configuration, its differing-page count
is exactly 1, and the one page recorded as different is index `m`. -/
theorem doc_compare_page_count_mismatch (doc1 doc2 : List Page)
    (pdf_output : Option String) (differences : Option (List Bool)) (m : Nat)
    (hlen : (doc1.length = m + 1 ∧ doc2.length = m) ∨
      (doc1.length = m ∧ doc2.length = m + 1))
    (hsame : ∀ i, i < m →
      within_tolerance cfg.g_channel_tolerance
        ((doc1.get? i).map (P.render_page cfg.g_resolution))
        ((doc2.get? i).map (P.render_page cfg.g_resolution)))
    (hextra : ∀ p, (doc1.get? m = some p ∨ doc2.get? m = some p) →
      (P.render_page cfg.g_resolution p).width ≠ 0 ∨
      (P.render_page cfg.g_resolution p).height ≠ 0) :
    ∃ r, doc_compare cfg tg P doc1 doc2 pdf_output differences = some r ∧
      r.same = false ∧ r.pages_differ = 1 ∧ r.pages_total = m + 1 ∧
      r.differences = differences.map (fun d => d ++ (List.replicate m false ++ [true])) := by
  obtain ⟨r, hr, hres, htot, hcount, _, hdiff⟩ :=
    doc_compare_spec cfg tg P doc1 doc2 pdf_output differences
  have hmax : max doc1.length doc2.length = m + 1 := by omega
  have hDm := page_differs_of_absent cfg tg P doc1 doc2 m hlen hextra
  have hDi : ∀ i, i < m → page_differs cfg tg P doc1 doc2 i = false := fun i hi =>
    (page_differs_false_iff cfg tg P doc1 doc2 i (by omega)).2
      ((page_verdict_true_iff cfg tg P doc1 doc2 i (by omega)).2 (hsame i hi))
  have hvis : visited (page_differs cfg tg P doc1 doc2)
      (early_exit cfg pdf_output differences) (m + 1) 0 = List.range (m + 1) := by
    rw [List.range_eq_range']
    cases early_exit cfg pdf_output differences with
    | true =>
      exact visited_first _ _ 0 m (Nat.zero_le _) (by omega) hDm (fun i _ hi => hDi i hi)
    | false =>
      exact visited_all _ _ _ 0 (fun i _ _ => Bool.and_false _)
  obtain ⟨hf, hmap⟩ := filter_prefix_last (page_differs cfg tg P doc1 doc2) m hDm hDi
  rw [hmax, hvis, hf] at hcount
  rw [hmax, hvis, hmap] at hdiff
  have hone : r.pages_differ = 1 := hcount
  refine ⟨r, hr, ?_, hone, by rw [htot, hmax], hdiff⟩
  rw [hres, hone]
  rfl

end

/-- Instance of C8: three pages against two, the shared pages identical. -/
theorem doc_compare_page_count_mismatch_witness :
    ∃ r, doc_compare ex_cfg ex_gray ex_poppler [ex_a, ex_b, ex_a] [ex_a, ex_b] none none
        = some r ∧
      r.same = false ∧ r.pages_differ = 1 ∧ r.pages_total = 2 + 1 ∧
      r.differences = (none : Option (List Bool)).map
        (fun d => d ++ (List.replicate 2 false ++ [true])) :=
  doc_compare_page_count_mismatch ex_cfg ex_gray ex_poppler [ex_a, ex_b, ex_a] [ex_a, ex_b]
    none none 2 (Or.inl ⟨rfl, rfl⟩)
    (by
      intro i hi
      have hi3 : i = 0 ∨ i = 1 := by omega
      rcases hi3 with rfl | rfl
      · exact (returns_null_iff ex_cfg ex_gray (some ex_a) (some ex_a) 0 0 (-1)
          (Or.inl (by decide))).1 ⟨{ diff := none, thumbnail := none }, by decide, rfl⟩
      · exact (returns_null_iff ex_cfg ex_gray (some ex_b) (some ex_b) 0 0 (-1)
          (Or.inl (by decide))).1 ⟨{ diff := none, thumbnail := none }, by decide, rfl⟩)
    (by
      intro p hp
      have hpa : p = ex_a := by
        rcases hp with h | h
        · exact (Option.some.inj h).symm
        · exact Option.noConfusion h
      rw [hpa]
      decide)

/-- Instance of C9: three pages each, the second pair differs, so pages 0 and
1 are compared and page 2 is not. -/
theorem doc_compare_early_exit_witness :
    ∃ r, doc_compare ex_cfg ex_gray ex_poppler [ex_a, ex_a, ex_a] [ex_a, ex_b, ex_a] none none
        = some r ∧
      r.compared = List.range (1 + 1) :=
  doc_compare_early_exit ex_cfg ex_gray ex_poppler [ex_a, ex_a, ex_a] [ex_a, ex_b, ex_a] 1
    rfl (by decide) (by decide)
    (by
      intro i hi
      have hi0 : i = 0 := by omega
      rw [hi0]
      decide)

/-! ## Symmetry, alignment and grayscale -/

theorem within_tolerance_symm (tol : Int) (s1 s2 : Option Surface)
    (h : within_tolerance tol s1 s2) : within_tolerance tol s2 s1 := by
  obtain ⟨hw, hh, hall⟩ := h
  refine ⟨hw.symm, hh.symm, ?_⟩
  intro x y c hx hy hc
  rw [abs_sub_comm]
  exact hall x y c (by omega) (by omega) hc

/-- C18: symmetry of the verdict.  With at least one buffer present,
`diff_images(s1, s2)` returns `NULL` exactly when `diff_images(s2, s1)` does,
for every tolerance and flag setting, whatever the offsets and thumbnail widths
of the two calls. -/
theorem diff_images_symm (cfg : Config) (tg : Nat → Nat → Nat → Nat)
    (s1 s2 : Option Surface) (ox oy tw ox1 oy1 tw1 : Int) (hs : s1 ≠ none ∨ s2 ≠ none) :
    returns_null (diff_images cfg tg s1 s2 ox oy tw) ↔
      returns_null (diff_images cfg tg s2 s1 ox1 oy1 tw1) := by
  rw [returns_null_iff cfg tg s1 s2 ox oy tw hs,
    returns_null_iff cfg tg s2 s1 ox1 oy1 tw1 (Or.symm hs)]
  exact ⟨within_tolerance_symm _ _ _, within_tolerance_symm _ _ _⟩

/-- Instance of C18 on `ex_a` and `ex_b`. -/
theorem diff_images_symm_witness :
    returns_null (diff_images ex_cfg ex_gray (some ex_a) (some ex_b) 0 0 (-1)) ↔
      returns_null (diff_images ex_cfg ex_gray (some ex_b) (some ex_a) 0 0 (-1)) :=
  diff_images_symm ex_cfg ex_gray (some ex_a) (some ex_b) 0 0 (-1) 0 0 (-1) (by decide)

theorem diff_of_returned (cfg : Config) (tg : Nat → Nat → Nat → Nat)
    (s1 s2 : Option Surface) (ox oy tw : Int) (r : DiffResult) (d : Surface)
    (hr : diff_images cfg tg s1 s2 ox oy tw = some r) (hd : r.diff = some d) :
    d = diff_surface cfg tg s1 s2 tw := by
  have hs : s1 ≠ none ∨ s2 ≠ none := by
    by_contra hn
    have e1 : s1 = none := by
      by_contra h
      exact hn (Or.inl h)
    have e2 : s2 = none := by
      by_contra h
      exact hn (Or.inr h)
    subst e1 e2
    exact Option.noConfusion hr
  rw [diff_images_eq cfg tg s1 s2 ox oy tw hs] at hr
  rw [← Option.some.inj hr] at hd
  cases hc : (diff_final cfg tg s1 s2 tw).changes with
  | false =>
    rw [hc] at hd
    exact Option.noConfusion hd
  | true =>
    rw [hc] at hd
    exact (Option.some.inj hd).symm

/-- Under a pixel of `s2` the canvas holds `under_at`. -/
theorem base_chan_under (s1 s2 : Option Surface) (x y c : Nat)
    (hx : x < buf_width s2) (hy : y < buf_height s2) (hc : c < 4) :
    (diff_base_surface s1 s2).chan x y c = under_at s1 x y c := by
  have hW : buf_width s2 ≤ max (buf_width s1) (buf_width s2) := Nat.le_max_right _ _
  have hH : buf_height s2 ≤ max (buf_height s1) (buf_height s2) := Nat.le_max_right _ _
  rw [base_chan_eq s1 s2 x y c (by omega) (by omega) hc]
  unfold under_at
  by_cases hin : x < buf_width s1 ∧ y < buf_height s1
  · rw [if_pos hin, if_pos hin]
  · rw [if_neg hin, if_neg hin, if_pos]
    rw [diff_mismatch_iff]
    omega

/-- Outside `s2` and outside `s1` the canvas is white whenever there is such a
position at all. -/
theorem base_chan_white (s1 s2 : Option Surface) (x y c : Nat)
    (hx : x < max (buf_width s1) (buf_width s2))
    (hy : y < max (buf_height s1) (buf_height s2)) (hc : c < 4)
    (h1 : ¬ (x < buf_width s1 ∧ y < buf_height s1))
    (h2 : ¬ (x < buf_width s2 ∧ y < buf_height s2)) :
    (diff_base_surface s1 s2).chan x y c = 255 := by
  rw [base_chan_eq s1 s2 x y c hx hy hc, if_neg h1, if_pos]
  rw [diff_mismatch_iff]
  omega

/-- C14: region alignment.  A composite returned by `diff_images` has width
`max wA wB` and height `max hA hB` (an absent buffer counting as 0x0); both
inputs sit at offset (0, 0): a pixel of `s1` not covered by `s2` appears
unchanged at its own coordinates, a pixel of `s2` is composited (or marked) at
its own coordinates over the pixel of `s1` or the white background there, and
every composite pixel outside both rectangles is white (255, 255, 255). -/
theorem diff_images_alignment (cfg : Config) (tg : Nat → Nat → Nat → Nat)
    (s1 s2 : Option Surface) (offset_x offset_y thumbnail_width : Int)
    (r : DiffResult) (d : Surface)
    (hr : diff_images cfg tg s1 s2 offset_x offset_y thumbnail_width = some r)
    (hd : r.diff = some d) :
    d.width = max (buf_width s1) (buf_width s2) ∧
    d.height = max (buf_height s1) (buf_height s2) ∧
    (∀ x y c, x < buf_width s1 → y < buf_height s1 →
      ¬ (x < buf_width s2 ∧ y < buf_height s2) → c < 4 →
      d.chan x y c = buf_chan s1 x y c) ∧
    (∀ x y c, x < buf_width s2 → y < buf_height s2 → c < 3 →
      d.chan x y c =
        if cfg.g_mark_differences = true ∧ line_flagged cfg s1 s2 y = true ∧
            x < min 10 (buf_width s2) then mark_byte c
        else composite_byte cfg tg c (under_at s1 x y 0) (under_at s1 x y 1) (under_at s1 x y 2)
          (buf_chan s2 x y 0) (buf_chan s2 x y 1) (buf_chan s2 x y 2)) ∧
    (∀ x y c, x < max (buf_width s1) (buf_width s2) →
      y < max (buf_height s1) (buf_height s2) →
      ¬ (x < buf_width s1 ∧ y < buf_height s1) →
      ¬ (x < buf_width s2 ∧ y < buf_height s2) → c < 3 →
      d.chan x y c = 255) := by
  have hW : buf_width s1 ≤ max (buf_width s1) (buf_width s2) := Nat.le_max_left _ _
  have hH : buf_height s1 ≤ max (buf_height s1) (buf_height s2) := Nat.le_max_left _ _
  rw [diff_of_returned cfg tg s1 s2 offset_x offset_y thumbnail_width r d hr hd]
  refine ⟨diff_surface_width cfg tg s1 s2 _, diff_surface_height cfg tg s1 s2 _, ?_, ?_, ?_⟩
  · intro x y c hx hy hout hc
    rw [diff_surface_chan_outside cfg tg s1 s2 thumbnail_width x y c (by omega) hc
      (fun h => hout ⟨h.1, h.2.1⟩),
      base_chan_eq s1 s2 x y c (by omega) (by omega) hc, if_pos ⟨hx, hy⟩]
  · intro x y c hx hy hc
    rw [diff_surface_chan_inside cfg tg s1 s2 thumbnail_width x y c hx hy hc]
    unfold composite_at
    rw [base_chan_under s1 s2 x y 0 hx hy (by omega),
      base_chan_under s1 s2 x y 1 hx hy (by omega),
      base_chan_under s1 s2 x y 2 hx hy (by omega)]
  · intro x y c hx hy h1 h2 hc
    rw [diff_surface_chan_outside cfg tg s1 s2 thumbnail_width x y c hx (by omega)
      (fun h => h2 ⟨h.1, h.2.1⟩),
      base_chan_white s1 s2 x y c hx hy (by omega) h1 h2]

/-- C15: grayscale compositing.  With grayscale on and marking off, in a
returned composite every pixel covered by `s2` is
`(lum b, (lum a + lum b) / 2, lum a)`, where `b` is the pixel of `s2`, `a` the
pixel previously in the composite (`s1`'s, or white where `s1` does not reach)
and `lum` is `to_grayscale` cast to a byte; where `a` and `b` agree in all
three bytes the three bytes of the composite pixel are equal. -/
theorem diff_images_grayscale (cfg : Config) (tg : Nat → Nat → Nat → Nat)
    (s1 s2 : Option Surface) (offset_x offset_y thumbnail_width : Int)
    (r : DiffResult) (d : Surface)
    (hg : cfg.g_grayscale = true) (hm : cfg.g_mark_differences = false)
    (hr : diff_images cfg tg s1 s2 offset_x offset_y thumbnail_width = some r)
    (hd : r.diff = some d) :
    ∀ x y, x < buf_width s2 → y < buf_height s2 →
      d.chan x y 0 =
        tg (buf_chan s2 x y 0) (buf_chan s2 x y 1) (buf_chan s2 x y 2) % 256 ∧
      d.chan x y 1 =
        (tg (under_at s1 x y 0) (under_at s1 x y 1) (under_at s1 x y 2) % 256 +
          tg (buf_chan s2 x y 0) (buf_chan s2 x y 1) (buf_chan s2 x y 2) % 256) / 2 ∧
      d.chan x y 2 =
        tg (under_at s1 x y 0) (under_at s1 x y 1) (under_at s1 x y 2) % 256 ∧
      ((∀ c, c < 3 → under_at s1 x y c = buf_chan s2 x y c) →
        d.chan x y 0 = d.chan x y 1 ∧ d.chan x y 1 = d.chan x y 2) := by
  intro x y hx hy
  rw [diff_of_returned cfg tg s1 s2 offset_x offset_y thumbnail_width r d hr hd]
  have hin : ∀ c, c < 3 →
      (diff_surface cfg tg s1 s2 thumbnail_width).chan x y c =
        composite_byte cfg tg c (under_at s1 x y 0) (under_at s1 x y 1) (under_at s1 x y 2)
          (buf_chan s2 x y 0) (buf_chan s2 x y 1) (buf_chan s2 x y 2) := by
    intro c hc
    rw [diff_surface_chan_inside cfg tg s1 s2 thumbnail_width x y c hx hy hc, if_neg]
    · unfold composite_at
      rw [base_chan_under s1 s2 x y 0 hx hy (by omega),
        base_chan_under s1 s2 x y 1 hx hy (by omega),
        base_chan_under s1 s2 x y 2 hx hy (by omega)]
    · rintro ⟨h, _⟩
      rw [hm] at h
      exact Bool.noConfusion h
  have e0 := hin 0 (by omega)
  have e1 := hin 1 (by omega)
  have e2 := hin 2 (by omega)
  simp only [composite_byte, hg, if_true] at e0 e1 e2
  refine ⟨e0, e1, e2, ?_⟩
  intro hab
  rw [e0, e1, e2, hab 0 (by omega), hab 1 (by omega), hab 2 (by omega)]
  constructor <;> omega

/-- Instance of C14: the 1x1 buffer `ex_c` against the 2x1 buffer `ex_a`. -/
theorem diff_images_alignment_witness :
    ex_d_align.width = max (buf_width (some ex_c)) (buf_width (some ex_a)) ∧
    ex_d_align.height = max (buf_height (some ex_c)) (buf_height (some ex_a)) ∧
    (∀ x y c, x < buf_width (some ex_c) → y < buf_height (some ex_c) →
      ¬ (x < buf_width (some ex_a) ∧ y < buf_height (some ex_a)) → c < 4 →
      ex_d_align.chan x y c = buf_chan (some ex_c) x y c) ∧
    (∀ x y c, x < buf_width (some ex_a) → y < buf_height (some ex_a) → c < 3 →
      ex_d_align.chan x y c =
        if ex_cfg.g_mark_differences = true ∧
            line_flagged ex_cfg (some ex_c) (some ex_a) y = true ∧
            x < min 10 (buf_width (some ex_a)) then mark_byte c
        else composite_byte ex_cfg ex_gray c (under_at (some ex_c) x y 0)
          (under_at (some ex_c) x y 1) (under_at (some ex_c) x y 2)
          (buf_chan (some ex_a) x y 0) (buf_chan (some ex_a) x y 1)
          (buf_chan (some ex_a) x y 2)) ∧
    (∀ x y c, x < max (buf_width (some ex_c)) (buf_width (some ex_a)) →
      y < max (buf_height (some ex_c)) (buf_height (some ex_a)) →
      ¬ (x < buf_width (some ex_c) ∧ y < buf_height (some ex_c)) →
      ¬ (x < buf_width (some ex_a) ∧ y < buf_height (some ex_a)) → c < 3 →
      ex_d_align.chan x y c = 255) :=
  diff_images_alignment ex_cfg ex_gray (some ex_c) (some ex_a) 0 0 (-1)
    { diff := some ex_d_align, thumbnail := none } ex_d_align (by decide) rfl

/-- Instance of C15: pixel (1, 0) of `ex_a` against `ex_b` with grayscale on. -/
theorem diff_images_grayscale_witness :
    ex_d_gray.chan 1 0 0 =
      ex_gray (buf_chan (some ex_b) 1 0 0) (buf_chan (some ex_b) 1 0 1)
        (buf_chan (some ex_b) 1 0 2) % 256 ∧
    ex_d_gray.chan 1 0 1 =
      (ex_gray (under_at (some ex_a) 1 0 0) (under_at (some ex_a) 1 0 1)
          (under_at (some ex_a) 1 0 2) % 256 +
        ex_gray (buf_chan (some ex_b) 1 0 0) (buf_chan (some ex_b) 1 0 1)
          (buf_chan (some ex_b) 1 0 2) % 256) / 2 ∧
    ex_d_gray.chan 1 0 2 =
      ex_gray (under_at (some ex_a) 1 0 0) (under_at (some ex_a) 1 0 1)
        (under_at (some ex_a) 1 0 2) % 256 ∧
    ((∀ c, c < 3 → under_at (some ex_a) 1 0 c = buf_chan (some ex_b) 1 0 c) →
      ex_d_gray.chan 1 0 0 = ex_d_gray.chan 1 0 1 ∧
      ex_d_gray.chan 1 0 1 = ex_d_gray.chan 1 0 2) :=
  diff_images_grayscale ex_cfg_gray ex_gray (some ex_a) (some ex_b) 0 0 (-1)
    { diff := some ex_d_gray, thumbnail := none } ex_d_gray rfl rfl (by decide) rfl
    1 0 (by decide) (by decide)

/-! ## The offset parameters -/

theorem diff_images_offset_irrelevant (cfg : Config) (tg : Nat → Nat → Nat → Nat)
    (s1 s2 : Option Surface) (offset_x offset_y thumbnail_width : Int) :
    diff_images cfg tg s1 s2 offset_x offset_y thumbnail_width
      = diff_images cfg tg s1 s2 0 0 thumbnail_width :=
  rfl

/-- C20, the code at the failing input: with `offset_x = 1` the single pixel
of `ex_c` is still compared with and composited at pixel (0, 0) of the canvas
(byte 2 of pixel 0 becomes 9), pixel (1, 0) is left as `ex_a` has it, and the
result is the one obtained with offset (0, 0). -/
theorem diff_images_offset_unused :
    diff_images ex_cfg ex_gray (some ex_a) (some ex_c) 1 0 (-1)
        = some { diff := some { width := 2, height := 1, stride := 8,
                                data := [1, 2, 9, 0, 4, 5, 6, 0] },
                 thumbnail := none } ∧
    diff_images ex_cfg ex_gray (some ex_a) (some ex_c) 1 0 (-1)
        = diff_images ex_cfg ex_gray (some ex_a) (some ex_c) 0 0 (-1) := by
  constructor
  · decide
  · rfl

/-! ## Early exit and the verdict -/

section
variable {Page Sz : Type} (tg : Nat → Nat → Nat → Nat) (P : Poppler Page Sz)

/-- The verbose flag plays no part in `page_compare`. -/
theorem page_verdict_verbose (cfg : Config) (v : Bool) (doc1 doc2 : List Page) (i : Nat) :
    page_verdict { cfg with g_verbose := v } tg P doc1 doc2 i
      = page_verdict cfg tg P doc1 doc2 i :=
  rfl

/-- C17: early exit preserves the verdict.  Whenever `page_compare` gives the
same verdict for every page pair under the settings of two runs, the flag
returned by `doc_compare` without output file and differences vector (the
early-exit run when verbose is off) equals the flag it returns with any output
file and differences vector (any full-scan run); both runs return. -/
theorem doc_compare_verdict_mode (cfg1 cfg2 : Config) (doc1 doc2 : List Page)
    (pdf_output : Option String) (differences : Option (List Bool))
    (hsame : ∀ i, i < max doc1.length doc2.length →
      page_verdict cfg1 tg P doc1 doc2 i = page_verdict cfg2 tg P doc1 doc2 i) :
    ∃ r1 r2, doc_compare cfg1 tg P doc1 doc2 none none = some r1 ∧
      doc_compare cfg2 tg P doc1 doc2 pdf_output differences = some r2 ∧
      r1.same = r2.same := by
  obtain ⟨r1, h1, hs1, _, hc1, _, _⟩ := doc_compare_spec cfg1 tg P doc1 doc2 none none
  obtain ⟨r2, h2, hs2, _, hc2, _, _⟩ :=
    doc_compare_spec cfg2 tg P doc1 doc2 pdf_output differences
  have hz1 := visited_count_zero (page_differs cfg1 tg P doc1 doc2)
    (early_exit cfg1 none none) (max doc1.length doc2.length) 0
  have hz2 := visited_count_zero (page_differs cfg2 tg P doc1 doc2)
    (early_exit cfg2 pdf_output differences) (max doc1.length doc2.length) 0
  rw [← hc1] at hz1
  rw [← hc2] at hz2
  have hD : ∀ i, i < max doc1.length doc2.length →
      page_differs cfg1 tg P doc1 doc2 i = page_differs cfg2 tg P doc1 doc2 i := by
    intro i hi
    unfold page_differs
    rw [hsame i hi]
  have hiff : r1.pages_differ = 0 ↔ r2.pages_differ = 0 := by
    rw [hz1, hz2]
    constructor
    · intro h i h0 hi
      rw [← hD i (by omega)]
      exact h i h0 hi
    · intro h i h0 hi
      rw [hD i (by omega)]
      exact h i h0 hi
  refine ⟨r1, r2, h1, h2, ?_⟩
  rw [hs1, hs2]
  by_cases hz : r1.pages_differ = 0
  · rw [hz, hiff.1 hz]
  · have hz' : ¬ r2.pages_differ = 0 := fun h => hz (hiff.2 h)
    have e1 : (r1.pages_differ == 0) = false := beq_eq_false_iff_ne.2 hz
    have e2 : (r2.pages_differ == 0) = false := beq_eq_false_iff_ne.2 hz'
    rw [e1, e2]

end

/-- Instance of C17: the early-exit run against the verbose run with a
differences vector, on documents whose second page pair differs. -/
theorem doc_compare_verdict_mode_witness :
    ∃ r1 r2, doc_compare ex_cfg ex_gray ex_poppler [ex_a, ex_a, ex_a] [ex_a, ex_b, ex_a]
        none none = some r1 ∧
      doc_compare ex_cfg_verbose ex_gray ex_poppler [ex_a, ex_a, ex_a] [ex_a, ex_b, ex_a]
        none (some []) = some r2 ∧
      r1.same = r2.same :=
  doc_compare_verdict_mode ex_gray ex_poppler ex_cfg ex_cfg_verbose [ex_a, ex_a, ex_a]
    [ex_a, ex_b, ex_a] none (some [])
    (fun i _ => page_verdict_verbose ex_gray ex_poppler ex_cfg_verbose false
      [ex_a, ex_a, ex_a] [ex_a, ex_b, ex_a] i)

/-! ## The option loop of `main` -/

theorem parse_arg_go (abs : List Char → Option (List Char)) (arg : List Char)
    (cfg cfg1 : Config) (pdf pdf1 : List Char)
    (h : parse_arg abs arg cfg pdf = some (Parsed.go cfg1 pdf1)) :
    (config_in_range cfg → config_in_range cfg1) ∧
    (¬ "--channel-tolerance=".data <+: arg →
      cfg1.g_channel_tolerance = cfg.g_channel_tolerance) ∧
    (¬ "--dpi=".data <+: arg → cfg1.g_resolution = cfg.g_resolution) := by
  unfold parse_arg at h
  unfold config_in_range
  by_cases h1 : arg = "-h".data ∨ arg = "--help".data
  · rw [if_pos h1] at h
    exact Parsed.noConfusion (Option.some.inj h)
  rw [if_neg h1] at h
  by_cases h2 : arg = "-v".data ∨ arg = "--verbose".data
  · rw [if_pos h2] at h
    obtain ⟨rfl, _⟩ := Parsed.go.inj (Option.some.inj h)
    exact ⟨id, fun _ => rfl, fun _ => rfl⟩
  rw [if_neg h2] at h
  by_cases h3 : arg = "-s".data ∨ arg = "--skip-identical".data
  · rw [if_pos h3] at h
    obtain ⟨rfl, _⟩ := Parsed.go.inj (Option.some.inj h)
    exact ⟨id, fun _ => rfl, fun _ => rfl⟩
  rw [if_neg h3] at h
  by_cases h4 : arg = "-m".data ∨ arg = "--mark-differences".data
  · rw [if_pos h4] at h
    obtain ⟨rfl, _⟩ := Parsed.go.inj (Option.some.inj h)
    exact ⟨id, fun _ => rfl, fun _ => rfl⟩
  rw [if_neg h4] at h
  by_cases h5 : arg = "-g".data ∨ arg = "--grayscale".data
  · rw [if_pos h5] at h
    obtain ⟨rfl, _⟩ := Parsed.go.inj (Option.some.inj h)
    exact ⟨id, fun _ => rfl, fun _ => rfl⟩
  rw [if_neg h5] at h
  by_cases h6 : arg.length > 14 ∧ "--output-diff=".data <+: arg
  · rw [if_pos h6] at h
    cases ha : abs (List.drop 14 arg) with
    | none =>
      rw [ha] at h
      exact Option.noConfusion h
    | some p =>
      rw [ha] at h
      obtain ⟨rfl, _⟩ := Parsed.go.inj (Option.some.inj h)
      exact ⟨id, fun _ => rfl, fun _ => rfl⟩
  rw [if_neg h6] at h
  by_cases h7 : arg.length > 20 ∧ "--channel-tolerance=".data <+: arg
  · rw [if_pos h7] at h
    by_cases h8 : atol (List.drop 20 arg) < 0 ∨ atol (List.drop 20 arg) > 255
    · rw [if_pos h8] at h
      exact Parsed.noConfusion (Option.some.inj h)
    · rw [if_neg h8] at h
      obtain ⟨rfl, _⟩ := Parsed.go.inj (Option.some.inj h)
      refine ⟨?_, fun hn => absurd h7.2 hn, fun _ => rfl⟩
      rintro ⟨_, _, c, d⟩
      rw [not_or, not_lt, not_lt] at h8
      exact ⟨h8.1, h8.2, c, d⟩
  rw [if_neg h7] at h
  by_cases h9 : arg.length > 6 ∧ "--dpi=".data <+: arg
  · rw [if_pos h9] at h
    by_cases h10 : atol (List.drop 6 arg) < 1 ∨ atol (List.drop 6 arg) > 2400
    · rw [if_pos h10] at h
      exact Parsed.noConfusion (Option.some.inj h)
    · rw [if_neg h10] at h
      obtain ⟨rfl, _⟩ := Parsed.go.inj (Option.some.inj h)
      refine ⟨?_, fun _ => rfl, fun hn => absurd h9.2 hn⟩
      rintro ⟨a, b, _, _⟩
      rw [not_or, not_lt, not_lt] at h10
      exact ⟨a, b, h10.1, h10.2⟩
  rw [if_neg h9] at h
  obtain ⟨rfl, _⟩ := Parsed.go.inj (Option.some.inj h)
  exact ⟨id, fun _ => rfl, fun _ => rfl⟩

theorem parse_options_go (abs : List Char → Option (List Char)) (args : List (List Char)) :
    ∀ (cfg cfg1 : Config) (pdf pdf1 : List Char),
      parse_options abs args cfg pdf = some (Parsed.go cfg1 pdf1) →
      (config_in_range cfg → config_in_range cfg1) ∧
      ((∀ a, a ∈ args → ¬ "--channel-tolerance=".data <+: a) →
        cfg1.g_channel_tolerance = cfg.g_channel_tolerance) ∧
      ((∀ a, a ∈ args → ¬ "--dpi=".data <+: a) → cfg1.g_resolution = cfg.g_resolution) := by
  induction args with
  | nil =>
    intro cfg cfg1 pdf pdf1 h
    obtain ⟨rfl, _⟩ := Parsed.go.inj (Option.some.inj h)
    exact ⟨id, fun _ => rfl, fun _ => rfl⟩
  | cons a rest ih =>
    intro cfg cfg1 pdf pdf1 h
    rw [parse_options] at h
    cases ha : parse_arg abs a cfg pdf with
    | none =>
      rw [ha] at h
      exact Option.noConfusion h
    | some p =>
      rw [ha] at h
      cases p with
      | stop code c m => exact Parsed.noConfusion (Option.some.inj h)
      | go c2 p2 =>
        obtain ⟨g1, g2, g3⟩ := parse_arg_go abs a cfg c2 pdf p2 ha
        obtain ⟨i1, i2, i3⟩ := ih c2 cfg1 p2 pdf1 h
        refine ⟨fun hr => i1 (g1 hr), ?_, ?_⟩
        · intro hn
          rw [i2 (fun b hb => hn b (List.mem_cons_of_mem _ hb)),
            g2 (hn a (List.mem_cons_self _ _))]
        · intro hn
          rw [i3 (fun b hb => hn b (List.mem_cons_of_mem _ hb)),
            g3 (hn a (List.mem_cons_self _ _))]

theorem default_config_in_range : config_in_range default_config := by
  unfold config_in_range default_config
  decide

section
variable {Page Sz : Type} (tg : Nat → Nat → Nat → Nat) (P : Poppler Page Sz) (os : Os Page)

/-- Either `main` opened nothing, or the option loop ran to its end and the
settings at exit are the ones it produced. -/
theorem main_opened (argv : List (List Char)) (hop : (main tg P os argv).opened ≠ []) :
    ∃ pdf, parse_options os.absolute (option_args argv) default_config []
      = some (Parsed.go (main tg P os argv).globals pdf) := by
  unfold main at hop ⊢
  unfold option_args
  simp only [] at hop ⊢
  split_ifs at hop ⊢ with hargc
  · exact absurd rfl hop
  · split at hop
    · rename_i file1 file2 _ _
      split at hop
      · exact absurd rfl hop
      · exact absurd rfl hop
      · rename_i cfg pdf hparse
        simp only [hparse]
        refine ⟨pdf, ?_⟩
        congr 2
        cases os.open_document file1 with
        | none => rfl
        | some doc1 =>
          cases os.open_document file2 with
          | none => rfl
          | some doc2 =>
            simp only []
            cases doc_compare cfg tg P doc1 doc2
              (if pdf.isEmpty = true then none else some (String.mk pdf)) none <;> rfl
    · exact absurd rfl hop

/-- C13: configuration range invariant.  If `main` gets as far as opening a
document (its option loop finished without returning), the settings with which
it exits have the channel tolerance in 0..255 and the resolution in 1..2400;
the tolerance is the default 0 when no argument of the loop starts with
`--channel-tolerance=` and the resolution the default 300 when none starts
with `--dpi=`. -/
theorem main_config_range (argv : List (List Char))
    (hop : (main tg P os argv).opened ≠ []) :
    0 ≤ (main tg P os argv).globals.g_channel_tolerance ∧
    (main tg P os argv).globals.g_channel_tolerance ≤ 255 ∧
    1 ≤ (main tg P os argv).globals.g_resolution ∧
    (main tg P os argv).globals.g_resolution ≤ 2400 ∧
    ((∀ a, a ∈ option_args argv → ¬ "--channel-tolerance=".data <+: a) →
      (main tg P os argv).globals.g_channel_tolerance = 0) ∧
    ((∀ a, a ∈ option_args argv → ¬ "--dpi=".data <+: a) →
      (main tg P os argv).globals.g_resolution = 300) := by
  obtain ⟨pdf, hp⟩ := main_opened tg P os argv hop
  obtain ⟨h1, h2, h3⟩ := parse_options_go os.absolute (option_args argv) default_config
    (main tg P os argv).globals [] pdf hp
  obtain ⟨a, b, c, d⟩ := h1 default_config_in_range
  exact ⟨a, b, c, d, h2, h3⟩

end

/-- Instance of C13: `--dpi=150` is accepted and both documents are opened. -/
theorem main_config_range_witness :
    0 ≤ (main ex_gray ex_poppler ex_os ex_argv_ok).globals.g_channel_tolerance ∧
    (main ex_gray ex_poppler ex_os ex_argv_ok).globals.g_channel_tolerance ≤ 255 ∧
    1 ≤ (main ex_gray ex_poppler ex_os ex_argv_ok).globals.g_resolution ∧
    (main ex_gray ex_poppler ex_os ex_argv_ok).globals.g_resolution ≤ 2400 ∧
    ((∀ a, a ∈ option_args ex_argv_ok → ¬ "--channel-tolerance=".data <+: a) →
      (main ex_gray ex_poppler ex_os ex_argv_ok).globals.g_channel_tolerance = 0) ∧
    ((∀ a, a ∈ option_args ex_argv_ok → ¬ "--dpi=".data <+: a) →
      (main ex_gray ex_poppler ex_os ex_argv_ok).globals.g_resolution = 300) :=
  main_config_range ex_gray ex_poppler ex_os ex_argv_ok (by decide)

/-! ## Rejected options -/

theorem prefix_get? (p l : List Char) (i : Nat) (h : p <+: l) (hi : i < p.length) :
    l.get? i = p.get? i := by
  obtain ⟨t, rfl⟩ := h
  rw [List.get?_eq_getElem?, List.get?_eq_getElem?, List.getElem?_append_left hi]

/-- An argument whose third character is `d` or `c` reaches the tests for the
two numeric options. -/
theorem parse_arg_numeric (abs : List Char → Option (List Char)) (arg : List Char)
    (cfg : Config) (pdf : List Char)
    (h3 : arg.get? 2 = some 'd' ∨ arg.get? 2 = some 'c') :
    parse_arg abs arg cfg pdf =
      if arg.length > 20 ∧ "--channel-tolerance=".data <+: arg then
        if atol (arg.drop 20) < 0 ∨ atol (arg.drop 20) > 255 then
          some (Parsed.stop 2 { cfg with g_channel_tolerance := atol (arg.drop 20) }
            [MainMsg.invalid_channel_tolerance (atol (arg.drop 20))])
        else some (Parsed.go { cfg with g_channel_tolerance := atol (arg.drop 20) } pdf)
      else if arg.length > 6 ∧ "--dpi=".data <+: arg then
        if atol (arg.drop 6) < 1 ∨ atol (arg.drop 6) > 2400 then
          some (Parsed.stop 2 { cfg with g_resolution := atol (arg.drop 6) }
            [MainMsg.invalid_dpi (atol (arg.drop 6))])
        else some (Parsed.go { cfg with g_resolution := atol (arg.drop 6) } pdf)
      else some (Parsed.go cfg pdf) := by
  have hne : ∀ lit : List Char, lit.get? 2 ≠ some 'd' → lit.get? 2 ≠ some 'c' → arg ≠ lit := by
    intro lit hd hc he
    rw [he] at h3
    rcases h3 with h | h
    · exact hd h
    · exact hc h
  have h1 : ¬ (arg = "-h".data ∨ arg = "--help".data) := by
    rintro (h | h)
    · exact hne _ (by decide) (by decide) h
    · exact hne _ (by decide) (by decide) h
  have h2 : ¬ (arg = "-v".data ∨ arg = "--verbose".data) := by
    rintro (h | h)
    · exact hne _ (by decide) (by decide) h
    · exact hne _ (by decide) (by decide) h
  have h3' : ¬ (arg = "-s".data ∨ arg = "--skip-identical".data) := by
    rintro (h | h)
    · exact hne _ (by decide) (by decide) h
    · exact hne _ (by decide) (by decide) h
  have h4 : ¬ (arg = "-m".data ∨ arg = "--mark-differences".data) := by
    rintro (h | h)
    · exact hne _ (by decide) (by decide) h
    · exact hne _ (by decide) (by decide) h
  have h5 : ¬ (arg = "-g".data ∨ arg = "--grayscale".data) := by
    rintro (h | h)
    · exact hne _ (by decide) (by decide) h
    · exact hne _ (by decide) (by decide) h
  have h6 : ¬ (arg.length > 14 ∧ "--output-diff=".data <+: arg) := by
    rintro ⟨_, hp⟩
    have := prefix_get? _ _ 2 hp (by decide)
    rcases h3 with h | h
    · rw [h] at this
      exact absurd this (by decide)
    · rw [h] at this
      exact absurd this (by decide)
  unfold parse_arg
  rw [if_neg h1, if_neg h2, if_neg h3', if_neg h4, if_neg h5, if_neg h6]

theorem parse_arg_bad (abs : List Char → Option (List Char)) (arg : List Char)
    (cfg : Config) (pdf : List Char) (hbad : bad_dpi arg ∨ bad_tolerance arg) :
    ∃ cfg1 printed, parse_arg abs arg cfg pdf = some (Parsed.stop 2 cfg1 printed) := by
  rcases hbad with ⟨hl, hp, hv⟩ | ⟨hl, hp, hv⟩
  · have h3 : arg.get? 2 = some 'd' := by
      rw [prefix_get? _ _ 2 hp (by decide)]
      rfl
    have hnt : ¬ (arg.length > 20 ∧ "--channel-tolerance=".data <+: arg) := by
      rintro ⟨_, hq⟩
      have := prefix_get? _ _ 2 hq (by decide)
      rw [h3] at this
      exact absurd this (by decide)
    rw [parse_arg_numeric abs arg cfg pdf (Or.inl h3), if_neg hnt, if_pos ⟨hl, hp⟩, if_pos hv]
    exact ⟨_, _, rfl⟩
  · have h3 : arg.get? 2 = some 'c' := by
      rw [prefix_get? _ _ 2 hp (by decide)]
      rfl
    rw [parse_arg_numeric abs arg cfg pdf (Or.inr h3), if_pos ⟨hl, hp⟩, if_pos hv]
    exact ⟨_, _, rfl⟩

theorem parse_arg_no_help (abs : List Char → Option (List Char)) (arg : List Char)
    (cfg : Config) (pdf : List Char)
    (habs : ∀ p, p ≠ [] → ∃ q, abs p = some q)
    (hh : arg ≠ "-h".data ∧ arg ≠ "--help".data) :
    (∃ cfg1 printed, parse_arg abs arg cfg pdf = some (Parsed.stop 2 cfg1 printed)) ∨
    (∃ cfg1 pdf1, parse_arg abs arg cfg pdf = some (Parsed.go cfg1 pdf1)) := by
  unfold parse_arg
  have h1 : ¬ (arg = "-h".data ∨ arg = "--help".data) := by
    rintro (h | h)
    · exact hh.1 h
    · exact hh.2 h
  rw [if_neg h1]
  by_cases h2 : arg = "-v".data ∨ arg = "--verbose".data
  · rw [if_pos h2]
    exact Or.inr ⟨_, _, rfl⟩
  rw [if_neg h2]
  by_cases h3 : arg = "-s".data ∨ arg = "--skip-identical".data
  · rw [if_pos h3]
    exact Or.inr ⟨_, _, rfl⟩
  rw [if_neg h3]
  by_cases h4 : arg = "-m".data ∨ arg = "--mark-differences".data
  · rw [if_pos h4]
    exact Or.inr ⟨_, _, rfl⟩
  rw [if_neg h4]
  by_cases h5 : arg = "-g".data ∨ arg = "--grayscale".data
  · rw [if_pos h5]
    exact Or.inr ⟨_, _, rfl⟩
  rw [if_neg h5]
  by_cases h6 : arg.length > 14 ∧ "--output-diff=".data <+: arg
  · rw [if_pos h6]
    have hne : List.drop 14 arg ≠ [] := by
      intro he
      have := congrArg List.length he
      rw [List.length_drop, List.length_nil] at this
      omega
    obtain ⟨q, hq⟩ := habs _ hne
    rw [hq]
    exact Or.inr ⟨_, _, rfl⟩
  rw [if_neg h6]
  by_cases h7 : arg.length > 20 ∧ "--channel-tolerance=".data <+: arg
  · rw [if_pos h7]
    by_cases h8 : atol (List.drop 20 arg) < 0 ∨ atol (List.drop 20 arg) > 255
    · rw [if_pos h8]
      exact Or.inl ⟨_, _, rfl⟩
    · rw [if_neg h8]
      exact Or.inr ⟨_, _, rfl⟩
  rw [if_neg h7]
  by_cases h9 : arg.length > 6 ∧ "--dpi=".data <+: arg
  · rw [if_pos h9]
    by_cases h10 : atol (List.drop 6 arg) < 1 ∨ atol (List.drop 6 arg) > 2400
    · rw [if_pos h10]
      exact Or.inl ⟨_, _, rfl⟩
    · rw [if_neg h10]
      exact Or.inr ⟨_, _, rfl⟩
  rw [if_neg h9]
  exact Or.inr ⟨_, _, rfl⟩

theorem parse_options_bad (abs : List Char → Option (List Char))
    (habs : ∀ p, p ≠ [] → ∃ q, abs p = some q)
    (arg : List Char) (post : List (List Char)) (hbad : bad_dpi arg ∨ bad_tolerance arg)
    (pre : List (List Char)) :
    ∀ (cfg : Config) (pdf : List Char),
      (∀ a, a ∈ pre → a ≠ "-h".data ∧ a ≠ "--help".data) →
      ∃ cfg1 printed,
        parse_options abs (pre ++ arg :: post) cfg pdf = some (Parsed.stop 2 cfg1 printed) := by
  induction pre with
  | nil =>
    intro cfg pdf _
    obtain ⟨c, m, h⟩ := parse_arg_bad abs arg cfg pdf hbad
    rw [List.nil_append, parse_options, h]
    exact ⟨c, m, rfl⟩
  | cons a rest ih =>
    intro cfg pdf hpre
    rw [List.cons_append, parse_options]
    rcases parse_arg_no_help abs a cfg pdf habs (hpre a (List.mem_cons_self _ _)) with
      ⟨c, m, h⟩ | ⟨c, p, h⟩
    · rw [h]
      exact ⟨c, m, rfl⟩
    · rw [h]
      exact ih c p (fun b hb => hpre b (List.mem_cons_of_mem _ hb))

theorem argv_parts (prog : List Char) (opts : List (List Char)) (f1 f2 : List Char) :
    (prog :: (opts ++ [f1, f2])).length = opts.length + 3 ∧
    (prog :: (opts ++ [f1, f2])).getD ((prog :: (opts ++ [f1, f2])).length - 2) [] = f1 ∧
    (prog :: (opts ++ [f1, f2])).getD ((prog :: (opts ++ [f1, f2])).length - 1) [] = f2 ∧
    option_args (prog :: (opts ++ [f1, f2])) = opts := by
  have hlen : (prog :: (opts ++ [f1, f2])).length = opts.length + 3 := by
    simp
  refine ⟨hlen, ?_, ?_, ?_⟩
  · rw [hlen]
    have e : opts.length + 3 - 2 = opts.length + 1 := by omega
    rw [e, List.getD_cons_succ, List.getD_eq_getElem?_getD,
      List.getElem?_append_right (Nat.le_refl _), Nat.sub_self]
    rfl
  · rw [hlen]
    have e : opts.length + 3 - 1 = (opts.length + 1) + 1 := by omega
    rw [e, List.getD_cons_succ, List.getD_eq_getElem?_getD,
      List.getElem?_append_right (Nat.le_succ _)]
    have e2 : opts.length + 1 - opts.length = 1 := by omega
    rw [e2]
    rfl
  · unfold option_args
    rw [hlen]
    have e : opts.length + 3 - 3 = opts.length := by omega
    rw [e, List.drop_one, List.tail_cons, List.take_left]

section
variable {Page Sz : Type} (tg : Nat → Nat → Nat → Nat) (P : Poppler Page Sz) (os : Os Page)

theorem main_stop (argv : List (List Char)) (file1 file2 : List Char) (code : Nat)
    (cfg : Config) (printed : List MainMsg) (hargc : ¬ argv.length < 3)
    (h1 : os.absolute (argv.getD (argv.length - 2) []) = some file1)
    (h2 : os.absolute (argv.getD (argv.length - 1) []) = some file2)
    (hp : parse_options os.absolute (option_args argv) default_config []
      = some (Parsed.stop code cfg printed)) :
    main tg P os argv =
      { exit_code := some code, opened := [], globals := cfg, printed := printed } := by
  unfold option_args at hp
  unfold main
  simp only []
  rw [if_neg hargc, h1, h2]
  simp only [hp]

/-- C12 as amended: for an argument vector with two trailing file arguments
(both non-empty paths, `std::filesystem::absolute` failing on no non-empty
path) in which some earlier argument, preceded by no `-h` or `--help`, is a
`--dpi=<v>` or `--channel-tolerance=<v>` option with non-empty `v` whose
reading by `atol` is out of range, `main` returns exit code 2 and opens no
document. -/
theorem main_rejects_out_of_range (prog : List Char) (pre post : List (List Char))
    (arg f1 f2 : List Char)
    (habs : ∀ p, p ≠ [] → ∃ q, os.absolute p = some q)
    (hf1 : f1 ≠ []) (hf2 : f2 ≠ [])
    (hpre : ∀ a, a ∈ pre → a ≠ "-h".data ∧ a ≠ "--help".data)
    (hbad : bad_dpi arg ∨ bad_tolerance arg) :
    (main tg P os (prog :: ((pre ++ arg :: post) ++ [f1, f2]))).exit_code = some 2 ∧
    (main tg P os (prog :: ((pre ++ arg :: post) ++ [f1, f2]))).opened = [] := by
  obtain ⟨hlen, hg1, hg2, hopts⟩ := argv_parts prog (pre ++ arg :: post) f1 f2
  obtain ⟨q1, hq1⟩ := habs f1 hf1
  obtain ⟨q2, hq2⟩ := habs f2 hf2
  obtain ⟨cfg1, printed, hp⟩ := parse_options_bad os.absolute habs arg post hbad pre
    default_config [] hpre
  rw [main_stop tg P os _ q1 q2 2 cfg1 printed (by rw [hlen]; omega)
    (by rw [hg1]; exact hq1) (by rw [hg2]; exact hq2) (by rw [hopts]; exact hp)]
  exact ⟨rfl, rfl⟩

end

/-- Instance of the amended C12: `-v --dpi=0 a.pdf b.pdf`. -/
theorem main_rejects_out_of_range_witness :
    (main ex_gray ex_poppler ex_os
      ("diff-pdf".data :: ((["-v".data] ++ "--dpi=0".data :: []) ++
        ["a.pdf".data, "b.pdf".data]))).exit_code = some 2 ∧
    (main ex_gray ex_poppler ex_os
      ("diff-pdf".data :: ((["-v".data] ++ "--dpi=0".data :: []) ++
        ["a.pdf".data, "b.pdf".data]))).opened = [] :=
  main_rejects_out_of_range ex_gray ex_poppler ex_os "diff-pdf".data ["-v".data] []
    "--dpi=0".data "a.pdf".data "b.pdf".data (fun p _ => ⟨p, rfl⟩) (by decide) (by decide)
    (by decide) (Or.inl (by unfold bad_dpi; decide))

/-- C12, the claim as stated fails twice over: a malformed tolerance `abc` is
read as 0 and accepted, so `main` opens both documents and returns 0; and an
out-of-range option that follows `-h` is never looked at, `main` returning 0. -/
theorem main_accepts_malformed :
    (main ex_gray ex_poppler ex_os ex_argv_malformed).exit_code = some 0 ∧
    (main ex_gray ex_poppler ex_os ex_argv_malformed).opened = ["a.pdf".data, "b.pdf".data] ∧
    (main ex_gray ex_poppler ex_os ex_argv_help).exit_code = some 0 := by
  decide

/-! ## The output document -/

section
variable {Page Sz : Type} (cfg : Config) (tg : Nat → Nat → Nat → Nat) (P : Poppler Page Sz)

/-- What `page_compare` does to an output context. -/
theorem page_compare_sink (o : PdfOut Page Sz) (p1 p2 : Option Page)
    (hs : p1 ≠ none ∨ p2 ≠ none) :
    page_compare cfg tg P (some o) p1 p2 =
      some (!(diff_final cfg tg (p1.map (P.render_page cfg.g_resolution))
          (p2.map (P.render_page cfg.g_resolution)) (P.thumbnail_width p1)).changes,
        some (
          if (diff_final cfg tg (p1.map (P.render_page cfg.g_resolution))
              (p2.map (P.render_page cfg.g_resolution)) (P.thumbnail_width p1)).changes = true
          then
            { size := o.size, pending := [],
              shown := o.shown ++ [(o.size, o.pending ++
                [Paint.image (diff_surface cfg tg (p1.map (P.render_page cfg.g_resolution))
                  (p2.map (P.render_page cfg.g_resolution)) (P.thumbnail_width p1))
                  cfg.g_resolution])] }
          else if cfg.g_skip_identical = true then o
          else
            { size := o.size, pending := [],
              shown := o.shown ++ [(o.size, o.pending ++ [Paint.page p1])] })) := by
  have hs1 : p1.map (P.render_page cfg.g_resolution) ≠ none ∨
      p2.map (P.render_page cfg.g_resolution) ≠ none := by
    cases p1 <;> cases p2 <;> simp at hs ⊢
  unfold page_compare
  simp only []
  rw [diff_images_eq cfg tg _ _ 0 0 _ hs1]
  cases (diff_final cfg tg (p1.map (P.render_page cfg.g_resolution))
    (p2.map (P.render_page cfg.g_resolution)) (P.thumbnail_width p1)).changes with
  | true => rfl
  | false =>
    cases hsk : cfg.g_skip_identical with
    | true => simp [hsk]
    | false => simp [hsk, cairo_show_page]

theorem page_differs_eq_changes (doc1 doc2 : List Page) (page : Nat)
    (h : page < max doc1.length doc2.length) :
    page_differs cfg tg P doc1 doc2 page =
      (diff_final cfg tg ((doc1.get? page).map (P.render_page cfg.g_resolution))
        ((doc2.get? page).map (P.render_page cfg.g_resolution))
        (P.thumbnail_width (doc1.get? page))).changes := by
  unfold page_differs
  rw [page_verdict_eq cfg tg P doc1 doc2 page h]
  cases (diff_final cfg tg ((doc1.get? page).map (P.render_page cfg.g_resolution))
    ((doc2.get? page).map (P.render_page cfg.g_resolution))
    (P.thumbnail_width (doc1.get? page))).changes <;> rfl

/-- One page pair through `page_compare` with the size of its index declared. -/
theorem page_compare_emits (doc1 doc2 : List Page) (page : Nat) (o : PdfOut Page Sz)
    (h : page < max doc1.length doc2.length) (hp : o.pending = []) :
    ∃ o1, page_compare cfg tg P
        (some { o with size := declared_size P doc1 doc2 page })
        (doc1.get? page) (doc2.get? page)
        = some (!page_differs cfg tg P doc1 doc2 page, some o1) ∧
      o1.pending = [] ∧
      o1.shown = o.shown ++ (emitted_page cfg tg P doc1 doc2 page).toList := by
  rw [page_compare_sink cfg tg P _ _ _ (get?_present doc1 doc2 page h),
    page_differs_eq_changes cfg tg P doc1 doc2 page h]
  refine ⟨_, rfl, ?_, ?_⟩
  · split_ifs <;> first | rfl | exact hp
  · unfold emitted_page
    rw [page_differs_eq_changes cfg tg P doc1 doc2 page h]
    unfold page_diff
    split_ifs <;> simp [hp]

end

section
variable {Page Sz : Type} (cfg : Config) (tg : Nat → Nat → Nat → Nat) (P : Poppler Page Sz)

theorem filterMap_range'_succ {α : Type} (g : Nat → Option α) (page n : Nat) :
    (List.range' page (n + 1)).filterMap g
      = (g page).toList ++ (List.range' (page + 1) n).filterMap g := by
  rw [List.range'_succ, List.filterMap_cons]
  cases g page <;> rfl

theorem doc_loop_output (doc1 doc2 : List Page) (f : String) (n : Nat) :
    ∀ (page : Nat) (st : DocState Page Sz) (o : PdfOut Page Sz),
      st.cr_out = some o → o.pending = [] →
      (page = 0 → o.size = declared_size P doc1 doc2 0) →
      page + n ≤ max doc1.length doc2.length →
      ∃ st1 o1, doc_loop cfg tg P doc1 doc2 (some f) n page st = some st1 ∧
        st1.cr_out = some o1 ∧ o1.pending = [] ∧
        o1.shown = o.shown ++
          (List.range' page n).filterMap (emitted_page cfg tg P doc1 doc2) := by
  induction n with
  | zero =>
    intro page st o hcr hp _ _
    exact ⟨st, o, rfl, hcr, hp, by simp⟩
  | succ k ih =>
    intro page st o hcr hp hsz hle
    have hpage : page < max doc1.length doc2.length := by omega
    have hsized : (if ((some f).isSome && page != 0) = true then
        Option.map (fun o => { o with size := Option.map P.page_get_size ((if doc1.length > doc2.length then doc1 else doc2).get? page) }) st.cr_out
        else st.cr_out) = some { o with size := declared_size P doc1 doc2 page } := by
      rw [hcr]
      by_cases h0 : page = 0
      · subst h0
        rw [← hsz rfl]
        rfl
      · have hc : ((some f).isSome && page != 0) = true := by
          simp [h0]
        rw [if_pos hc]
        unfold declared_size
        rw [if_neg h0]
        rfl
    obtain ⟨o1, hpc, hp1, hs1⟩ := page_compare_emits cfg tg P doc1 doc2 page o hpage hp
    unfold doc_loop
    simp only [get?_guard]
    rw [hsized, hpc]
    simp only []
    rw [filterMap_range'_succ]
    cases page_differs cfg tg P doc1 doc2 page with
    | false =>
      simp only [Bool.not_false, Bool.not_true, Bool.false_eq_true, if_false]
      obtain ⟨st2, o2, h1, h2, h3, h4⟩ := ih (page + 1)
        { st with
          cr_out := some o1,
          differences := st.differences.map (fun d => d ++ [false]),
          compared := st.compared ++ [page] } o1 rfl hp1
        (fun h => absurd h (Nat.succ_ne_zero page)) (by omega)
      refine ⟨st2, o2, h1, h2, h3, ?_⟩
      rw [h4, hs1, List.append_assoc]
    | true =>
      simp only [Bool.not_true, Bool.not_false, if_true, Option.isSome_some,
        Bool.and_false, Bool.false_and, Bool.false_eq_true, if_false]
      obtain ⟨st2, o2, h1, h2, h3, h4⟩ := ih (page + 1)
        { st with
          cr_out := some o1,
          differences := st.differences.map (fun d => d ++ [true]),
          compared := st.compared ++ [page],
          pages_differ := st.pages_differ + 1,
          stdout := if cfg.g_verbose = true then st.stdout ++ [Msg.page_differs (page + 1)]
                    else st.stdout } o1 rfl hp1
        (fun h => absurd h (Nat.succ_ne_zero page)) (by omega)
      refine ⟨st2, o2, h1, h2, h3, ?_⟩
      rw [h4, hs1, List.append_assoc]

/-- The output document `doc_compare` leaves behind when one is requested. -/
theorem doc_compare_output (doc1 doc2 : List Page) (f : String)
    (differences : Option (List Bool)) :
    ∃ r o, doc_compare cfg tg P doc1 doc2 (some f) differences = some r ∧
      r.output = some o ∧ o.pending = [] ∧
      o.shown = (List.range (max doc1.length doc2.length)).filterMap
        (emitted_page cfg tg P doc1 doc2) ∧
      r.pages_differ = ((List.range (max doc1.length doc2.length)).filter
        (page_differs cfg tg P doc1 doc2)).length := by
  obtain ⟨r, hr, _, _, hcount, _, _⟩ :=
    doc_compare_spec cfg tg P doc1 doc2 (some f) differences
  have hE : early_exit cfg (some f) differences = false := by
    simp [early_exit]
  have hvis : visited (page_differs cfg tg P doc1 doc2) false
      (max doc1.length doc2.length) 0 = List.range (max doc1.length doc2.length) := by
    rw [visited_all _ _ _ 0 (fun i _ _ => Bool.and_false _), List.range_eq_range']
  rw [hE, hvis] at hcount
  obtain ⟨st1, o1, h1, h2, h3, h4⟩ := doc_loop_output cfg tg P doc1 doc2 f
    (max doc1.length doc2.length) 0
    { pages_differ := 0,
      cr_out := if (some f).isSome = true then
          some { size := (doc1.get? 0).map P.page_get_size, pending := [], shown := [] }
        else none,
      differences := differences,
      stdout := if (doc1.length != doc2.length && cfg.g_verbose) = true then
          [Msg.pages_count_differs doc1.length doc2.length] else [],
      compared := [] }
    { size := (doc1.get? 0).map P.page_get_size, pending := [], shown := [] }
    rfl rfl (fun _ => rfl) (by omega)
  unfold doc_compare at hr ⊢
  simp only [pages_total_eq] at hr ⊢
  rw [h1] at hr ⊢
  simp only [Option.some.injEq] at hr
  refine ⟨r, o1, hr ▸ rfl, ?_, h3, ?_, hcount⟩
  · rw [← hr]
    exact h2
  · rw [h4, List.nil_append, List.range_eq_range']

end

theorem filterMap_length_filter {α : Type} (g : Nat → Option α) (D : Nat → Bool)
    (l : List Nat) (h : ∀ i, i ∈ l → (g i).isSome = D i) :
    (l.filterMap g).length = (l.filter D).length := by
  induction l with
  | nil => rfl
  | cons a t ih =>
    have ha := h a (List.mem_cons_self _ _)
    have iht := ih (fun i hi => h i (List.mem_cons_of_mem _ hi))
    rw [List.filterMap_cons, List.filter_cons]
    cases hg : g a with
    | none =>
      rw [hg] at ha
      rw [← ha]
      exact iht
    | some e =>
      rw [hg] at ha
      rw [← ha]
      simp [iht]

section
variable {Page Sz : Type} (cfg : Config) (tg : Nat → Nat → Nat → Nat) (P : Poppler Page Sz)

theorem emitted_page_isSome (doc1 doc2 : List Page) (i : Nat) :
    (emitted_page cfg tg P doc1 doc2 i).isSome =
      (page_differs cfg tg P doc1 doc2 i || !cfg.g_skip_identical) := by
  unfold emitted_page
  cases page_differs cfg tg P doc1 doc2 i <;> cases cfg.g_skip_identical <;> rfl

/-- C11: output emission.  With an output context, `page_compare` commits
exactly one page holding the diff composite when `diff_images` returns one,
exactly one page holding the content of `page1` when it returns `NULL` and
skip-identical is off, and nothing when it returns `NULL` and skip-identical is
on.  Hence `doc_compare` with an output file commits, in increasing page
order, one page per index below `pages_total` that differs or is not skipped:
`pages_total` pages with skip-identical off, as many as differ with it on. -/
theorem output_emission (o : PdfOut Page Sz) (p1 p2 : Option Page)
    (doc1 doc2 : List Page) (f : String) (differences : Option (List Bool))
    (hs : p1 ≠ none ∨ p2 ≠ none) :
    (∃ res o1,
      diff_images cfg tg (p1.map (P.render_page cfg.g_resolution))
        (p2.map (P.render_page cfg.g_resolution)) 0 0 (P.thumbnail_width p1) = some res ∧
      page_compare cfg tg P (some o) p1 p2 = some (!res.diff.isSome, some o1) ∧
      (∀ d, res.diff = some d →
        o1 = { size := o.size, pending := [],
               shown := o.shown ++
                 [(o.size, o.pending ++ [Paint.image d cfg.g_resolution])] }) ∧
      (res.diff = none → cfg.g_skip_identical = false →
        o1 = { size := o.size, pending := [],
               shown := o.shown ++ [(o.size, o.pending ++ [Paint.page p1])] }) ∧
      (res.diff = none → cfg.g_skip_identical = true → o1 = o)) ∧
    (∃ r out, doc_compare cfg tg P doc1 doc2 (some f) differences = some r ∧
      r.output = some out ∧ out.pending = [] ∧
      out.shown = (List.range (max doc1.length doc2.length)).filterMap
        (emitted_page cfg tg P doc1 doc2) ∧
      (cfg.g_skip_identical = false → out.shown.length = max doc1.length doc2.length) ∧
      (cfg.g_skip_identical = true → out.shown.length = r.pages_differ)) := by
  constructor
  · have hs1 : p1.map (P.render_page cfg.g_resolution) ≠ none ∨
        p2.map (P.render_page cfg.g_resolution) ≠ none := by
      cases p1 <;> cases p2 <;> simp at hs ⊢
    have hdi := diff_images_eq cfg tg _ _ 0 0 (P.thumbnail_width p1) hs1
    have hpc := page_compare_sink cfg tg P o p1 p2 hs
    cases hc : (diff_final cfg tg (p1.map (P.render_page cfg.g_resolution))
      (p2.map (P.render_page cfg.g_resolution)) (P.thumbnail_width p1)).changes with
    | true =>
      rw [hc] at hdi hpc
      simp only [if_true] at hdi hpc
      refine ⟨_, _, hdi, hpc, ?_, ?_, ?_⟩
      · intro d hd
        rw [← Option.some.inj hd]
      · intro hd
        exact Option.noConfusion hd
      · intro hd
        exact Option.noConfusion hd
    | false =>
      rw [hc] at hdi hpc
      simp only [Bool.false_eq_true, if_false] at hdi hpc
      cases hsk : cfg.g_skip_identical with
      | true =>
        rw [hsk] at hpc
        simp only [if_true] at hpc
        refine ⟨_, _, hdi, hpc, ?_, ?_, ?_⟩
        · intro d hd
          exact Option.noConfusion hd
        · intro _ h
          exact Bool.noConfusion h
        · intro _ _
          rfl
      | false =>
        rw [hsk] at hpc
        simp only [Bool.false_eq_true, if_false] at hpc
        refine ⟨_, _, hdi, hpc, ?_, ?_, ?_⟩
        · intro d hd
          exact Option.noConfusion hd
        · intro _ _
          rfl
        · intro _ h
          exact Bool.noConfusion h
  · obtain ⟨r, out, hr, ho, hp, hsh, hcount⟩ :=
      doc_compare_output cfg tg P doc1 doc2 f differences
    refine ⟨r, out, hr, ho, hp, hsh, ?_, ?_⟩
    · intro hsk
      rw [hsh, filterMap_length_filter _ (fun _ => true) _ (fun i _ => by
        rw [emitted_page_isSome, hsk, Bool.not_false, Bool.or_true])]
      simp
    · intro hsk
      rw [hsh, hcount]
      exact filterMap_length_filter _ _ _ (fun i _ => by
        rw [emitted_page_isSome, hsk, Bool.not_true, Bool.or_false])

theorem emitted_page_no_skip (doc1 doc2 : List Page) (i : Nat)
    (hsk : cfg.g_skip_identical = false) :
    ∃ content, emitted_page cfg tg P doc1 doc2 i
      = some (declared_size P doc1 doc2 i, content) := by
  unfold emitted_page
  rw [hsk]
  cases page_differs cfg tg P doc1 doc2 i
  · exact ⟨[Paint.page (doc1.get? i)], rfl⟩
  · exact ⟨[Paint.image (page_diff cfg tg P doc1 doc2 i) cfg.g_resolution], rfl⟩

theorem filterMap_range_get? {α : Type} (g : Nat → Option α) (n i : Nat) (hi : i < n)
    (hall : ∀ k, k < n → (g k).isSome = true) :
    ((List.range n).filterMap g).get? i = g i := by
  have hs := hall i hi
  cases hg : g i with
  | none =>
    rw [hg] at hs
    exact Bool.noConfusion hs
  | some e0 =>
    have hmap : (List.range n).filterMap g
        = (List.range n).map (fun k => (g k).getD e0) := by
      rw [← List.filterMap_eq_map]
      apply List.filterMap_congr
      intro k hk
      have hsk := hall k (List.mem_range.1 hk)
      cases hgk : g k with
      | none =>
        rw [hgk] at hsk
        exact Bool.noConfusion hsk
      | some e =>
        show some e = some ((g k).getD e0)
        rw [hgk]
        rfl
    rw [hmap, List.get?_eq_getElem?, List.getElem?_map, List.getElem?_range hi]
    show some ((g i).getD e0) = some e0
    rw [hg]
    rfl

/-- C16 as amended: with an output file requested, every committed output
page of index `i ≥ 1` carries the size of page `i` of the document with the
greater page count (the second when the counts are equal), a page that
exists; the output page of index 0 carries the size of page 0 of the first
document when that document has a page.  With skip-identical off the `i`-th
committed page is the page of index `i`. -/
theorem output_page_size (doc1 doc2 : List Page) (f : String)
    (differences : Option (List Bool)) :
    ∃ r out, doc_compare cfg tg P doc1 doc2 (some f) differences = some r ∧
      r.output = some out ∧
      out.shown = (List.range (max doc1.length doc2.length)).filterMap
        (emitted_page cfg tg P doc1 doc2) ∧
      (∀ i e, 1 ≤ i → i < max doc1.length doc2.length →
        emitted_page cfg tg P doc1 doc2 i = some e →
        ∃ p, (if doc1.length > doc2.length then doc1 else doc2).get? i = some p ∧
          e.1 = some (P.page_get_size p)) ∧
      (∀ e p, emitted_page cfg tg P doc1 doc2 0 = some e → doc1.get? 0 = some p →
        e.1 = some (P.page_get_size p)) ∧
      (cfg.g_skip_identical = false →
        (∀ i, 1 ≤ i → i < max doc1.length doc2.length →
          ∃ p, (if doc1.length > doc2.length then doc1 else doc2).get? i = some p ∧
            (out.shown.get? i).map Prod.fst = some (some (P.page_get_size p))) ∧
        (∀ p, 0 < max doc1.length doc2.length → doc1.get? 0 = some p →
          (out.shown.get? 0).map Prod.fst = some (some (P.page_get_size p)))) := by
  obtain ⟨r, out, hr, ho, _, hsh, _⟩ := doc_compare_output cfg tg P doc1 doc2 f differences
  have hsize : ∀ i e, emitted_page cfg tg P doc1 doc2 i = some e →
      e.1 = declared_size P doc1 doc2 i := by
    intro i e he
    unfold emitted_page at he
    split_ifs at he
    · rw [← Option.some.inj he]
    · rw [← Option.some.inj he]
  have hlater : ∀ i, 1 ≤ i → i < max doc1.length doc2.length →
      ∃ p, (if doc1.length > doc2.length then doc1 else doc2).get? i = some p ∧
        declared_size P doc1 doc2 i = some (P.page_get_size p) := by
    intro i h1 hi
    have hlt : i < (if doc1.length > doc2.length then doc1 else doc2).length := by
      split_ifs <;> omega
    refine ⟨_, List.get?_eq_get hlt, ?_⟩
    unfold declared_size
    rw [if_neg (by omega), List.get?_eq_get hlt]
    rfl
  have hfirst : ∀ p, doc1.get? 0 = some p →
      declared_size P doc1 doc2 0 = some (P.page_get_size p) := by
    intro p hp
    unfold declared_size
    rw [if_pos rfl, hp]
    rfl
  refine ⟨r, out, hr, ho, hsh, ?_, ?_, ?_⟩
  · intro i e h1 hi he
    obtain ⟨p, hp, hd⟩ := hlater i h1 hi
    exact ⟨p, hp, by rw [hsize i e he, hd]⟩
  · intro e p he hp
    rw [hsize 0 e he, hfirst p hp]
  · intro hsk
    have hget : ∀ i, i < max doc1.length doc2.length →
        (out.shown.get? i).map Prod.fst = some (declared_size P doc1 doc2 i) := by
      intro i hi
      rw [hsh, filterMap_range_get? _ _ i hi (fun k _ => by
        rw [emitted_page_isSome, hsk, Bool.not_false, Bool.or_true])]
      obtain ⟨content, hc⟩ := emitted_page_no_skip cfg tg P doc1 doc2 i hsk
      rw [hc]
      rfl
    constructor
    · intro i h1 hi
      obtain ⟨p, hp, hd⟩ := hlater i h1 hi
      exact ⟨p, hp, by rw [hget i hi, hd]⟩
    · intro p h0 hp
      rw [hget 0 h0, hfirst p hp]

end

/-- C16, the claim as stated fails: with a one-page first document of size 1
and a two-page second document of size 2, output page 0 is given size 1, the
size of page 0 of the first document, not of the longer one. -/
theorem output_page_size_first :
    (doc_compare ex_cfg ex_gray ex_poppler ex_doc_short ex_doc_long (some "out.pdf")
        none).bind (fun r => r.output.map (fun o => o.shown.map Prod.fst))
      = some [some 1, some 2] ∧
    (ex_doc_long.get? 0).map ex_poppler.page_get_size = some 2 := by
  decide

/-- Instance of C11: the page pair `ex_a`, `ex_b` into a fresh context, and
two-page documents whose second pages differ. -/
theorem output_emission_witness :
    (∃ res o1,
      diff_images ex_cfg ex_gray ((some ex_a).map (ex_poppler.render_page ex_cfg.g_resolution))
        ((some ex_b).map (ex_poppler.render_page ex_cfg.g_resolution)) 0 0
        (ex_poppler.thumbnail_width (some ex_a)) = some res ∧
      page_compare ex_cfg ex_gray ex_poppler (some ex_out) (some ex_a) (some ex_b)
        = some (!res.diff.isSome, some o1) ∧
      (∀ d, res.diff = some d →
        o1 = { size := ex_out.size, pending := [],
               shown := ex_out.shown ++
                 [(ex_out.size, ex_out.pending ++ [Paint.image d ex_cfg.g_resolution])] }) ∧
      (res.diff = none → ex_cfg.g_skip_identical = false →
        o1 = { size := ex_out.size, pending := [],
               shown := ex_out.shown ++
                 [(ex_out.size, ex_out.pending ++ [Paint.page (some ex_a)])] }) ∧
      (res.diff = none → ex_cfg.g_skip_identical = true → o1 = ex_out)) ∧
    (∃ r out, doc_compare ex_cfg ex_gray ex_poppler ex_doc_long [ex_a, ex_b] (some "out.pdf")
        none = some r ∧
      r.output = some out ∧ out.pending = [] ∧
      out.shown = (List.range (max ex_doc_long.length [ex_a, ex_b].length)).filterMap
        (emitted_page ex_cfg ex_gray ex_poppler ex_doc_long [ex_a, ex_b]) ∧
      (ex_cfg.g_skip_identical = false →
        out.shown.length = max ex_doc_long.length [ex_a, ex_b].length) ∧
      (ex_cfg.g_skip_identical = true → out.shown.length = r.pages_differ)) :=
  output_emission ex_cfg ex_gray ex_poppler ex_out (some ex_a) (some ex_b) ex_doc_long
    [ex_a, ex_b] "out.pdf" none (by decide)

/-! ## Index safety -/

theorem rd_of_lt (l : List Nat) (i : Nat) (h : i < l.length) :
    rd l i = some (l.getD i 0) :=
  if_pos h

theorem wr_of_lt (l : List Nat) (i v : Nat) (h : i < l.length) :
    wr l i v = some (l.set i v) :=
  if_pos h

theorem forLoopM_eq {σ : Type} (body : Nat → σ → Option σ) (pure_body : Nat → σ → σ)
    (I : Nat → σ → Prop) (s : σ) (n : Nat) (h0 : I 0 s)
    (hs : ∀ i t, i < n → I i t → body i t = some (pure_body i t) ∧ I (i + 1) (pure_body i t)) :
    forLoopM body n s = some (forLoop pure_body n s) ∧ I n (forLoop pure_body n s) := by
  induction n with
  | zero => exact ⟨rfl, h0⟩
  | succ k ih =>
    obtain ⟨e, hI⟩ := ih (fun i t hi hp => hs i t (Nat.lt_succ_of_lt hi) hp)
    obtain ⟨e1, hI1⟩ := hs k _ (Nat.lt_succ_self k) hI
    refine ⟨?_, hI1⟩
    rw [forLoopM, e, Option.some_bind, e1]
    rfl

theorem memcpy_checked_eq (dst : List Nat) (d : Nat) (src : List Nat) (s n : Nat)
    (hsrc : s + n ≤ src.length) (hdst : d + n ≤ dst.length) :
    memcpy_checked dst d src s n = some (memcpy dst d src s n) := by
  unfold memcpy_checked memcpy
  refine (forLoopM_eq _ _ (fun _ acc => acc.length = dst.length) dst n rfl ?_).1
  intro i t hi hl
  refine ⟨?_, by simp [hl]⟩
  rw [rd_of_lt src (s + i) (by omega), Option.some_bind, wr_of_lt t (d + i) _ (by omega)]

theorem copy_rows_checked_eq (src : List Nat) (stride1 sd out w : Nat) (dd0 : List Nat)
    (n : Nat) (hsep : w ≤ sd) (hw : w ≤ stride1) (hlen : out + n * sd ≤ dd0.length)
    (hsrc : stride1 * n ≤ src.length) :
    forLoopM (fun y dd => memcpy_checked dd (out + y * sd) src (y * stride1) w) n dd0
      = some (forLoop (fun y dd => memcpy dd (out + y * sd) src (y * stride1) w) n dd0) := by
  refine (forLoopM_eq _ _ (fun _ acc => acc.length = dd0.length) dd0 n rfl ?_).1
  intro y t hy hl
  have h1 := row_sep y n sd hy
  have h2 := row_sep y n stride1 hy
  have h3 : stride1 * n = n * stride1 := Nat.mul_comm _ _
  refine ⟨memcpy_checked_eq t _ src _ w (by omega) (by omega), ?_⟩
  show (memcpy t (out + y * sd) src (y * stride1) w).length = dd0.length
  rw [(memcpy_spec t (out + y * sd) src (y * stride1) w).1, hl]

section
variable (cfg : Config) (tg : Nat → Nat → Nat → Nat)

theorem pixel_step_checked_eq (data2 : List Nat) (th : Bool) (r2 : Rect) (out d2 y px : Nat)
    (st : DiffState) (h1 : out + 4 * px + 3 ≤ st.datadiff.length)
    (h2 : d2 + 4 * px + 3 ≤ data2.length) :
    pixel_step_checked cfg tg data2 th r2 out d2 y px st
      = some (pixel_step cfg tg data2 th r2 out d2 y px st) := by
  unfold pixel_step_checked pixel_step
  simp only []
  rw [rd_of_lt st.datadiff (out + 4 * px + 0) (by omega),
    rd_of_lt st.datadiff (out + 4 * px + 1) (by omega),
    rd_of_lt st.datadiff (out + 4 * px + 2) (by omega),
    rd_of_lt data2 (d2 + 4 * px + 0) (by omega),
    rd_of_lt data2 (d2 + 4 * px + 1) (by omega),
    rd_of_lt data2 (d2 + 4 * px + 2) (by omega)]
  simp only [Option.some_bind]
  cases pixel_differs cfg.g_channel_tolerance (st.datadiff.getD (out + 4 * px + 0) 0)
    (st.datadiff.getD (out + 4 * px + 1) 0) (st.datadiff.getD (out + 4 * px + 2) 0)
    (data2.getD (d2 + 4 * px + 0) 0) (data2.getD (d2 + 4 * px + 1) 0)
    (data2.getD (d2 + 4 * px + 2) 0) <;>
  cases cfg.g_grayscale <;>
  simp only [Bool.false_eq_true, if_false, if_true] <;>
  first
  | rw [wr_of_lt _ (out + 4 * px + 2) _ (by omega)]
    rfl
  | rw [wr_of_lt _ (out + 4 * px + 0) _ (by omega), Option.some_bind,
      wr_of_lt _ (out + 4 * px + 1) _ (by rw [List.length_set]; omega), Option.some_bind,
      wr_of_lt _ (out + 4 * px + 2) _ (by rw [List.length_set, List.length_set]; omega)]
    rfl

theorem pixel_loop_checked_eq (data2 : List Nat) (th : Bool) (r2 : Rect) (out d2 y : Nat)
    (st0 : DiffState) (n : Nat) (h1 : out + 4 * n ≤ st0.datadiff.length)
    (h2 : d2 + 4 * n ≤ data2.length) :
    forLoopM (pixel_step_checked cfg tg data2 th r2 out d2 y) n st0
      = some (forLoop (pixel_step cfg tg data2 th r2 out d2 y) n st0) := by
  refine (forLoopM_eq _ _ (fun _ st => st.datadiff.length = st0.datadiff.length) st0 n rfl
    ?_).1
  intro px t hpx hl
  refine ⟨pixel_step_checked_eq cfg tg data2 th r2 out d2 y px t (by omega) (by omega), ?_⟩
  show (pixel_step cfg tg data2 th r2 out d2 y px t).datadiff.length = st0.datadiff.length
  rw [pixel_step_length, hl]

theorem mark_row_checked_eq (out : Nat) (width : Int) (dd : List Nat)
    (hlen : out + 4 * width.toNat ≤ dd.length) :
    mark_row_checked out width dd = some (mark_row out width dd) := by
  unfold mark_row_checked mark_row
  rw [mark_count_eq]
  have hm : min 10 width.toNat ≤ width.toNat := Nat.min_le_right _ _
  refine (forLoopM_eq _ _ (fun _ acc => acc.length = dd.length) dd _ rfl ?_).1
  intro px t hpx hl
  refine ⟨?_, by simp [hl]⟩
  rw [wr_of_lt _ (out + 4 * px + 0) _ (by omega), Option.some_bind,
    wr_of_lt _ (out + 4 * px + 1) _ (by rw [List.length_set]; omega), Option.some_bind,
    wr_of_lt _ (out + 4 * px + 2) _ (by rw [List.length_set, List.length_set]; omega)]

theorem row_step_checked_eq (data2 : List Nat) (stride2 : Nat) (th : Bool) (r2 : Rect)
    (sd out0 y : Nat) (st : DiffState)
    (h1 : out0 + y * sd + 4 * r2.width.toNat ≤ st.datadiff.length)
    (h2 : y * stride2 + 4 * r2.width.toNat ≤ data2.length) :
    row_step_checked cfg tg data2 stride2 th r2 sd out0 y st
      = some (row_step cfg tg data2 stride2 th r2 sd out0 y st) := by
  have hl := (pixel_loop_spec cfg tg data2 th r2 (out0 + y * sd) (y * stride2) y
    { st with linediff := false } r2.width.toNat h1).1
  unfold row_step_checked row_step
  simp only []
  rw [pixel_loop_checked_eq cfg tg data2 th r2 (out0 + y * sd) (y * stride2) y
    { st with linediff := false } r2.width.toNat h1 h2, Option.some_bind]
  split_ifs
  · rw [mark_row_checked_eq _ _ _ (by rw [hl]; exact h1), Option.some_bind]
  · rfl

theorem blend_rows_checked_eq (data2 : List Nat) (stride2 : Nat) (th : Bool) (r2 : Rect)
    (sd out0 : Nat) (st0 : DiffState) (n : Nat)
    (hsep : 4 * r2.width.toNat ≤ sd) (hw : 4 * r2.width.toNat ≤ stride2)
    (hlen : out0 + n * sd ≤ st0.datadiff.length) (hsrc : stride2 * n ≤ data2.length) :
    forLoopM (row_step_checked cfg tg data2 stride2 th r2 sd out0) n st0
      = some (forLoop (row_step cfg tg data2 stride2 th r2 sd out0) n st0) := by
  refine (forLoopM_eq _ _ (fun _ st => st.datadiff.length = st0.datadiff.length) st0 n rfl
    ?_).1
  intro y t hy hl
  have h1 := row_sep y n sd hy
  have h2 := row_sep y n stride2 hy
  have h3 : stride2 * n = n * stride2 := Nat.mul_comm _ _
  have hrow : out0 + y * sd + 4 * r2.width.toNat ≤ t.datadiff.length := by omega
  refine ⟨row_step_checked_eq cfg tg data2 stride2 th r2 sd out0 y t hrow (by omega), ?_⟩
  show (row_step cfg tg data2 stride2 th r2 sd out0 y t).datadiff.length
    = st0.datadiff.length
  rw [(row_step_spec cfg tg data2 stride2 th r2 sd out0 y t hrow).1, hl]

end

theorem copy_s1_checked_eq (s1 s2 : Option Surface) (hwf : ∀ a, s1 = some a → a.wf) :
    copy_s1_checked s1 (diff_rects s1 s2).r1 (diff_canvas s1 s2).stride
        (diff_canvas s1 s2).data
      = some (diff_base s1 s2) := by
  unfold diff_base
  cases s1 with
  | none => rfl
  | some a =>
    obtain ⟨hw1, hw2⟩ := hwf a rfl
    rw [copy_s1_some_eq, diff_rects_r1]
    simp only [copy_s1_checked, buf_width, buf_height]
    have e1 : ((0 : Int) * ((diff_canvas (some a) s2).stride : Int) + 0 * 4).toNat = 0 := by
      simp
    have e2 : ((a.width : Int) * 4).toNat = 4 * a.width := by omega
    have e3 : ((a.height : Int)).toNat = a.height := by omega
    rw [e1, e2, e3]
    have hW : a.width ≤ max (buf_width (some a)) (buf_width s2) := Nat.le_max_left _ _
    have hH : a.height ≤ max (buf_height (some a)) (buf_height s2) := Nat.le_max_left _ _
    have hlen : (diff_canvas (some a) s2).data.length =
        max (buf_height (some a)) (buf_height s2) *
          (4 * max (buf_width (some a)) (buf_width s2)) := by
      rw [diff_canvas_data, List.length_replicate, Nat.mul_comm]
    have hmul := Nat.mul_le_mul_right (4 * max (buf_width (some a)) (buf_width s2)) hH
    have hst := diff_canvas_stride (some a) s2
    exact copy_rows_checked_eq a.data a.stride _ 0 (4 * a.width) _ a.height
      (by rw [hst]; omega) hw1 (by rw [hst, hlen]; omega) hw2

section
variable (cfg : Config) (tg : Nat → Nat → Nat → Nat)

theorem blend_s2_checked_eq (s1 s2 : Option Surface) (th : Bool) (st : DiffState)
    (hwf : ∀ b, s2 = some b → b.wf)
    (hlen : st.datadiff.length =
      4 * max (buf_width s1) (buf_width s2) * max (buf_height s1) (buf_height s2)) :
    blend_s2_checked cfg tg s2 th (diff_rects s1 s2).r2 (diff_canvas s1 s2).stride st
      = some (blend_s2 cfg tg s2 th (diff_rects s1 s2).r2 (diff_canvas s1 s2).stride st) := by
  cases s2 with
  | none => rfl
  | some b =>
    obtain ⟨hw1, hw2⟩ := hwf b rfl
    rw [diff_rects_r2]
    simp only [blend_s2_checked, blend_s2, buf_width, buf_height]
    have e1 : ((0 : Int) * ((diff_canvas s1 (some b)).stride : Int) + 0 * 4).toNat = 0 := by
      simp
    have e3 : ((b.height : Int)).toNat = b.height := by omega
    rw [e1, e3]
    have hW : b.width ≤ max (buf_width s1) (buf_width (some b)) := Nat.le_max_right _ _
    have hH : b.height ≤ max (buf_height s1) (buf_height (some b)) := Nat.le_max_right _ _
    have hmul := Nat.mul_le_mul_right (4 * max (buf_width s1) (buf_width (some b))) hH
    have hcomm : 4 * max (buf_width s1) (buf_width (some b)) *
        max (buf_height s1) (buf_height (some b))
        = max (buf_height s1) (buf_height (some b)) *
          (4 * max (buf_width s1) (buf_width (some b))) := Nat.mul_comm _ _
    have hst := diff_canvas_stride s1 (some b)
    have hbw : ((b.width : Int)).toNat = b.width := by omega
    exact blend_rows_checked_eq cfg tg b.data b.stride th
      ⟨0, 0, (b.width : Int), (b.height : Int)⟩ _ 0 st b.height
      (by rw [hst]; simp only [hbw]; omega) (by simp only [hbw]; exact hw1)
      (by rw [hst, hlen]; omega) hw2

theorem diff_final_checked_eq (s1 s2 : Option Surface) (tw : Int)
    (h1 : ∀ a, s1 = some a → a.wf) (h2 : ∀ b, s2 = some b → b.wf) :
    diff_final_checked cfg tg s1 s2 tw = some (diff_final cfg tg s1 s2 tw) := by
  unfold diff_final_checked diff_final
  simp only []
  rw [copy_s1_checked_eq s1 s2 h1, Option.some_bind]
  exact blend_s2_checked_eq cfg tg s1 s2 _ _ h2 (diff_base_length s1 s2)

/-- C19: index safety.  For buffers (not both absent) whose rows are at least
`4 * width` bytes apart and whose data covers `stride * height` bytes, the
differ with checked indexing never leaves a buffer: every read of `s1` and
`s2` and every read and write of the composite (row copy, comparison,
compositing, marking) is within bounds, and the checked run returns exactly
what `diff_images` returns. -/
theorem diff_images_in_bounds (s1 s2 : Option Surface)
    (offset_x offset_y thumbnail_width : Int)
    (hs : s1 ≠ none ∨ s2 ≠ none)
    (h1 : ∀ a, s1 = some a → a.wf) (h2 : ∀ b, s2 = some b → b.wf) :
    diff_final_checked cfg tg s1 s2 thumbnail_width
      = some (diff_final cfg tg s1 s2 thumbnail_width) ∧
    (∃ r, diff_images_checked cfg tg s1 s2 offset_x offset_y thumbnail_width = some r ∧
      diff_images cfg tg s1 s2 offset_x offset_y thumbnail_width = some r) := by
  have hf := diff_final_checked_eq cfg tg s1 s2 thumbnail_width h1 h2
  refine ⟨hf, ?_⟩
  have hn : (s1.isNone && s2.isNone) = false := by
    cases s1 <;> cases s2 <;> simp at hs ⊢
  unfold diff_images_checked diff_images
  rw [hn, hf]
  simp only [Bool.false_eq_true, if_false, Option.some_bind]
  split_ifs <;> exact ⟨_, rfl, rfl⟩

end

/-- Instance of C19: `ex_c` against `ex_a` with marking on. -/
theorem diff_images_in_bounds_witness :
    diff_final_checked ex_cfg_mark ex_gray (some ex_c) (some ex_a) (-1)
      = some (diff_final ex_cfg_mark ex_gray (some ex_c) (some ex_a) (-1)) ∧
    (∃ r, diff_images_checked ex_cfg_mark ex_gray (some ex_c) (some ex_a) 0 0 (-1) = some r ∧
      diff_images ex_cfg_mark ex_gray (some ex_c) (some ex_a) 0 0 (-1) = some r) :=
  diff_images_in_bounds ex_cfg_mark ex_gray (some ex_c) (some ex_a) 0 0 (-1) (by decide)
    (fun a ha => by
      rw [← Option.some.inj ha]
      unfold Surface.wf
      decide)
    (fun b hb => by
      rw [← Option.some.inj hb]
      unfold Surface.wf
      decide)

/-- The index checks are live: on a buffer whose data is shorter than
`stride * height` the checked differ stops at an access outside the buffer. -/
theorem diff_images_checked_short :
    diff_images_checked ex_cfg ex_gray (some ex_a) (some ex_short) 0 0 (-1) = none := by
  decide

end DiffPdf
